import Mathlib

/- Verification of the openclaw workforce orchestration core.

   This file is a shallow embedding of `src/workforce/service.ts`,
   `src/workforce/appfolio-reports.ts`, `src/workforce/roster.ts`,
   `src/workforce/store.ts` and the row/count extraction layer of
   `src/infra/appfolio-reports.ts`, together with theorems settling the
   specification claims.

   Modelling conventions:
   * JavaScript numbers that the code treats as integers (timestamps, counts,
     interval lengths, pagination bounds) are modelled as `Nat`/`Int`.
   * `randomUUID()` is modelled by a fresh-identifier counter `nextId`
     threaded through the store; identifiers are `Nat` and are rendered with
     `toString` where the source embeds them in strings.  The counter is not
     part of the on-disk document in the source; it models UUID freshness.
   * `Date.now()` is modelled by an explicit `ts` argument: the source reads
     the clock once per exported operation (`const ts = nowMs()`); the inner
     clock read of `collectNextSteps` happens within the same operation and
     is modelled with the same value.
   * Stores reachable through the service are well-typed, so the dynamic type
     guards of `sanitizeStore` (`Array.isArray`, enum membership checks on
     `riskLevel`/`policyProfile`/`policyDecision`, presence of `seqByRunId`)
     all succeed; on such stores `sanitizeStore` is the identity and it is
     modelled as such.
   * The external HTTP layer (env/auth resolution, `fetch`) of
     `infra/appfolio-reports.ts` is an oracle producing per call either a
     failure or a parsed JSON payload with a status and endpoint; the
     in-repository row/count/next-page extraction and row slicing applied to
     each response is embedded from the source.
   * The SHA-256 receipt signature is modelled as the identity on the
     signature base string: it is a deterministic function of the same
     fields, and no claim inspects signature values.
-/

namespace OpenClaw

/-! Basic string and JSON utilities. -/

/-- Helper for substring search over character lists. -/
def hasSubList (needle : List Char) : List Char → Bool
  | [] => needle.isEmpty
  | c :: rest => needle.isPrefixOf (c :: rest) || hasSubList needle rest

/-- Substring test, modelling JavaScript `String.prototype.includes`. -/
def strIncludes (hay needle : String) : Bool :=
  hasSubList needle.toList hay.toList

/-- JavaScript `String.prototype.startsWith`, on the character list. -/
def strStartsWith (s pre : String) : Bool :=
  pre.toList.isPrefixOf s.toList

def isJsWhitespace (c : Char) : Bool :=
  c == ' ' || c == '\t' || c == '\n' || c == '\r'

/-- JavaScript `String.prototype.trim` (ASCII whitespace model). -/
def jsTrim (s : String) : String :=
  String.mk (((s.toList.dropWhile isJsWhitespace).reverse.dropWhile isJsWhitespace).reverse)

def lowerChar (c : Char) : Char :=
  if 'A' ≤ c && c ≤ 'Z' then Char.ofNat (c.toNat + 32) else c

/-- JavaScript `String.prototype.toLowerCase` (ASCII model). -/
def jsToLower (s : String) : String :=
  String.mk (s.toList.map lowerChar)

/-- Lexicographic order on character lists, by code point. -/
def charListLt : List Char → List Char → Bool
  | [], [] => false
  | [], _ :: _ => true
  | _ :: _, [] => false
  | a :: as, b :: bs =>
    if a.toNat < b.toNat then true
    else if b.toNat < a.toNat then false
    else charListLt as bs

/-- JavaScript `a < b` on strings: lexicographic comparison by code unit. -/
def strLt (a b : String) : Bool :=
  charListLt a.toList b.toList

/-- JSON-like runtime values: payloads, report filters and report rows. -/
inductive JVal where
  | null
  | bool (b : Bool)
  | num (n : Int)
  | str (s : String)
  | arr (elems : List JVal)
  | obj (fields : List (String × JVal))
deriving Inhabited

/-- A JavaScript object (`Record<string, unknown>`): ordered key/value pairs
    with unique keys. -/
abbrev Payload := List (String × JVal)

/-- Property read `record[key]`: `none` models JavaScript `undefined`. -/
def getKey (p : Payload) (k : String) : Option JVal :=
  (p.find? (fun e => e.1 == k)).map (·.2)

/-- Property write `record[key] = v`, preserving JavaScript key insertion
    order: update in place if present, else append. -/
def setKey (p : Payload) (k : String) (v : JVal) : Payload :=
  match p with
  | [] => [(k, v)]
  | e :: rest => if e.1 == k then (k, v) :: rest else e :: setKey rest k v

/-- The source's `isRecord`: a non-null, non-array object. -/
def isRecordJ : JVal → Bool
  | JVal.obj _ => true
  | _ => false

/-- The source's `asRecord` (workforce/appfolio-reports.ts). -/
def asRecordJ : JVal → Option Payload
  | JVal.obj fields => some fields
  | _ => none

/-- The source's `asString`: a string trimmed to `null` when blank. -/
def asStringJ : JVal → Option String
  | JVal.str s => (if jsTrim s == "" then none else some (jsTrim s))
  | _ => none

/-- The source's `normalizeString` (infra/appfolio-reports.ts): same
    trim-to-null behaviour. -/
def normalizeStringJ : JVal → Option String
  | JVal.str s => (if jsTrim s == "" then none else some (jsTrim s))
  | _ => none

mutual

/-- Deep payload merge (service.ts `mergePayload`): iterate the override
    entries, merging nested records and overriding everything else. -/
def mergePayload (base : Payload) : Payload → Payload
  | [] => base
  | (k, v) :: rest =>
    mergePayload (setKey base k (mergeOverrideValue (getKey base k) v)) rest

/-- The per-key body of `mergePayload`: recursive merge when both the
    existing and the override value are records, plain override otherwise. -/
def mergeOverrideValue (existing : Option JVal) : JVal → JVal
  | JVal.obj o =>
    (match existing with
     | some (JVal.obj b) => JVal.obj (mergePayload b o)
     | _ => JVal.obj o)
  | v => v

end

/-! Calendar arithmetic.  The source manipulates dates through JavaScript
    `Date` UTC accessors; here dates are represented as a civil triple
    (year, month, day) together with an epoch-day count, using the standard
    civil-from-days / days-from-civil conversions. -/

def DAY_MS : Nat := 86400000

def isLeapYear (y : Int) : Bool :=
  (y % 4 == 0 && y % 100 != 0) || (y % 400 == 0)

def daysInMonth (y : Int) (m : Nat) : Nat :=
  if m == 2 then (if isLeapYear y then 29 else 28)
  else if m == 4 || m == 6 || m == 9 || m == 11 then 30
  else 31

/-- Days since 1970-01-01 of a civil date. -/
def daysFromCivil (y : Int) (m d : Nat) : Int :=
  let y' := if m ≤ 2 then y - 1 else y
  let era := (if 0 ≤ y' then y' else y' - 399) / 400
  let yoe := y' - era * 400
  let mp := ((m : Int) + 9) % 12
  let doy := (153 * mp + 2) / 5 + (d : Int) - 1
  let doe := yoe * 365 + yoe / 4 - yoe / 100 + doy
  era * 146097 + doe - 719468

/-- Civil date (year, month, day) of a days-since-epoch count. -/
def civilFromDays (z0 : Int) : Int × Nat × Nat :=
  let z := z0 + 719468
  let era := (if 0 ≤ z then z else z - 146096) / 146097
  let doe := z - era * 146097
  let yoe := (doe - doe / 1460 + doe / 36524 - doe / 146096) / 365
  let y := yoe + era * 400
  let doy := doe - (365 * yoe + yoe / 4 - yoe / 100)
  let mp := (5 * doy + 2) / 153
  let d := (doy - (153 * mp + 2) / 5 + 1).toNat
  let m := (if mp < 10 then mp + 3 else mp - 9).toNat
  (if m ≤ 2 then y + 1 else y, m, d)

def pad2 (n : Nat) : String :=
  if n < 10 then "0" ++ toString n else toString n

/-- The source's `formatYmd` on a civil date. -/
def formatYmdTriple : Int × Nat × Nat → String
  | (y, m, d) => toString y ++ "-" ++ pad2 m ++ "-" ++ pad2 d

/-- `formatYmd(new Date(ms))` with UTC accessors: floor-divide to days. -/
def formatYmdOfMs (ms : Int) : String :=
  formatYmdTriple (civilFromDays (Int.fdiv ms (DAY_MS : Int)))

/-- The source's `dateDaysAgo` (workforce/appfolio-reports.ts). -/
def dateDaysAgo (nowMs : Nat) (days : Nat) : String :=
  formatYmdOfMs ((nowMs : Int) - (days : Int) * (DAY_MS : Int))

def digitVal (c : Char) : Option Nat :=
  if c.isDigit then some (c.toNat - 48) else none

/-- Parse `YYYY-MM-DD` into epoch days.  The source combines a regular
    expression with `new Date(raw + "T00:00:00Z")` and a `formatYmd`
    round-trip check; that rejects exactly the strings that are not a
    calendar-valid zero-padded civil date. -/
def parseYmdStr (raw : String) : Option Int :=
  match raw.toList with
  | [y1, y2, y3, y4, s1, m1, m2, s2, d1, d2] =>
    if s1 == '-' && s2 == '-' then
      match digitVal y1, digitVal y2, digitVal y3, digitVal y4,
            digitVal m1, digitVal m2, digitVal d1, digitVal d2 with
      | some a, some b, some c, some d, some e, some f, some g, some h =>
        let year : Int := (1000 * a + 100 * b + 10 * c + d : Nat)
        let month := 10 * e + f
        let day := 10 * g + h
        if 1 ≤ month && month ≤ 12 && 1 ≤ day && day ≤ daysInMonth year month then
          some (daysFromCivil year month day)
        else none
      | _, _, _, _, _, _, _, _ => none
    else none
  | _ => none

/-- The source's `parseYmdDate` on an arbitrary runtime value, returning the
    epoch-day count of the parsed date (`getTime()` is `days * DAY_MS`). -/
def parseYmdDateJ (v : JVal) : Option Int :=
  (asStringJ v).bind parseYmdStr

/-! Roster (src/workforce/roster.ts). -/

inductive AutonomyMode where
  | manual
  | supervised
  | autonomous
deriving DecidableEq

/-- Roster entry.  The `defaultSchedule` display field is unused by the
    service layer and omitted. -/
structure WorkforceSeat where
  id : String
  label : String
  autonomyMode : AutonomyMode
  permissions : List String
  systemsAccess : List String
deriving DecidableEq

def AUTONOMY_MODES : List AutonomyMode := [.manual, .supervised, .autonomous]

def WORKFORCE_ROSTER : List WorkforceSeat :=
  [ { id := "ops-lead", label := "Ops Lead", autonomyMode := .supervised,
      permissions := ["queue:prioritize", "queue:assign", "scheduler:approve"],
      systemsAccess := ["queue-service", "scheduler-service", "ops-dashboard"] },
    { id := "queue-manager", label := "Queue Manager", autonomyMode := .autonomous,
      permissions := ["queue:create", "queue:update", "queue:route"],
      systemsAccess := ["queue-service", "routing-service"] },
    { id := "scheduler", label := "Scheduler", autonomyMode := .autonomous,
      permissions := ["scheduler:seed", "scheduler:update", "scheduler:pause"],
      systemsAccess := ["scheduler-service", "calendar-service"] },
    { id := "ui-operator", label := "UI Operator", autonomyMode := .manual,
      permissions := ["ui:render", "ui:annotate"],
      systemsAccess := ["ui-service", "queue-service"] },
    { id := "qa-reviewer", label := "QA Reviewer", autonomyMode := .supervised,
      permissions := ["qa:review", "qa:approve"],
      systemsAccess := ["qa-service", "reporting-service"] },
    { id := "security-analyst", label := "Security Analyst", autonomyMode := .supervised,
      permissions := ["security:review", "security:block"],
      systemsAccess := ["security-service", "audit-log-service"] },
    { id := "incident-commander", label := "Incident Commander", autonomyMode := .manual,
      permissions := ["incident:declare", "incident:resolve"],
      systemsAccess := ["incident-service", "queue-service", "scheduler-service"] },
    { id := "knowledge-curator", label := "Knowledge Curator", autonomyMode := .manual,
      permissions := ["knowledge:publish", "knowledge:archive"],
      systemsAccess := ["knowledge-base", "ui-service"] } ]

/-! Report presets and workflows (src/workforce/appfolio-reports.ts). -/

inductive PresetId where
  | rent_roll
  | delinquency
  | work_order
  | bill_detail
  | vendor_ledger
  | vendor_ledger_enhanced
deriving DecidableEq

def PresetId.key : PresetId → String
  | .rent_roll => "rent_roll"
  | .delinquency => "delinquency"
  | .work_order => "work_order"
  | .bill_detail => "bill_detail"
  | .vendor_ledger => "vendor_ledger"
  | .vendor_ledger_enhanced => "vendor_ledger_enhanced"

def presetReportName : PresetId → String
  | .rent_roll => "rent_roll.json"
  | .delinquency => "delinquency.json"
  | .work_order => "work_order.json"
  | .bill_detail => "bill_detail.json"
  | .vendor_ledger => "vendor_ledger.json"
  | .vendor_ledger_enhanced => "vendor_ledger_enhanced.json"

def presetSeatId : PresetId → String
  | .rent_roll => "queue-manager"
  | .delinquency => "queue-manager"
  | .work_order => "scheduler"
  | .bill_detail => "queue-manager"
  | .vendor_ledger => "queue-manager"
  | .vendor_ledger_enhanced => "queue-manager"

def propertiesFilter : JVal :=
  JVal.obj
    [ ("properties_ids", JVal.arr []),
      ("property_groups_ids", JVal.arr []),
      ("portfolios_ids", JVal.arr []),
      ("owners_ids", JVal.arr []) ]

/-- Per-preset `buildPayload(nowMs)`. -/
def buildWorkforceAppfolioReportPayload (p : PresetId) (nowMs : Nat) : Payload :=
  match p with
  | .rent_roll =>
    [ ("properties", propertiesFilter),
      ("unit_visibility", JVal.str "active"),
      ("as_of_to", JVal.str (dateDaysAgo nowMs 0)),
      ("non_revenue_units", JVal.str "0") ]
  | .delinquency =>
    [ ("property_visibility", JVal.str "active"),
      ("properties", propertiesFilter),
      ("delinquency_note_range", JVal.str "this month"),
      ("tenant_statuses", JVal.arr [JVal.str "0", JVal.str "4"]),
      ("amount_owed_in_account", JVal.str "all"),
      ("include_future_dated_charges", JVal.str "0"),
      ("as_of_to", JVal.str (dateDaysAgo nowMs 0)) ]
  | .work_order =>
    [ ("property_visibility", JVal.str "active"),
      ("properties", propertiesFilter),
      ("work_order_statuses",
        JVal.arr [JVal.str "0", JVal.str "1", JVal.str "2", JVal.str "9",
                  JVal.str "11", JVal.str "3"]),
      ("status_date_range_from", JVal.str (dateDaysAgo nowMs 14)),
      ("status_date_range_to", JVal.str (dateDaysAgo nowMs 0)),
      ("status_date", JVal.str "0") ]
  | .bill_detail =>
    [ ("property_visibility", JVal.str "active"),
      ("property_corporate_entity_combination", JVal.str "properties_only"),
      ("properties", propertiesFilter),
      ("date_type", JVal.str "Bill Date"),
      ("occurred_on_from", JVal.str (dateDaysAgo nowMs 30)),
      ("occurred_on_to", JVal.str (dateDaysAgo nowMs 0)) ]
  | .vendor_ledger =>
    [ ("property_visibility", JVal.str "active"),
      ("property_corporate_entity_combination", JVal.str "properties_only"),
      ("properties", propertiesFilter),
      ("occurred_on_from", JVal.str (dateDaysAgo nowMs 30)),
      ("occurred_on_to", JVal.str (dateDaysAgo nowMs 0)) ]
  | .vendor_ledger_enhanced =>
    [ ("property_visibility", JVal.str "active"),
      ("property_corporate_entity_combination", JVal.str "properties_only"),
      ("properties", propertiesFilter),
      ("occurred_on_from", JVal.str (dateDaysAgo nowMs 30)),
      ("occurred_on_to", JVal.str (dateDaysAgo nowMs 0)) ]

inductive WorkflowId where
  | smart_bill_triage
  | smart_bill_reconcile
  | smart_bill_daily
deriving DecidableEq

def WorkflowId.key : WorkflowId → String
  | .smart_bill_triage => "smart_bill_triage"
  | .smart_bill_reconcile => "smart_bill_reconcile"
  | .smart_bill_daily => "smart_bill_daily"

def workflowPresetIds : WorkflowId → List PresetId
  | .smart_bill_triage => [.bill_detail, .work_order]
  | .smart_bill_reconcile => [.bill_detail, .vendor_ledger_enhanced]
  | .smart_bill_daily => [.bill_detail, .vendor_ledger_enhanced, .work_order]

def presetIdOfString (s : String) : Option PresetId :=
  if s == "rent_roll" then some .rent_roll
  else if s == "delinquency" then some .delinquency
  else if s == "work_order" then some .work_order
  else if s == "bill_detail" then some .bill_detail
  else if s == "vendor_ledger" then some .vendor_ledger
  else if s == "vendor_ledger_enhanced" then some .vendor_ledger_enhanced
  else none

def workflowIdOfString (s : String) : Option WorkflowId :=
  if s == "smart_bill_triage" then some .smart_bill_triage
  else if s == "smart_bill_reconcile" then some .smart_bill_reconcile
  else if s == "smart_bill_daily" then some .smart_bill_daily
  else none

/-- Parse `appfolio.report.run:<presetId>` from an action string. -/
def parseWorkforceAppfolioReportPresetId (action : String) : Option PresetId :=
  let normalized := jsToLower (jsTrim action)
  let pre := "appfolio.report.run:"
  if strStartsWith normalized pre then
    presetIdOfString (normalized.drop pre.length)
  else none

/-- Parse `appfolio.workflow.run:<workflowId>` from an action string. -/
def parseWorkforceAppfolioWorkflowId (action : String) : Option WorkflowId :=
  let normalized := jsToLower (jsTrim action)
  let pre := "appfolio.workflow.run:"
  if strStartsWith normalized pre then
    workflowIdOfString (normalized.drop pre.length)
  else none

/-! Pagination options and payload validation
    (src/workforce/appfolio-reports.ts). -/

structure PaginationOptions where
  autoPaginate : Bool
  maxPages : Nat
  maxRows : Nat
deriving DecidableEq

def DEFAULT_WORKFORCE_APPFOLIO_PAGINATION : PaginationOptions :=
  { autoPaginate := true, maxPages := 3, maxRows := 15000 }

def MAX_WORKFORCE_APPFOLIO_PAGES : Nat := 20
def MAX_WORKFORCE_APPFOLIO_ROWS : Nat := 200000

def clampNumber (v lo hi : Int) : Int :=
  max lo (min hi v)

/-- The source's `normalizeWorkforceAppfolioPaginationOptions`. -/
def normalizeWorkforceAppfolioPaginationOptions (input : Option JVal) : PaginationOptions :=
  let record := input.bind asRecordJ
  let autoPaginate :=
    match record.bind (fun r => getKey r "autoPaginate") with
    | some (JVal.bool b) => b
    | _ => DEFAULT_WORKFORCE_APPFOLIO_PAGINATION.autoPaginate
  let maxPagesRaw : Int :=
    match record.bind (fun r => getKey r "maxPages") with
    | some (JVal.num n) => n
    | _ => (DEFAULT_WORKFORCE_APPFOLIO_PAGINATION.maxPages : Int)
  let maxRowsRaw : Int :=
    match record.bind (fun r => getKey r "maxRows") with
    | some (JVal.num n) => n
    | _ => (DEFAULT_WORKFORCE_APPFOLIO_PAGINATION.maxRows : Int)
  { autoPaginate := autoPaginate,
    maxPages := (clampNumber maxPagesRaw 1 (MAX_WORKFORCE_APPFOLIO_PAGES : Int)).toNat,
    maxRows := (clampNumber maxRowsRaw 1 (MAX_WORKFORCE_APPFOLIO_ROWS : Int)).toNat }

/-- The source's `ensureDateField`: threads (errors, warnings). -/
def ensureDateField (payload : Payload) (key : String) (required : Bool)
    (ew : List String × List String) : List String × List String :=
  match getKey payload key with
  | none =>
    if required then (ew.1 ++ ["missing_required_filter:" ++ key], ew.2) else ew
  | some JVal.null =>
    if required then (ew.1 ++ ["missing_required_filter:" ++ key], ew.2) else ew
  | some (JVal.str "") =>
    if required then (ew.1 ++ ["missing_required_filter:" ++ key], ew.2) else ew
  | some v =>
    match parseYmdDateJ v with
    | none => (ew.1 ++ ["invalid_date_filter:" ++ key], ew.2)
    | some _ =>
      match v with
      | JVal.str s =>
        if strLt s "2000-01-01" then (ew.1, ew.2 ++ ["suspicious_date_filter:" ++ key]) else ew
      | _ => ew

/-- The source's `ensureDateRange`. -/
def ensureDateRange (payload : Payload) (fromKey toKey : String) (required : Bool)
    (ew : List String × List String) : List String × List String :=
  let ew := ensureDateField payload fromKey required ew
  let ew := ensureDateField payload toKey required ew
  match (getKey payload fromKey).bind parseYmdDateJ,
        (getKey payload toKey).bind parseYmdDateJ with
  | some fromDate, some toDate =>
    if fromDate * (DAY_MS : Int) > toDate * (DAY_MS : Int) then
      (ew.1 ++ ["invalid_date_range:" ++ fromKey ++ ">" ++ toKey], ew.2)
    else if toDate * (DAY_MS : Int) - fromDate * (DAY_MS : Int) >
        366 * 24 * 60 * 60 * 1000 then
      (ew.1, ew.2 ++ ["wide_date_range:" ++ fromKey ++ "," ++ toKey])
    else ew
  | _, _ => ew

/-- The source's `ensureObjectField`. -/
def ensureObjectField (payload : Payload) (key : String)
    (ew : List String × List String) : List String × List String :=
  match getKey payload key with
  | none => (ew.1, ew.2 ++ ["missing_recommended_filter:" ++ key])
  | some v =>
    if (asRecordJ v).isNone then (ew.1, ew.2 ++ ["invalid_filter_shape:" ++ key]) else ew

structure PayloadValidation where
  ok : Bool
  errors : List String
  warnings : List String
deriving DecidableEq

/-- The source's `validateWorkforceAppfolioReportPayload`. -/
def validateWorkforceAppfolioReportPayload (presetId : PresetId) (payload : Payload) :
    PayloadValidation :=
  let ew : List String × List String := ([], [])
  let ew :=
    match presetId with
    | .rent_roll =>
      ensureObjectField payload "properties" (ensureDateField payload "as_of_to" true ew)
    | .delinquency =>
      ensureObjectField payload "properties" (ensureDateField payload "as_of_to" false ew)
    | .work_order =>
      ensureObjectField payload "properties"
        (ensureDateRange payload "status_date_range_from" "status_date_range_to" true ew)
    | .bill_detail =>
      ensureObjectField payload "properties"
        (ensureDateRange payload "occurred_on_from" "occurred_on_to" true ew)
    | .vendor_ledger =>
      ensureObjectField payload "properties"
        (ensureDateRange payload "occurred_on_from" "occurred_on_to" true ew)
    | .vendor_ledger_enhanced =>
      ensureObjectField payload "properties"
        (ensureDateRange payload "occurred_on_from" "occurred_on_to" true ew)
  { ok := ew.1.isEmpty, errors := ew.1, warnings := ew.2 }

/-! The external report client (src/infra/appfolio-reports.ts).  The HTTP,
    environment and authentication layers are oracle-provided; the row,
    count and next-page extraction and the row slicing are embedded. -/

/-- One response of the external HTTP layer: either a failure result or a
    parsed JSON payload with its status code and endpoint. -/
structure NetResult where
  ok : Bool
  status : Option Int := none
  payload : JVal := JVal.null
  endpoint : Option String := none
  error : Option String := none

/-- The source's `countReportRows`. -/
def countReportRows : JVal → Option Nat
  | JVal.arr l => some l.length
  | JVal.obj fields =>
    (match getKey fields "data" with
     | some (JVal.arr l) => some l.length
     | _ =>
       match getKey fields "reports" with
       | some (JVal.arr l) => some l.length
       | _ =>
         match getKey fields "results" with
         | some (JVal.arr l) => some l.length
         | _ =>
           match getKey fields "rows" with
           | some (JVal.arr l) => some l.length
           | _ => none)
  | _ => none

/-- The source's `extractReportRows` (note the different key order). -/
def extractReportRows : JVal → Option (List JVal)
  | JVal.arr l => some l
  | JVal.obj fields =>
    (match getKey fields "results" with
     | some (JVal.arr l) => some l
     | _ =>
       match getKey fields "rows" with
       | some (JVal.arr l) => some l
       | _ =>
         match getKey fields "data" with
         | some (JVal.arr l) => some l
         | _ =>
           match getKey fields "reports" with
           | some (JVal.arr l) => some l
           | _ => none)
  | _ => none

/-- The source's `extractNextPageUrl`. -/
def extractNextPageUrl : JVal → Option String
  | JVal.obj fields => (getKey fields "next_page_url").bind normalizeStringJ
  | _ => none

/-- The source's `normalizeMaxRows` (integer model: `Math.floor` is the
    identity). -/
def normalizeMaxRows : Option Int → Nat
  | none => 200
  | some v => if v ≤ 0 then 1 else min v.toNat 5000

/-- Result shape of `runAppfolioReport` / `runAppfolioReportNextPage`. -/
structure ClientResult where
  ok : Bool
  status : Option Int := none
  count : Option Nat := none
  nextPageUrl : Option String := none
  rows : Option (List JVal) := none
  rowsTruncated : Bool := false
  endpoint : Option String := none
  error : Option String := none

/-- The response tail shared by `runReportViaBasicAuth` and
    `runAppfolioReportNextPage`: extraction plus row slicing. -/
def clientRun (resp : NetResult) (includeRows : Bool) (maxRowsOpt : Option Int) :
    ClientResult :=
  if resp.ok then
    let rows := extractReportRows resp.payload
    let maxRows := normalizeMaxRows maxRowsOpt
    let includedRows := if includeRows then rows.map (fun l => l.take maxRows) else none
    { ok := true,
      status := resp.status,
      endpoint := resp.endpoint,
      count := countReportRows resp.payload,
      nextPageUrl := extractNextPageUrl resp.payload,
      rows := includedRows,
      rowsTruncated :=
        match includeRows, rows, includedRows with
        | true, some r, some i => decide (r.length > i.length)
        | true, some r, none => decide (r.length > 0)
        | _, _, _ => false }
  else
    { ok := false, status := resp.status, endpoint := resp.endpoint, error := resp.error }

/-- The network oracle with its call counter: `oracle n` is the response to
    the (n+1)-st outbound report call of the enclosing operation. -/
structure Net where
  oracle : Nat → NetResult
  calls : Nat

def Net.step (net : Net) : NetResult × Net :=
  (net.oracle net.calls, { net with calls := net.calls + 1 })

/-! Store data model (src/workforce/types.ts, as used by service.ts). -/

inductive RunSource where
  | chat
  | subagent
  | cron
  | workforce
deriving DecidableEq

inductive RunStatus where
  | queued
  | running
  | ok
  | error
  | blocked
  | escalated
deriving DecidableEq

inductive PolicyDecision where
  | allow
  | block
  | escalate
deriving DecidableEq

inductive ProfileId where
  | balanced
  | strict_change_control
  | autonomous_ops
deriving DecidableEq

inductive RiskLevel where
  | low
  | medium
  | high
deriving DecidableEq

inductive SeatStatus where
  | idle
  | running
  | blocked
deriving DecidableEq

inductive QueuePriority where
  | low
  | normal
  | high
deriving DecidableEq

inductive BackpressurePolicy where
  | drop_oldest
  | drop_newest
  | block
deriving DecidableEq

def RunStatus.render : RunStatus → String
  | .queued => "queued"
  | .running => "running"
  | .ok => "ok"
  | .error => "error"
  | .blocked => "blocked"
  | .escalated => "escalated"

def PolicyDecision.render : PolicyDecision → String
  | .allow => "allow"
  | .block => "block"
  | .escalate => "escalate"

def ProfileId.render : ProfileId → String
  | .balanced => "balanced"
  | .strict_change_control => "strict-change-control"
  | .autonomous_ops => "autonomous-ops"

def RiskLevel.render : RiskLevel → String
  | .low => "low"
  | .medium => "medium"
  | .high => "high"

structure SeatRuntime where
  id : String
  label : String
  autonomyMode : AutonomyMode
  queueId : String
  status : SeatStatus
  owner : String
  lastRunAtMs : Option Nat := none
deriving DecidableEq

structure Queue where
  id : String
  seatId : String
  name : String
  priority : QueuePriority
  concurrency : Nat
  backpressurePolicy : BackpressurePolicy
  slaMinutes : Nat
  pending : Int
deriving DecidableEq

structure Schedule where
  id : String
  seatId : String
  name : String
  triggerType : String
  spec : String
  enabled : Bool
  intervalMs : Option Nat := none
  maxConcurrentRuns : Nat
  nextRunAtMs : Option Nat := none
  lastRunAtMs : Option Nat := none
  action : String
deriving DecidableEq

inductive Resolution where
  | allow
  | deny
deriving DecidableEq

def Resolution.render : Resolution → String
  | .allow => "allow"
  | .deny => "deny"

structure DecisionOption where
  id : String
  label : String
  decision : Resolution
deriving DecidableEq

structure DecisionCard where
  decisionId : Nat
  runId : Option Nat := none
  seatId : String
  title : String
  summary : String
  options : List DecisionOption
  recommended : Resolution
  riskLevel : RiskLevel
  requiresApproval : Bool
  status : String
  createdAtMs : Nat
  expiresAtMs : Nat
  resolvedAtMs : Option Nat := none
  resolvedBy : Option String := none
  resolution : Option Resolution := none
deriving DecidableEq

structure Receipt where
  receiptId : Nat
  runId : Option Nat := none
  decisionId : Option Nat := none
  actor : String
  action : String
  outcome : String
  ts : Nat
  artifacts : List String
  signature : String
deriving DecidableEq

structure ReplayFrame where
  frameId : Nat
  runId : Nat
  seq : Nat
  eventType : String
  payloadRef : Option String := none
  stateDelta : Option String := none
  ts : Nat
  source : RunSource
deriving DecidableEq

structure Run where
  runId : Nat
  source : RunSource
  seatId : String
  action : String
  riskLevel : RiskLevel
  policyProfile : ProfileId
  policyDecision : PolicyDecision
  status : RunStatus
  startedAtMs : Nat
  endedAtMs : Option Nat := none
  summary : Option String := none
  error : Option String := none
  artifacts : List String
deriving DecidableEq

structure Workspace where
  appfolioWritebackEnforced : Bool
  defaultChannel : String
  commsRules : List String
  policyProfile : ProfileId
deriving DecidableEq

/-- The store document.  `version` is the constant 1 and omitted; `nextId`
    models the `randomUUID()` source (see the header comment). -/
structure Store where
  initializedAtMs : Nat
  updatedAtMs : Nat
  seats : List SeatRuntime
  queues : List Queue
  schedules : List Schedule
  decisions : List DecisionCard
  receipts : List Receipt
  replayframes : List ReplayFrame
  runs : List Run
  workspace : Workspace
  seqByRunId : List (Nat × Nat)
  nextId : Nat
deriving DecidableEq

def Store.fresh (s : Store) : Nat × Store :=
  (s.nextId, { s with nextId := s.nextId + 1 })

/-- Association-list read, modelling `map[key] ?? fallback` access on a
    JavaScript object used as a map. -/
def alistGet {κ α : Type} [BEq κ] (m : List (κ × α)) (k : κ) : Option α :=
  (m.find? (fun e => e.1 == k)).map (·.2)

/-- Association-list write (objects keep first-insertion key order). -/
def alistSet {κ α : Type} [BEq κ] (m : List (κ × α)) (k : κ) (v : α) : List (κ × α) :=
  match m with
  | [] => [(k, v)]
  | e :: rest => if e.1 == k then (k, v) :: rest else e :: alistSet rest k v

/-- Update the first element satisfying `p` in place, modelling a JavaScript
    `find` followed by mutation of the found object. -/
def updateFirst {α : Type} (p : α → Bool) (f : α → α) : List α → List α
  | [] => []
  | x :: rest => if p x then f x :: rest else x :: updateFirst p f rest

/-! Service helpers (src/workforce/service.ts). -/

def MAX_STORED_RUNS : Nat := 5000
def MAX_STORED_RECEIPTS : Nat := 10000
def MAX_STORED_REPLAYFRAMES : Nat := 20000
def MAX_STORED_DECISIONS : Nat := 5000

def normalizeSeatId (value : String) : Option String :=
  let trimmed := jsTrim value
  if trimmed == "" then none
  else if WORKFORCE_ROSTER.any (fun seat => seat.id == trimmed) then some trimmed
  else none

def defaultIntervalMsForSeat (seatId : String) : Nat :=
  match WORKFORCE_ROSTER.find? (fun e => e.id == seatId) with
  | none => DAY_MS
  | some seat =>
    match seat.autonomyMode with
    | .autonomous => 60 * 60 * 1000
    | .supervised => 4 * 60 * 60 * 1000
    | .manual => 8 * 60 * 60 * 1000

def deriveRiskLevel (action : String) : RiskLevel :=
  let normalized := jsToLower (jsTrim action)
  if strIncludes normalized "deploy" || strIncludes normalized "broadcast" ||
      strIncludes normalized "security.block" || strIncludes normalized "incident" then
    .high
  else if strIncludes normalized "review" || strIncludes normalized "approve" ||
      strIncludes normalized "retro" || strIncludes normalized "standup" then
    .medium
  else
    .low

def findQueue (store : Store) (seatId : String) : Option Queue :=
  store.queues.find? (fun q => q.id == "queue:" ++ seatId)

/-- Guarded decrement (floor 0), applied to the seat's queue if present. -/
def decrementQueuePending (store : Store) (seatId : String) : Store :=
  { store with
    queues := updateFirst (fun q => q.id == "queue:" ++ seatId)
      (fun q => if q.pending > 0 then { q with pending := q.pending - 1 } else q)
      store.queues }

def optNatStr : Option Nat → String
  | none => ""
  | some n => toString n

/-- Signature base of `createReceiptSignature`; the SHA-256 digest is
    modelled as the identity on this deterministic base string. -/
def createReceiptSignature (receiptId : Nat) (runId decisionId : Option Nat)
    (actor action outcome : String) (ts : Nat) (artifacts : List String) : String :=
  toString receiptId ++ "|" ++ optNatStr runId ++ "|" ++ optNatStr decisionId ++ "|" ++
    actor ++ "|" ++ action ++ "|" ++ outcome ++ "|" ++ toString ts ++ "|" ++
    String.intercalate "," artifacts

/-- The source's `appendReplay`: bump the per-run counter and append the
    frame. -/
def appendReplay (store : Store) (runId : Nat) (source : RunSource) (eventType : String)
    (stateDelta payloadRef : Option String) (ts : Nat) : Store × ReplayFrame :=
  let prev := (alistGet store.seqByRunId runId).getD 0
  let nextSeq := prev + 1
  let (frameId, store) := store.fresh
  let frame : ReplayFrame :=
    { frameId, runId, seq := nextSeq, eventType, payloadRef, stateDelta, ts, source }
  ({ store with
      seqByRunId := alistSet store.seqByRunId runId nextSeq,
      replayframes := store.replayframes ++ [frame] }, frame)

/-- The source's `appendReceipt` (the caller's `randomUUID()` argument is
    allocated here, in the same evaluation order). -/
def appendReceipt (store : Store) (runId decisionId : Option Nat)
    (actor action outcome : String) (ts : Nat) (artifacts : List String) :
    Store × Receipt :=
  let (receiptId, store) := store.fresh
  let signature := createReceiptSignature receiptId runId decisionId actor action outcome ts artifacts
  let receipt : Receipt :=
    { receiptId, runId, decisionId, actor, action, outcome, ts, artifacts, signature }
  ({ store with receipts := store.receipts ++ [receipt] }, receipt)

/-- The source's `createDecisionCard`. -/
def createDecisionCard (store : Store) (runId : Nat) (seatId title summary : String)
    (riskLevel : RiskLevel) (createdAtMs : Nat) : Store × DecisionCard :=
  let (decisionId, store) := store.fresh
  let decision : DecisionCard :=
    { decisionId, runId := some runId, seatId, title, summary,
      options :=
        [ { id := "allow", label := "Allow", decision := .allow },
          { id := "deny", label := "Deny", decision := .deny } ],
      recommended := .allow, riskLevel, requiresApproval := true,
      status := "pending", createdAtMs,
      expiresAtMs := createdAtMs + 24 * 60 * 60 * 1000 }
  ({ store with decisions := store.decisions ++ [decision] }, decision)

/-- The source's `isPolicyProfileId` applied to a payload value. -/
def profileIdOfJVal : JVal → Option ProfileId
  | JVal.str s =>
    if s == "balanced" then some .balanced
    else if s == "strict-change-control" then some .strict_change_control
    else if s == "autonomous-ops" then some .autonomous_ops
    else none
  | _ => none

def resolvePolicyProfile (action : String) (payload : Option Payload)
    (workspaceProfile : ProfileId) : ProfileId :=
  match payload.bind (fun p => getKey p "policyProfileId") |>.bind profileIdOfJVal with
  | some p => p
  | none =>
    let normalized := jsToLower (jsTrim action)
    if strStartsWith normalized "deploy." || strIncludes normalized "incident" ||
        strStartsWith normalized "security." then
      .strict_change_control
    else if strStartsWith normalized "queue." || strStartsWith normalized "scheduler." ||
        strStartsWith normalized "patrol:" then
      .autonomous_ops
    else workspaceProfile

structure PolicyEval where
  decision : PolicyDecision
  reason : String
  profile : ProfileId
deriving DecidableEq

/-- The source's `evaluatePolicy` (first match wins). -/
def evaluatePolicy (seatId rawAction : String) (requireWritebackReceipt : Bool)
    (payload : Option Payload) (store : Store) : PolicyEval :=
  let seatOpt := WORKFORCE_ROSTER.find? (fun e => e.id == seatId)
  let action := jsToLower (jsTrim rawAction)
  let profile := resolvePolicyProfile action payload store.workspace.policyProfile
  let riskLevel := deriveRiskLevel action
  match seatOpt with
  | none => { decision := .block, reason := "unknown seat: " ++ seatId, profile }
  | some seat =>
    let maybeReceiptId :=
      match payload.bind (fun p => getKey p "writebackReceiptId") with
      | some (JVal.str s) => jsTrim s
      | _ => ""
    let hasReceipt := store.receipts.any (fun r => toString r.receiptId == maybeReceiptId)
    if requireWritebackReceipt && store.workspace.appfolioWritebackEnforced &&
        seat.systemsAccess.contains "queue-service" && !hasReceipt then
      { decision := .block, reason := "appfolio_writeback_receipt_required", profile }
    else if (match findQueue store seatId with
             | some q => decide (q.backpressurePolicy = BackpressurePolicy.block) &&
                 decide (q.pending ≥ (q.concurrency : Int) * 4)
             | none => false) then
      { decision := .block, reason := "queue_backpressure_block", profile }
    else if strStartsWith action "appfolio.comms." && !requireWritebackReceipt then
      { decision := .block, reason := "appfolio_action_requires_writeback_gate", profile }
    else if profile = ProfileId.strict_change_control ∧ riskLevel = RiskLevel.high then
      { decision := .escalate, reason := "strict_profile_high_risk", profile }
    else if profile = ProfileId.strict_change_control ∧
        seat.autonomyMode = AutonomyMode.autonomous ∧ riskLevel ≠ RiskLevel.low then
      { decision := .escalate, reason := "strict_profile_autonomous_guard", profile }
    else if profile = ProfileId.autonomous_ops ∧
        (strStartsWith action "queue." || strStartsWith action "scheduler." ||
          strStartsWith action "patrol:") = true ∧
        seat.autonomyMode = AutonomyMode.supervised ∧ riskLevel ≠ RiskLevel.high then
      { decision := .allow, reason := "autonomous_ops_supervised_allow", profile }
    else if strIncludes action "deploy.prod" then
      { decision := .escalate, reason := "prod_deploy_requires_approval", profile }
    else if seat.autonomyMode ∉ AUTONOMY_MODES then
      { decision := .block, reason := "invalid_autonomy_mode", profile }
    else if seat.autonomyMode = AutonomyMode.autonomous then
      { decision := .allow, reason := "autonomy_allow", profile }
    else if seat.autonomyMode = AutonomyMode.supervised then
      { decision := .escalate, reason := "autonomy_supervised", profile }
    else
      { decision := .escalate, reason := "autonomy_manual", profile }

/-- The source's `createDefaultStore` (`nextId` starts at 0; the default
    document contains no generated UUIDs). -/
def createDefaultStore (ts : Nat) : Store :=
  { initializedAtMs := ts,
    updatedAtMs := ts,
    seats := WORKFORCE_ROSTER.map (fun seat =>
      { id := seat.id, label := seat.label, autonomyMode := seat.autonomyMode,
        queueId := "queue:" ++ seat.id, status := .idle, owner := "workforce" }),
    queues := WORKFORCE_ROSTER.map (fun seat =>
      { id := "queue:" ++ seat.id, seatId := seat.id, name := seat.label ++ " Queue",
        priority := if seat.autonomyMode = AutonomyMode.autonomous then .high else .normal,
        concurrency := if seat.autonomyMode = AutonomyMode.autonomous then 2 else 1,
        backpressurePolicy := .block,
        slaMinutes := if seat.autonomyMode = AutonomyMode.manual then 240 else 60,
        pending := 0 }),
    schedules := WORKFORCE_ROSTER.map (fun seat =>
      let intervalMs := defaultIntervalMsForSeat seat.id
      { id := "schedule:" ++ seat.id ++ ":patrol", seatId := seat.id,
        name := seat.label ++ " Patrol", triggerType := "cron",
        spec := "every:" ++ toString intervalMs,
        enabled := false, intervalMs := some intervalMs, maxConcurrentRuns := 1,
        nextRunAtMs := some (ts + intervalMs), action := "patrol:" ++ seat.id }),
    decisions := [],
    receipts := [],
    replayframes := [],
    runs := [],
    workspace :=
      { appfolioWritebackEnforced := true, defaultChannel := "appfolio",
        commsRules :=
          [ "Tenant/vendor/owner communications require writeback receipts.",
            "Manual seats must be approved through decision cards." ],
        policyProfile := .balanced },
    seqByRunId := [],
    nextId := 0 }

/-- The source's `sanitizeStore` restricted to well-typed version-1 stores:
    every dynamic guard (`Array.isArray`, the enum checks on `riskLevel`,
    `policyProfile` and `policyDecision`, the `typeof updatedAtMs` check and
    the `seqByRunId` object check) holds by typing, so the function is the
    identity. -/
def sanitizeStore (s : Store) : Store := s

/-- The source's `trimStore`: cap history arrays by dropping oldest
    entries. -/
def trimStore (store : Store) : Store :=
  { store with
    runs := if store.runs.length > MAX_STORED_RUNS then
        store.runs.drop (store.runs.length - MAX_STORED_RUNS) else store.runs,
    receipts := if store.receipts.length > MAX_STORED_RECEIPTS then
        store.receipts.drop (store.receipts.length - MAX_STORED_RECEIPTS) else store.receipts,
    replayframes := if store.replayframes.length > MAX_STORED_REPLAYFRAMES then
        store.replayframes.drop (store.replayframes.length - MAX_STORED_REPLAYFRAMES)
      else store.replayframes,
    decisions := if store.decisions.length > MAX_STORED_DECISIONS then
        store.decisions.drop (store.decisions.length - MAX_STORED_DECISIONS)
      else store.decisions }

/-- Pre-trim list sizes within caps: exactly when `trimStore` is a no-op. -/
def withinCaps (store : Store) : Bool :=
  store.runs.length ≤ MAX_STORED_RUNS &&
  store.receipts.length ≤ MAX_STORED_RECEIPTS &&
  store.replayframes.length ≤ MAX_STORED_REPLAYFRAMES &&
  store.decisions.length ≤ MAX_STORED_DECISIONS

/-! Guidance engine (service.ts `collectNextSteps` / `unresolvedBlockedRuns`). -/

inductive Priority where
  | high
  | medium
  | low
deriving DecidableEq

structure GuidanceStep where
  id : String
  title : String
  detail : String
  priority : Priority
  seatId : Option String := none
  action : Option String := none
  requireWritebackReceipt : Option Bool := none
deriving DecidableEq

def unresolvedBlockedRuns (store : Store) : List Run :=
  let latestOkByAction : List (String × Nat) := store.runs.foldl
    (fun m run =>
      if run.status = RunStatus.ok then
        let key := run.seatId ++ ":" ++ run.action
        let prev := (alistGet m key).getD 0
        if run.startedAtMs > prev then alistSet m key run.startedAtMs else m
      else m) []
  store.runs.filter (fun run =>
    decide (run.status = RunStatus.blocked) &&
    (match alistGet latestOkByAction (run.seatId ++ ":" ++ run.action) with
     | none => true
     | some latestOkAt => decide (latestOkAt ≤ run.startedAtMs)))

def collectNextSteps (store : Store) (now : Nat) : List GuidanceStep :=
  let steps : List GuidanceStep := []
  let steps := match store.decisions.find? (fun e => e.status == "pending") with
    | some d => steps ++
        [{ id := "review-pending-decision", title := "Resolve pending decision card",
           detail := d.title ++ " (" ++ d.seatId ++ ")", priority := .high,
           seatId := some d.seatId, action := some "decision.resolve" }]
    | none => steps
  let steps := match (unresolvedBlockedRuns store).getLast? with
    | some blockedRun =>
      let needsWriteback := blockedRun.summary = some "appfolio_writeback_receipt_required"
      steps ++
        [{ id := "clear-blocked-run",
           title := if needsWriteback then "Record writeback receipt" else "Replay blocked run",
           detail :=
             if needsWriteback then
               "AppFolio actions require a writeback receipt before execution."
             else
               blockedRun.action ++ " (" ++ blockedRun.seatId ++
                 ") is blocked and should be replayed or denied.",
           priority := .high, seatId := some blockedRun.seatId,
           action := some blockedRun.action,
           requireWritebackReceipt := some needsWriteback }]
    | none => steps
  let steps := match store.queues.find?
      (fun q => decide (q.pending ≥ (q.concurrency : Int) * 2)) with
    | some q => steps ++
        [{ id := "drain-pressure-queue", title := "Drain pressured queue",
           detail := q.name ++ " has " ++ toString q.pending ++ " pending items.",
           priority := .medium, seatId := some q.seatId,
           action := some ("queue.drain:" ++ q.seatId) }]
    | none => steps
  let steps := match store.schedules.find? (fun sch =>
      sch.enabled && sch.nextRunAtMs.isSome &&
      (let threshold : Int := max (5 * 60 * 1000) ((sch.intervalMs.getD (60 * 1000) : Nat) : Int)
       decide (((sch.nextRunAtMs.getD 0 : Nat) : Int) < (now : Int) - threshold))) with
    | some sch => steps ++
        [{ id := "recover-lagging-schedule", title := "Recover lagging schedule",
           detail := sch.name ++ " is behind schedule and needs a tick.", priority := .high,
           seatId := some sch.seatId, action := some sch.action }]
    | none => steps
  let steps := match store.schedules.find? (fun sch =>
      sch.enabled && sch.nextRunAtMs.isSome &&
      decide ((sch.nextRunAtMs.getD 0) ≤ now + 5 * 60 * 1000)) with
    | some sch => steps ++
        [{ id := "run-scheduler-tick", title := "Run scheduler tick",
           detail := sch.name ++ " is due soon.", priority := .medium,
           seatId := some sch.seatId, action := some sch.action }]
    | none => steps
  let steps := if (store.schedules.filter (fun sch =>
        (parseWorkforceAppfolioReportPresetId sch.action).isSome)).length = 0 then
      steps ++
        [{ id := "install-appfolio-report-schedules",
           title := "Install AppFolio report schedules",
           detail := "Enable recurring rent roll, delinquency, and work order report jobs.",
           priority := .medium }]
    else steps
  let steps := if store.schedules.any (fun sch =>
        decide (parseWorkforceAppfolioWorkflowId sch.action = some WorkflowId.smart_bill_daily)) then
      steps
    else steps ++
        [{ id := "install-smart-bill-daily",
           title := "Install Smart Bill daily workflow schedule",
           detail := "Adds a recurring API-only Smart Bill workflow (bill detail + vendor ledger + work orders) and surfaces findings as decision cards.",
           priority := .medium }]
  let steps := if steps.isEmpty then
      [{ id := "run-daily-standup", title := "Start workforce standup",
         detail := "No blockers detected. Keep momentum with a standup pass.",
         priority := .low, seatId := some "ops-lead", action := some "standup:start" }]
    else steps
  steps.take 6

/-! Action execution (service.ts `executeActionInStore`). -/

/-- Result of a workforce report job (`WorkforceAppfolioReportJobResult`). -/
structure JobResult where
  presetId : String
  reportName : String
  ok : Bool
  status : Option Int := none
  count : Option Nat := none
  pagesFetched : Option Nat := none
  endpoint : Option String := none
  nextPageUrl : Option String := none
  truncated : Option Bool := none
  warnings : Option (List String) := none
  validationErrors : List String
  validationWarnings : List String
  error : Option String := none
deriving DecidableEq

structure ActionResult where
  policy : PolicyDecision
  run : Run
  decision : Option DecisionCard := none
  receipt : Receipt
  nextSteps : List GuidanceStep
  appfolioReport : Option JobResult := none
deriving DecidableEq

/-- Action request.  `requireWritebackReceipt` is the source's
    `Boolean(input.requireWritebackReceipt)` coercion of the optional flag. -/
structure ActionInput where
  seatId : String
  action : String
  payload : Option Payload := none
  source : Option RunSource := none
  actor : Option String := none
  requireWritebackReceipt : Bool := false

/-- Update the run object where the source mutates it through a shared
    reference: both the copy inside `store.runs` and the copy inside the
    action result are the same JavaScript object. -/
def setRunBoth (store : Store) (ar : ActionResult) (f : Run → Run) : Store × ActionResult :=
  ({ store with runs := updateFirst (fun r => r.runId == ar.run.runId) f store.runs },
   { ar with run := f ar.run })

def executeActionInStore (store0 : Store) (input : ActionInput) (ts : Nat) :
    Store × ActionResult :=
  let seatId := input.seatId
  let source := input.source.getD RunSource.workforce
  let actor :=
    let a := jsTrim (input.actor.getD "workforce")
    if a == "" then "workforce" else a
  let action := jsTrim input.action
  let payload := input.payload
  let riskLevel := deriveRiskLevel action
  let policyEval := evaluatePolicy seatId action input.requireWritebackReceipt payload store0
  let (runId, store1) := store0.fresh
  let run0 : Run :=
    { runId, source, seatId, action, riskLevel,
      policyProfile := policyEval.profile,
      policyDecision := policyEval.decision,
      status :=
        match policyEval.decision with
        | .allow => .ok
        | .block => .blocked
        | .escalate => .escalated,
      startedAtMs := ts, endedAtMs := some ts,
      summary := some policyEval.reason,
      artifacts := ["seat:" ++ seatId, "risk:" ++ riskLevel.render] }
  let store2 := { store1 with runs := store1.runs ++ [run0] }
  let store3 :=
    { store2 with
      seats := updateFirst (fun s => s.id == seatId)
        (fun s => { s with
          lastRunAtMs := some ts,
          status := if run0.status = RunStatus.ok then .idle else .blocked })
        store2.seats }
  let (store4, _) := appendReplay store3 runId source "run.created"
      (some ("status=" ++ run0.status.render)) (some action) ts
  let (store5, run1, decisionCard) :=
    match policyEval.decision with
    | .escalate =>
      let (s, card) := createDecisionCard store4 runId seatId
          ("Approval required: " ++ action)
          ("Seat " ++ seatId ++ " requires approval (" ++ policyEval.reason ++ ").")
          riskLevel ts
      let run1 :=
        { run0 with artifacts := run0.artifacts ++ ["decision:" ++ toString card.decisionId] }
      let s := { s with runs := updateFirst (fun r => r.runId == runId) (fun _ => run1) s.runs }
      let (s, _) := appendReplay s runId source "decision.created"
          (some ("decisionId=" ++ toString card.decisionId)) none ts
      let s :=
        { s with
          queues := updateFirst (fun q => q.id == "queue:" ++ seatId)
            (fun q => { q with pending := q.pending + 1 }) s.queues }
      (s, run1, some card)
    | _ => (store4, run0, none)
  let (store6, receipt) := appendReceipt store5 (some runId)
      (decisionCard.map (·.decisionId)) actor action policyEval.decision.render ts
      ["profile:" ++ policyEval.profile.render, "risk:" ++ riskLevel.render]
  let store7 :=
    match policyEval.decision with
    | .allow =>
      let (s, _) := appendReplay store6 runId source "run.running" (some "status=running") none ts
      let (s, _) := appendReplay s runId source "run.completed" (some "status=ok") none ts
      s
    | .block =>
      let (s, _) := appendReplay store6 runId source "run.blocked"
          (some ("reason=" ++ policyEval.reason)) none ts
      s
    | .escalate => store6
  let store8 :=
    match policyEval.decision with
    | .escalate => store7
    | _ => decrementQueuePending store7 seatId
  (store8,
   { policy := policyEval.decision, run := run1, decision := decisionCard,
     receipt, nextSteps := collectNextSteps store8 ts })

/-! Report job runner (service.ts `maybeRunAppfolioReportJob`). -/

structure PagState where
  pagesFetched : Nat
  knownRows : Nat
  hasUnknownCount : Bool
  truncated : Bool
  warnings : List String
  nextPageUrl : Option String
deriving DecidableEq

/-- The `while (nextPageUrl)` pagination loop.  Each non-breaking iteration
    increments `pagesFetched`, so the loop performs at most
    `maxPages - pagesFetched` iterations; the fuel argument only needs to
    exceed that bound for the model to coincide with the source. -/
def pagLoop (netFetch : Nat → NetResult) (maxPages maxRows : Nat) :
    Nat → PagState × Nat → PagState × Nat
  | 0, st => st
  | fuel + 1, (st, calls) =>
    match st.nextPageUrl with
    | none => (st, calls)
    | some _ =>
      if st.pagesFetched ≥ maxPages then
        ({ st with
           warnings := st.warnings ++ ["pagination_max_pages_reached"],
           truncated := true }, calls)
      else if !st.hasUnknownCount && st.knownRows ≥ maxRows then
        ({ st with
           warnings := st.warnings ++ ["pagination_max_rows_reached"],
           truncated := true }, calls)
      else
        let page := clientRun (netFetch calls) false none
        let calls := calls + 1
        if !page.ok then
          ({ st with
             warnings := st.warnings ++
               ["pagination_next_page_failed:" ++ page.error.getD "unknown"],
             truncated := true }, calls)
        else
          let st := { st with pagesFetched := st.pagesFetched + 1 }
          let st :=
            match page.count with
            | some c => { st with knownRows := st.knownRows + c }
            | none => { st with hasUnknownCount := true }
          pagLoop netFetch maxPages maxRows fuel ({ st with nextPageUrl := page.nextPageUrl }, calls)

/-- The `policy !== "allow"` branch of `maybeRunAppfolioReportJob`. -/
def reportJobNotAllow (store : Store) (ar : ActionResult) (presetId : PresetId)
    (validation : PayloadValidation) (net : Net) :
    Store × ActionResult × Option JobResult × Net :=
  let blockedResult : JobResult :=
    { presetId := presetId.key, reportName := presetReportName presetId, ok := false,
      validationErrors := validation.errors,
      validationWarnings := validation.warnings,
      error := some "appfolio_report_policy_not_allow" }
  let ar := { ar with appfolioReport := some blockedResult }
  let (store, ar) := setRunBoth store ar (fun r =>
    { r with artifacts := r.artifacts ++ ["appfolio_report:" ++ presetId.key] })
  (store, ar, some blockedResult, net)

/-- The validation-failed branch of `maybeRunAppfolioReportJob`. -/
def reportJobInvalid (store : Store) (ar : ActionResult) (presetId : PresetId)
    (validation : PayloadValidation) (actor : String) (source : RunSource) (ts : Nat)
    (net : Net) : Store × ActionResult × Option JobResult × Net :=
  let reportName := presetReportName presetId
  let invalidResult : JobResult :=
    { presetId := presetId.key, reportName, ok := false,
      validationErrors := validation.errors,
      validationWarnings := validation.warnings,
      warnings := some validation.warnings,
      error := some "appfolio_report_validation_failed" }
  let ar := { ar with appfolioReport := some invalidResult }
  let (store, ar) := setRunBoth store ar (fun r =>
    { r with
      status := .error,
      summary := some ("appfolio_report_validation_failed:" ++ presetId.key),
      error := some "appfolio_report_validation_failed" })
  let (store, _) := appendReplay store ar.run.runId source "appfolio.report.failed"
      (some ("preset=" ++ presetId.key ++ ";error=validation")) (some reportName) ts
  let (store, _) := appendReceipt store (some ar.run.runId) none actor
      ("appfolio.report.run:" ++ presetId.key) "error" ts
      ["report:" ++ reportName, "preset:" ++ presetId.key, "validation:failed"]
  let (store, ar) := setRunBoth store ar (fun r =>
    { r with artifacts := r.artifacts ++
        ["appfolio_report:" ++ presetId.key,
         "appfolio_report_name:" ++ reportName,
         "appfolio_validation_errors:" ++ toString validation.errors.length] })
  (store, ar, some invalidResult, net)

/-- The fetching branch of `maybeRunAppfolioReportJob`: first page, bounded
    pagination, result assembly, frames and terminal receipt.  The request
    body only determines the oracle's responses and is not otherwise
    inspected. -/
def reportJobFetch (store : Store) (ar : ActionResult) (presetId : PresetId)
    (pagination : PaginationOptions) (validation : PayloadValidation) (actor : String)
    (source : RunSource) (ts : Nat) (net : Net) :
    Store × ActionResult × Option JobResult × Net :=
  let reportName := presetReportName presetId
  let (resp, net) := net.step
  let report := clientRun resp false none
  let st0 : PagState :=
    { pagesFetched := if report.ok then 1 else 0,
      knownRows := (report.count).getD 0,
      hasUnknownCount := report.count.isNone,
      truncated := false,
      warnings := validation.warnings,
      nextPageUrl := report.nextPageUrl }
  let (pag, net) :=
    if report.ok && pagination.autoPaginate then
      let (st, calls) := pagLoop net.oracle pagination.maxPages pagination.maxRows
          (pagination.maxPages + 1) (st0, net.calls)
      ({ st with truncated := st.truncated || st.nextPageUrl.isSome },
       { net with calls := calls })
    else if report.ok && report.nextPageUrl.isSome then
      ({ st0 with warnings := st0.warnings ++ ["pagination_available_next_page"] }, net)
    else (st0, net)
  let reportResult : JobResult :=
    { presetId := presetId.key, reportName,
      ok := report.ok, status := report.status,
      count :=
        if report.ok then (if pag.hasUnknownCount then none else some pag.knownRows)
        else report.count,
      pagesFetched := some pag.pagesFetched,
      endpoint := report.endpoint,
      nextPageUrl := pag.nextPageUrl,
      truncated := some pag.truncated,
      warnings := if pag.warnings.length > 0 then some pag.warnings else none,
      validationErrors := validation.errors,
      validationWarnings := validation.warnings,
      error := report.error }
  let ar := { ar with appfolioReport := some reportResult }
  let (store, ar) := setRunBoth store ar (fun r =>
    { r with artifacts := r.artifacts ++
        ["appfolio_report:" ++ presetId.key, "appfolio_report_name:" ++ reportName] ++
        (match report.endpoint with
         | some e => ["appfolio_endpoint:" ++ e]
         | none => []) ++
        (match pag.nextPageUrl with
         | some u => ["appfolio_next_page:" ++ u]
         | none => []) ++
        (if pag.truncated then ["appfolio_pagination:truncated"] else []) ++
        ["appfolio_pages_fetched:" ++ toString pag.pagesFetched] })
  let (store, ar) :=
    if report.ok then
      let (store, ar) := setRunBoth store ar (fun r =>
        { r with summary := some ("appfolio_report:" ++ presetId.key ++ ":rows=" ++
            toString (reportResult.count.getD 0) ++ ":pages=" ++
            toString pag.pagesFetched) })
      let (store, _) := appendReplay store ar.run.runId source "appfolio.report.completed"
          (some ("preset=" ++ presetId.key ++ ";rows=" ++
            toString (reportResult.count.getD 0) ++ ";pages=" ++
            toString pag.pagesFetched))
          (some reportName) ts
      (store, ar)
    else
      let (store, ar) := setRunBoth store ar (fun r =>
        { r with
          status := .error,
          summary := some (report.error.getD "appfolio_report_failed"),
          error := some (report.error.getD "appfolio_report_failed") })
      let (store, _) := appendReplay store ar.run.runId source "appfolio.report.failed"
          (some ("preset=" ++ presetId.key ++ ";error=" ++ report.error.getD "unknown"))
          (some reportName) ts
      (store, ar)
  let (store, _) := appendReceipt store (some ar.run.runId) none actor
      ("appfolio.report.run:" ++ presetId.key) (if report.ok then "ok" else "error") ts
      ["report:" ++ reportName, "preset:" ++ presetId.key]
  (store, ar, some reportResult, net)

def maybeRunAppfolioReportJob (store : Store) (ar : ActionResult) (action : String)
    (payload : Option Payload) (actor : String) (source : RunSource) (ts : Nat)
    (net : Net) : Store × ActionResult × Option JobResult × Net :=
  match parseWorkforceAppfolioReportPresetId action with
  | none => (store, ar, none, net)
  | some presetId =>
    let defaultPayload := buildWorkforceAppfolioReportPayload presetId ts
    let overridePayload :=
      match payload.bind (fun p => getKey p "reportFilters") with
      | some (JVal.obj o) => some o
      | _ => none
    let requestPayload :=
      match overridePayload with
      | some o => mergePayload defaultPayload o
      | none => defaultPayload
    let pagination := normalizeWorkforceAppfolioPaginationOptions
        (payload.bind (fun p => getKey p "pagination"))
    let validation := validateWorkforceAppfolioReportPayload presetId requestPayload
    if ar.policy ≠ PolicyDecision.allow then
      reportJobNotAllow store ar presetId validation net
    else if !validation.ok then
      reportJobInvalid store ar presetId validation actor source ts net
    else
      reportJobFetch store ar presetId pagination validation actor source ts net

/-! Row collection and the Smart Bill heuristic (service.ts). -/

/-- The source's `normalizeRowString`. -/
def normalizeRowString : Option JVal → String
  | some (JVal.str s) => jsTrim s
  | some (JVal.num n) => toString n
  | _ => ""

/-- JavaScript `n.toFixed(2)` on an integer value. -/
def toFixed2Int (n : Int) : String :=
  toString n ++ ".00"

/-- JavaScript `Number.parseFloat` on a cleaned numeric string, rendered with
    `toFixed(2)` semantics: parse an optional sign, an integer part and a
    fraction, and round to two decimals (half away from zero).  Binary
    floating-point artifacts are not modelled; no claim depends on them. -/
def parseFloatFixed2 (s : String) : Option String :=
  let chars := s.toList
  let (neg, rest) : Bool × List Char :=
    match chars with
    | '-' :: rest => (true, rest)
    | _ => (false, chars)
  let intDigits := rest.takeWhile (·.isDigit)
  let rest2 : List Char := rest.drop intDigits.length
  let fracDigits : List Char :=
    match rest2 with
    | '.' :: tail => tail.takeWhile (fun c => c.isDigit)
    | _ => []
  if intDigits.isEmpty && fracDigits.isEmpty then none
  else
    let digitNat := fun (l : List Char) => l.foldl (fun acc c => acc * 10 + (c.toNat - 48)) 0
    let intPart := digitNat intDigits
    let f1 := (fracDigits.take 1).headD '0'
    let f2 := ((fracDigits.drop 1).take 1).headD '0'
    let f3 := ((fracDigits.drop 2).take 1).headD '0'
    let cents0 := intPart * 100 + (digitVal f1).getD 0 * 10 + (digitVal f2).getD 0
    let cents := if (digitVal f3).getD 0 ≥ 5 then cents0 + 1 else cents0
    let body := toString (cents / 100) ++ "." ++ pad2 (cents % 100)
    some (if neg && cents ≠ 0 then "-" ++ body else body)

/-- The source's `normalizeRowAmount`. -/
def normalizeRowAmount : Option JVal → String
  | some (JVal.num n) => toFixed2Int n
  | some (JVal.str s) =>
    let raw := jsTrim s
    if raw == "" then ""
    else
      let cleaned := String.mk (raw.toList.filter (fun c => c.isDigit || c == '.' || c == '-'))
      (parseFloatFixed2 cleaned).getD ""
  | _ => ""

def readRowFieldGo (record : Payload) : List String → Option JVal
  | [] => none
  | k :: rest =>
    match getKey record k with
    | some JVal.null => readRowFieldGo record rest
    | some v => some v
    | none => readRowFieldGo record rest

/-- The source's `readRowField`: first present, non-null value among the
    candidate keys. -/
def readRowField (row : JVal) (keys : List String) : Option JVal :=
  match row with
  | JVal.obj record => readRowFieldGo record keys
  | _ => none

structure SmartBillReviewSummary where
  rows : Nat
  duplicates : Nat
  missingVendor : Nat
  missingProperty : Nat
  missingAmount : Nat
  sampleDuplicateKeys : List String
deriving DecidableEq

/-- The source's `summarizeSmartBillBillDetailRows`. -/
def summarizeSmartBillBillDetailRows (rows : List JVal) : SmartBillReviewSummary :=
  let vendorKeys := ["payee_name", "vendor_name", "vendor", "payee", "payer"]
  let propertyKeys := ["property_name", "property", "property_address", "property_id"]
  let amountKeys := ["amount", "invoice_amount", "payment_amount", "bill_amount"]
  let dateKeys := ["bill_date", "occurred_date", "occurred_on", "date", "post_date"]
  let refKeys := ["reference_number", "reference", "invoice_number", "invoice_no", "ref"]
  let acc := rows.foldl
    (fun (acc : Nat × Nat × Nat × List (String × Nat)) row =>
      let (missingVendor, missingProperty, missingAmount, counts) := acc
      let vendor := normalizeRowString (readRowField row vendorKeys)
      let property := normalizeRowString (readRowField row propertyKeys)
      let amount := normalizeRowAmount (readRowField row amountKeys)
      let date := normalizeRowString (readRowField row dateKeys)
      let reference := normalizeRowString (readRowField row refKeys)
      let missingVendor := if vendor == "" then missingVendor + 1 else missingVendor
      let missingProperty := if property == "" then missingProperty + 1 else missingProperty
      let missingAmount := if amount == "" then missingAmount + 1 else missingAmount
      let key := String.intercalate "|"
        [ if vendor == "" then "unknown_vendor" else vendor,
          if amount == "" then "unknown_amount" else amount,
          if date == "" then "unknown_date" else date,
          if reference == "" then "unknown_reference" else reference ]
      let counts := alistSet counts key ((alistGet counts key).getD 0 + 1)
      (missingVendor, missingProperty, missingAmount, counts))
    (0, 0, 0, [])
  let (missingVendor, missingProperty, missingAmount, counts) := acc
  let dupKeys := ((counts.filter (fun e => e.2 > 1)).mergeSort
      (fun a b => b.2 ≤ a.2)).map (·.1)
  { rows := rows.length,
    duplicates := dupKeys.length,
    missingVendor, missingProperty, missingAmount,
    sampleDuplicateKeys := dupKeys.take 5 }

structure CollectResult where
  ok : Bool
  endpoint : Option String := none
  status : Option Int := none
  error : Option String := none
  rows : List JVal
  truncated : Bool

/-- Loop of `collectAppfolioReportRows`: `while (!truncated && next &&
    rows.length < maxRows)`.  The fuel argument bounds the page walk; the
    source would keep following server-provided pages. -/
def collectRowsLoop (netFetch : Nat → NetResult) (maxRows : Nat) :
    Nat → List JVal × Option String × Bool × Nat → List JVal × Option String × Bool × Nat
  | 0, st => st
  | fuel + 1, (rows, next, truncated, calls) =>
    match next with
    | none => (rows, none, truncated, calls)
    | some url =>
      if truncated || rows.length ≥ maxRows then (rows, some url, truncated, calls)
      else
        let page := clientRun (netFetch calls) true (some ((maxRows : Int) - (rows.length : Int)))
        let calls := calls + 1
        if !page.ok then (rows, some url, true, calls)
        else
          let rows := rows ++ page.rows.getD []
          let next := page.nextPageUrl
          if page.rowsTruncated then (rows, next, true, calls)
          else collectRowsLoop netFetch maxRows fuel (rows, next, truncated, calls)

/-- The source's `collectAppfolioReportRows`.  The request body determines
    the oracle's responses and is not otherwise inspected. -/
def collectAppfolioReportRows (reportName : String) (body : Payload) (maxRowsRaw : Int)
    (fuel : Nat) (net : Net) : CollectResult × Net :=
  let maxRows := (max 1 maxRowsRaw).toNat
  let (resp, net) := net.step
  let first := clientRun resp true (some (maxRows : Int))
  if !first.ok then
    ({ ok := false, endpoint := first.endpoint, status := first.status,
       error := first.error, rows := [], truncated := false }, net)
  else
    let rows := first.rows.getD []
    let next := first.nextPageUrl
    let truncated := first.rowsTruncated
    let (rows, next, truncated, calls) :=
      collectRowsLoop net.oracle maxRows fuel (rows, next, truncated, net.calls)
    ({ ok := true, endpoint := first.endpoint, status := first.status,
       rows, truncated := truncated || next.isSome }, { net with calls })

/-! Workflow job runner (service.ts `maybeRunAppfolioWorkflowJob`). -/

/-- JavaScript `a ?? b`: `null` and `undefined` fall through. -/
def jsCoalesce (a b : Option JVal) : Option JVal :=
  match a with
  | some JVal.null => b
  | none => b
  | some v => some v

/-- The workflow job's local `readBoolean`. -/
def readBooleanJ (v : Option JVal) (fallback : Bool) : Bool :=
  match v with
  | some (JVal.bool b) => b
  | some (JVal.num n) => decide (n ≠ 0)
  | some (JVal.str s) =>
    let normalized := jsToLower (jsTrim s)
    if ["true", "1", "yes", "on"].contains normalized then true
    else if ["false", "0", "no", "off"].contains normalized then false
    else fallback
  | _ => fallback

/-- Decimal integer parse standing in for JavaScript `Number(...)` on a
    trimmed non-empty string; fractional and exotic numeric forms are not
    exercised by any claim. -/
def parseJsInt (s : String) : Option Int :=
  let chars := s.toList
  let (neg, rest) :=
    match chars with
    | '-' :: rest => (true, rest)
    | _ => (false, chars)
  if rest.isEmpty || rest.any (fun c => !c.isDigit) then none
  else
    let v : Int := rest.foldl (fun acc c => acc * 10 + ((c.toNat - 48 : Nat) : Int)) 0
    some (if neg then -v else v)

/-- The workflow job's local `readNumber`. -/
def readNumberJ : Option JVal → Option Int
  | some (JVal.num n) => some n
  | some (JVal.str s) => if jsTrim s == "" then none else parseJsInt (jsTrim s)
  | _ => none

/-- The workflow job's local `clampRows` (integer model: `Math.floor` is the
    identity and `Number.isFinite` holds). -/
def clampRows (v : Option JVal) (fallback : Int) : Nat :=
  let parsed := readNumberJ v
  let candidate := parsed.getD fallback
  if candidate ≤ 0 then 1 else min candidate.toNat 50000

/-- Shallow object spread `{ ...base, ...extra }`. -/
def spreadPayload (base : Payload) (extra : Payload) : Payload :=
  extra.foldl (fun acc e => setKey acc e.1 e.2) base

structure StepResult where
  presetId : String
  ok : Bool
  count : Option Nat := none
  status : Option Int := none
deriving DecidableEq

/-- One iteration of the workflow preset loop. -/
def workflowStep (store : Store) (ar : ActionResult) (workflowId : WorkflowId)
    (globalFilters : Option Payload) (filtersForPreset : String → Option Payload)
    (includeRows : Bool) (maxRows : Nat) (actor : String) (source : RunSource)
    (ts : Nat) (fuel : Nat) (net : Net) (presetId : PresetId)
    (acc : List StepResult × Option SmartBillReviewSummary) :
    Store × ActionResult × (List StepResult × Option SmartBillReviewSummary) × Net :=
  let (stepResults, smartBillSummary) := acc
  let reportName := presetReportName presetId
  let body := spreadPayload
    (spreadPayload (buildWorkforceAppfolioReportPayload presetId ts) (globalFilters.getD []))
    ((filtersForPreset presetId.key).getD [])
  if presetId = PresetId.bill_detail then
    if includeRows then
      let (rowsRes, net) := collectAppfolioReportRows reportName body (maxRows : Int) fuel net
      if rowsRes.ok then
        let sbs := summarizeSmartBillBillDetailRows rowsRes.rows
        let (store, ar) := setRunBoth store ar (fun r =>
          { r with artifacts := r.artifacts ++
              ["appfolio_bill_detail_rows:" ++ toString sbs.rows,
               "smart_bill_duplicates:" ++ toString sbs.duplicates] ++
              (match rowsRes.endpoint with
               | some e => ["appfolio_endpoint:" ++ e]
               | none => []) ++
              (if rowsRes.truncated then ["appfolio_rows:truncated"] else []) })
        let stepResults := stepResults ++
          [{ presetId := presetId.key, ok := true, count := some sbs.rows,
             status := rowsRes.status }]
        let (store, _) := appendReplay store ar.run.runId source
            "appfolio.workflow.step.completed"
            (some ("preset=" ++ presetId.key ++ ";rows=" ++ toString sbs.rows ++
              ";truncated=" ++ (if rowsRes.truncated then "true" else "false")))
            (some reportName) ts
        let (store, _) := appendReceipt store (some ar.run.runId) none actor
            ("appfolio.workflow.step:" ++ workflowId.key ++ ":" ++ presetId.key) "ok" ts
            ["workflow:" ++ workflowId.key, "preset:" ++ presetId.key,
             "rows:" ++ toString sbs.rows]
        (store, ar, (stepResults, some sbs), net)
      else
        let stepResults := stepResults ++
          [{ presetId := presetId.key, ok := false, status := rowsRes.status }]
        let (store, _) := appendReplay store ar.run.runId source
            "appfolio.workflow.step.failed"
            (some ("preset=" ++ presetId.key ++ ";error=" ++ rowsRes.error.getD "unknown"))
            (some reportName) ts
        let (store, _) := appendReceipt store (some ar.run.runId) none actor
            ("appfolio.workflow.step:" ++ workflowId.key ++ ":" ++ presetId.key) "error" ts
            ["workflow:" ++ workflowId.key, "preset:" ++ presetId.key]
        (store, ar, (stepResults, smartBillSummary), net)
    else
      let (resp, net) := net.step
      let report := clientRun resp false none
      let stepResults := stepResults ++
        [{ presetId := presetId.key, ok := report.ok, count := report.count,
           status := report.status }]
      let (store, ar) :=
        match report.endpoint with
        | some e => setRunBoth store ar (fun r =>
            { r with artifacts := r.artifacts ++ ["appfolio_endpoint:" ++ e] })
        | none => (store, ar)
      (store, ar, (stepResults, smartBillSummary), net)
  else
    let (resp, net) := net.step
    let report := clientRun resp false none
    let stepResults := stepResults ++
      [{ presetId := presetId.key, ok := report.ok, count := report.count,
         status := report.status }]
    let (store, ar) := setRunBoth store ar (fun r =>
      { r with artifacts := r.artifacts ++
          ["appfolio_step:" ++ presetId.key ++ ":ok=" ++
            (if report.ok then "true" else "false")] ++
          (match report.count with
           | some c => ["appfolio_step:" ++ presetId.key ++ ":rows=" ++ toString c]
           | none => []) ++
          (match report.endpoint with
           | some e => ["appfolio_endpoint:" ++ e]
           | none => []) })
    let (store, _) := appendReplay store ar.run.runId source
        (if report.ok then "appfolio.workflow.step.completed"
         else "appfolio.workflow.step.failed")
        (some ("preset=" ++ presetId.key ++ ";ok=" ++ (if report.ok then "true" else "false") ++
          ";rows=" ++ (match report.count with
                       | some c => toString c
                       | none => "unknown")))
        (some reportName) ts
    let (store, _) := appendReceipt store (some ar.run.runId) none actor
        ("appfolio.workflow.step:" ++ workflowId.key ++ ":" ++ presetId.key)
        (if report.ok then "ok" else "error") ts
        ["workflow:" ++ workflowId.key, "preset:" ++ presetId.key, "report:" ++ reportName]
    (store, ar, (stepResults, smartBillSummary), net)

def workflowStepsLoop (workflowId : WorkflowId) (globalFilters : Option Payload)
    (filtersForPreset : String → Option Payload) (includeRows : Bool) (maxRows : Nat)
    (actor : String) (source : RunSource) (ts : Nat) (fuel : Nat) :
    List PresetId → Store × ActionResult ×
      (List StepResult × Option SmartBillReviewSummary) × Net →
    Store × ActionResult × (List StepResult × Option SmartBillReviewSummary) × Net
  | [], st => st
  | presetId :: rest, (store, ar, acc, net) =>
    let (store, ar, acc, net) := workflowStep store ar workflowId globalFilters
        filtersForPreset includeRows maxRows actor source ts fuel net presetId acc
    workflowStepsLoop workflowId globalFilters filtersForPreset includeRows maxRows
      actor source ts fuel rest (store, ar, acc, net)

def maybeRunAppfolioWorkflowJob (store : Store) (ar : ActionResult) (action : String)
    (payload : Option Payload) (actor : String) (source : RunSource) (ts : Nat)
    (fuel : Nat) (net : Net) : Store × ActionResult × Bool × Net :=
  match parseWorkforceAppfolioWorkflowId action with
  | none => (store, ar, false, net)
  | some workflowId =>
    let payloadR := payload.getD []
    let globalFilters :=
      match getKey payloadR "reportFilters" with
      | some (JVal.obj o) => some o
      | _ => none
    let rawFiltersByPreset :=
      match getKey payloadR "filtersByPreset" with
      | some (JVal.obj o) => some o
      | _ => none
    let filtersForPreset := fun (pid : String) =>
      match rawFiltersByPreset with
      | none => none
      | some m =>
        match getKey m pid with
        | some (JVal.obj o) => some o
        | _ => none
    let includeRows := readBooleanJ (getKey payloadR "includeRows") true
    let payloadPagination :=
      match getKey payloadR "pagination" with
      | some (JVal.obj o) => some o
      | _ => none
    let maxRows := clampRows
      (jsCoalesce (getKey payloadR "rowLimit")
        (jsCoalesce (payloadPagination.bind (fun p => getKey p "maxRows"))
          (payloadPagination.bind (fun p => getKey p "rowLimit"))))
      5000
    let (store, ar) := setRunBoth store ar (fun r =>
      { r with artifacts := r.artifacts ++ ["appfolio_workflow:" ++ workflowId.key] })
    if ar.policy ≠ PolicyDecision.allow then
      let (store, ar) := setRunBoth store ar (fun r =>
        { r with summary := some ("appfolio_workflow_policy_not_allow:" ++ workflowId.key) })
      (store, ar, true, net)
    else
      let (store, ar, acc, net) := workflowStepsLoop workflowId globalFilters
          filtersForPreset includeRows maxRows actor source ts fuel
          (workflowPresetIds workflowId) (store, ar, ([], none), net)
      let (stepResults, smartBillSummary) := acc
      let okSteps := (stepResults.filter (·.ok)).length
      let failedSteps := stepResults.length - okSteps
      let dup := (smartBillSummary.map (·.duplicates)).getD 0
      let (store, ar) := setRunBoth store ar (fun r =>
        { r with summary := some ("appfolio_workflow:" ++ workflowId.key ++ ":ok=" ++
            toString okSteps ++ ";failed=" ++ toString failedSteps ++ ";duplicates=" ++
            toString dup) })
      let (store, ar) :=
        match smartBillSummary with
        | some sbs =>
          if sbs.duplicates > 0 || sbs.missingVendor > 0 then
            let summaryParts :=
              [ "bill_detail rows=" ++ toString sbs.rows,
                "duplicates=" ++ toString sbs.duplicates,
                "missingVendor=" ++ toString sbs.missingVendor,
                "missingProperty=" ++ toString sbs.missingProperty,
                "missingAmount=" ++ toString sbs.missingAmount ]
            let (store, decision) := createDecisionCard store ar.run.runId "ui-operator"
                ("Smart Bill review findings: " ++ workflowId.key)
                (String.intercalate ", " summaryParts) .medium ts
            let (store, ar) := setRunBoth store ar (fun r =>
              { r with artifacts := r.artifacts ++
                  ["decision:" ++ toString decision.decisionId] })
            let (store, _) := appendReplay store ar.run.runId source "decision.created"
                (some ("decisionId=" ++ toString decision.decisionId)) none ts
            (store, ar)
          else (store, ar)
        | none => (store, ar)
      (store, ar, true, net)

/-! Exported operations (service.ts / store.ts).  `updateWorkforceStore`
    loads the document, applies the updater and saves the returned store;
    when the updater throws, the save never happens and the persisted
    document is unchanged.  Each operation is therefore a function on the
    loaded store returning either the updated store plus its result, or an
    error that leaves the store untouched.  The `...Pre` variants expose the
    store state just before the final `trimStore` call, so that trimming can
    be reasoned about separately. -/

def executeWorkforceActionPre (store0 : Store) (input : ActionInput) (ts : Nat)
    (fuel : Nat) (net : Net) : Except String (Store × ActionResult × Net) :=
  let store := sanitizeStore store0
  match normalizeSeatId input.seatId with
  | none => .error ("Unknown seat id: " ++ input.seatId)
  | some seatId =>
    if jsTrim input.action == "" then .error "Action is required"
    else
      let (store, result) := executeActionInStore store { input with seatId } ts
      let (store, result, _, net) := maybeRunAppfolioReportJob store result input.action
          input.payload (input.actor.getD "workforce")
          (input.source.getD RunSource.workforce) ts net
      let (store, result, _, net) := maybeRunAppfolioWorkflowJob store result input.action
          input.payload (input.actor.getD "workforce")
          (input.source.getD RunSource.workforce) ts fuel net
      .ok ({ store with updatedAtMs := ts }, result, net)

def executeWorkforceAction (store0 : Store) (input : ActionInput) (ts : Nat)
    (fuel : Nat) (net : Net) : Except String (Store × ActionResult × Net) :=
  match executeWorkforceActionPre store0 input ts fuel net with
  | .ok (s, r, n) => .ok (trimStore s, r, n)
  | .error e => .error e

/-- The resolve path; the Bool records whether the mutating path (which ends
    in `trimStore`) was taken, as opposed to the idempotent early return. -/
def resolveWorkforceDecisionPre (store0 : Store) (decisionId : Nat)
    (resolution : Resolution) (actor : Option String) (ts : Nat) :
    Except String (Store × DecisionCard × Bool) :=
  let store := sanitizeStore store0
  match store.decisions.find? (fun e => e.decisionId == decisionId) with
  | none => .error ("Decision not found: " ++ toString decisionId)
  | some decision =>
    if decision.status != "pending" then .ok (store, decision, false)
    else
      let resolved : DecisionCard :=
        { decision with
          status := "resolved", resolution := some resolution,
          resolvedBy := some (actor.getD "operator"), resolvedAtMs := some ts }
      let store :=
        { store with
          decisions := updateFirst (fun e => e.decisionId == decisionId)
            (fun _ => resolved) store.decisions }
      let runOpt := decision.runId.bind (fun rid => store.runs.find? (fun r => r.runId == rid))
      let store :=
        match runOpt with
        | some run =>
          let run' : Run :=
            { run with
              status := if resolution = Resolution.allow then RunStatus.ok else RunStatus.blocked,
              endedAtMs := some ts,
              summary := some ("decision:" ++ resolution.render) }
          let store :=
            { store with
              runs := updateFirst (fun r => r.runId == run.runId) (fun _ => run') store.runs }
          let (store, _) := appendReplay store run.runId run.source "decision.resolved"
              (some ("resolution=" ++ resolution.render)) none ts
          store
        | none => store
      let store :=
        { store with
          seats := updateFirst (fun s => s.id == decision.seatId)
            (fun s =>
              { s with
                status := if resolution = Resolution.allow then SeatStatus.idle else SeatStatus.blocked,
                lastRunAtMs := some ts })
            store.seats }
      let (store, _) := appendReceipt store decision.runId (some decision.decisionId)
          (actor.getD "operator") "decision.resolve" resolution.render ts []
      let store := decrementQueuePending store decision.seatId
      .ok ({ store with updatedAtMs := ts }, resolved, true)

def resolveWorkforceDecision (store0 : Store) (decisionId : Nat) (resolution : Resolution)
    (actor : Option String) (ts : Nat) : Except String (Store × DecisionCard) :=
  match resolveWorkforceDecisionPre store0 decisionId resolution actor ts with
  | .ok (s, d, true) => .ok (trimStore s, d)
  | .ok (s, d, false) => .ok (s, d)
  | .error e => .error e

def replayWorkforceRunPre (store0 : Store) (runId : Nat) (actor : Option String)
    (ts : Nat) : Except String (Store × ActionResult) :=
  let store := sanitizeStore store0
  match store.runs.find? (fun r => r.runId == runId) with
  | none => .error ("Run not found: " ++ toString runId)
  | some sourceRun =>
    let (store, result) := executeActionInStore store
        { seatId := sourceRun.seatId, action := sourceRun.action,
          source := some RunSource.workforce, actor := some (actor.getD "replay") } ts
    let (store, _) := appendReplay store result.run.runId result.run.source "run.replayed"
        (some ("from=" ++ toString runId)) (some (toString runId)) ts
    .ok ({ store with updatedAtMs := ts }, result)

def replayWorkforceRun (store0 : Store) (runId : Nat) (actor : Option String)
    (ts : Nat) : Except String (Store × ActionResult) :=
  match replayWorkforceRunPre store0 runId actor ts with
  | .ok (s, r) => .ok (trimStore s, r)
  | .error e => .error e

def recordAppfolioWritebackReceiptPre (store0 : Store) (actor note artifact : Option String)
    (ts : Nat) : Store × Receipt :=
  let store := sanitizeStore store0
  let outcome :=
    let n := jsTrim (note.getD "")
    if n == "" then "recorded" else n
  let (store, receipt) := appendReceipt store none none (actor.getD "workspace")
      "appfolio.writeback" outcome ts
      (match artifact with
       | some a => if a == "" then [] else [a]
       | none => [])
  ({ store with updatedAtMs := ts }, receipt)

def recordAppfolioWritebackReceipt (store0 : Store) (actor note artifact : Option String)
    (ts : Nat) : Store × Receipt :=
  let (s, r) := recordAppfolioWritebackReceiptPre store0 actor note artifact ts
  (trimStore s, r)

def addWorkforceSchedulePre (store0 : Store) (seatIdRaw name : String) (intervalMsRaw : Int)
    (action : String) (ts : Nat) : Except String (Store × Schedule) :=
  let store := sanitizeStore store0
  match normalizeSeatId seatIdRaw with
  | none => .error ("Unknown seat id: " ++ seatIdRaw)
  | some seatId =>
    let intervalMs := (max 60000 intervalMsRaw).toNat
    let (sid, store) := store.fresh
    let schedule : Schedule :=
      { id := toString sid, seatId,
        name := if jsTrim name == "" then "Schedule " ++ seatId else jsTrim name,
        triggerType := "cron", spec := "every:" ++ toString intervalMs,
        enabled := true, intervalMs := some intervalMs, maxConcurrentRuns := 1,
        nextRunAtMs := some (ts + intervalMs),
        action := if jsTrim action == "" then "scheduled:" ++ seatId else jsTrim action }
    .ok ({ store with schedules := store.schedules ++ [schedule], updatedAtMs := ts },
         schedule)

def addWorkforceSchedule (store0 : Store) (seatIdRaw name : String) (intervalMsRaw : Int)
    (action : String) (ts : Nat) : Except String (Store × Schedule) :=
  match addWorkforceSchedulePre store0 seatIdRaw name intervalMsRaw action ts with
  | .ok (s, r) => .ok (trimStore s, r)
  | .error e => .error e

/-- The source's `ensureStore` updater: (re)create or sanitize, stamp
    `updatedAtMs`.  On a forced re-initialisation the fresh-identifier
    counter is carried over (UUID freshness is global in the source). -/
def ensureStore (current : Option Store) (force : Bool) (ts : Nat) : Store :=
  let needsInit := force || current.isNone
  let next :=
    if needsInit then
      match current with
      | some s => { createDefaultStore ts with nextId := s.nextId }
      | none => createDefaultStore ts
    else sanitizeStore (current.getD (createDefaultStore ts))
  { next with updatedAtMs := ts }

/-! Scheduler tick (service.ts `tickWorkforceSchedules`).  The loop is
    modelled by index recursion; the executed-flag list is conservative
    instrumentation recording, per schedule index, whether the execute
    branch was taken (the store and results are exactly the source's). -/

def tickStep (actor : Option String) (ts : Nat) (fuel : Nat) (store : Store) (idx : Nat)
    (net : Net) : Store × Option ActionResult × Bool × Net :=
  match store.schedules.get? idx with
  | none => (store, none, false, net)
  | some schedule =>
    if !schedule.enabled || (schedule.intervalMs.getD 0) == 0 then (store, none, false, net)
    else if (schedule.nextRunAtMs.getD 0) == 0 || (schedule.nextRunAtMs.getD 0) > ts then
      (store, none, false, net)
    else
      match normalizeSeatId schedule.seatId with
      | none => (store, none, false, net)
      | some seatId =>
        let queue := findQueue store seatId
        if (match queue with
            | some q => decide (q.pending ≥ ((max 1 schedule.maxConcurrentRuns : Nat) : Int))
            | none => false) then
          let store :=
            { store with
              schedules := store.schedules.set idx
                { schedule with nextRunAtMs := some (ts + schedule.intervalMs.getD 0) } }
          (store, none, false, net)
        else
          let (store, actionResult) := executeActionInStore store
              { seatId, action := schedule.action, source := some RunSource.cron,
                actor := some (actor.getD "scheduler") } ts
          let (store, actionResult, _, net) := maybeRunAppfolioReportJob store actionResult
              schedule.action none (actor.getD "scheduler") RunSource.cron ts net
          let (store, actionResult, _, net) := maybeRunAppfolioWorkflowJob store actionResult
              schedule.action none (actor.getD "scheduler") RunSource.cron ts fuel net
          let store :=
            { store with
              schedules := store.schedules.set idx
                { schedule with
                  lastRunAtMs := some ts,
                  nextRunAtMs := some (ts + schedule.intervalMs.getD 0) } }
          (store, some actionResult, true, net)

def tickLoop (actor : Option String) (ts : Nat) (fuel : Nat) :
    Nat → Nat → Store × List ActionResult × List Bool × Net →
    Store × List ActionResult × List Bool × Net
  | 0, _, st => st
  | remaining + 1, idx, (store, triggered, flags, net) =>
    let (store, res, ran, net) := tickStep actor ts fuel store idx net
    let triggered :=
      match res with
      | some r => triggered ++ [r]
      | none => triggered
    tickLoop actor ts fuel remaining (idx + 1) (store, triggered, flags ++ [ran], net)

def tickWorkforceSchedulesPre (store0 : Store) (actor : Option String) (ts : Nat)
    (fuel : Nat) (net : Net) : Store × List ActionResult × List Bool × Net :=
  let store := sanitizeStore store0
  let (store, triggered, flags, net) :=
    tickLoop actor ts fuel store.schedules.length 0 (store, [], [], net)
  ({ store with updatedAtMs := ts }, triggered, flags, net)

def tickWorkforceSchedules (store0 : Store) (actor : Option String) (ts : Nat)
    (fuel : Nat) (net : Net) : Store × List ActionResult × List Bool × Net :=
  let (s, triggered, flags, net) := tickWorkforceSchedulesPre store0 actor ts fuel net
  (trimStore s, triggered, flags, net)

/-! Operation sequences.  `applyOps` starts from the store that the service
    materialises on first contact with an empty deployment
    (`sanitizeStore(null) = createDefaultStore(ts)`). -/

inductive Op where
  | exec (input : ActionInput) (oracle : Nat → NetResult) (fuel : Nat) (ts : Nat)
  | resolve (decisionId : Nat) (resolution : Resolution) (actor : Option String) (ts : Nat)
  | replay (runId : Nat) (actor : Option String) (ts : Nat)
  | tick (actor : Option String) (oracle : Nat → NetResult) (fuel : Nat) (ts : Nat)
  | scheduleAdd (seatId name : String) (intervalMs : Int) (action : String) (ts : Nat)
  | writeback (actor note artifact : Option String) (ts : Nat)
  | ensure (force : Bool) (ts : Nat)

def applyOp (store : Store) (op : Op) : Store :=
  match op with
  | .exec input oracle fuel ts =>
    (match executeWorkforceAction store input ts fuel { oracle, calls := 0 } with
     | .ok (s, _, _) => s
     | .error _ => store)
  | .resolve id res actor ts =>
    (match resolveWorkforceDecision store id res actor ts with
     | .ok (s, _) => s
     | .error _ => store)
  | .replay rid actor ts =>
    (match replayWorkforceRun store rid actor ts with
     | .ok (s, _) => s
     | .error _ => store)
  | .tick actor oracle fuel ts =>
    (tickWorkforceSchedules store actor ts fuel { oracle, calls := 0 }).1
  | .scheduleAdd seatId name intervalMs action ts =>
    (match addWorkforceSchedule store seatId name intervalMs action ts with
     | .ok (s, _) => s
     | .error _ => store)
  | .writeback actor note artifact ts =>
    (recordAppfolioWritebackReceipt store actor note artifact ts).1
  | .ensure force ts => ensureStore (some store) force ts

def initialStore (ts : Nat) : Store := createDefaultStore ts

def applyOps (store : Store) (ops : List Op) : Store := ops.foldl applyOp store

/-- The store state just before an operation's final `trimStore` call;
    `none` when the operation throws or takes a path without a trim. -/
def applyOpPre (store : Store) (op : Op) : Option Store :=
  match op with
  | .exec input oracle fuel ts =>
    (match executeWorkforceActionPre store input ts fuel { oracle, calls := 0 } with
     | .ok (s, _, _) => some s
     | .error _ => none)
  | .resolve id res actor ts =>
    (match resolveWorkforceDecisionPre store id res actor ts with
     | .ok (s, _, true) => some s
     | _ => none)
  | .replay rid actor ts =>
    (match replayWorkforceRunPre store rid actor ts with
     | .ok (s, _) => some s
     | .error _ => none)
  | .tick actor oracle fuel ts =>
    some (tickWorkforceSchedulesPre store actor ts fuel { oracle, calls := 0 }).1
  | .scheduleAdd seatId name intervalMs action ts =>
    (match addWorkforceSchedulePre store seatId name intervalMs action ts with
     | .ok (s, _) => some s
     | .error _ => none)
  | .writeback actor note artifact ts =>
    some (recordAppfolioWritebackReceiptPre store actor note artifact ts).1
  | .ensure _ _ => none

/-- The operation's trim was a no-op (pre-trim sizes within caps). -/
def opNoTrim (store : Store) (op : Op) : Bool :=
  match applyOpPre store op with
  | some s => withinCaps s
  | none => true

/-- No trimming happened anywhere along the operation sequence. -/
def noTrimSeq : Store → List Op → Bool
  | _, [] => true
  | s, op :: rest => opNoTrim s op && noTrimSeq (applyOp s op) rest

/-! Claim C10: structural errors fail fast without mutating state. -/

theorem normalizeSeatId_none (v : String)
    (h : ∀ seat ∈ WORKFORCE_ROSTER, seat.id ≠ jsTrim v) :
    normalizeSeatId v = none := by
  have hany : WORKFORCE_ROSTER.any (fun seat => seat.id == jsTrim v) = false := by
    simp only [List.any_eq_false]
    intro seat hs
    simpa using h seat hs
  unfold normalizeSeatId
  simp [hany]

/-- Claim C10: when `executeAction` is called with a seat id that is not on
    the roster, or with an empty/blank action string, it fails with a thrown
    error and the persisted store is left unchanged (no run, receipt,
    decision, or replay frame is added). -/
theorem claim10_structural_errors_fail_fast (store : Store) (input : ActionInput)
    (ts fuel : Nat) (oracle : Nat → NetResult)
    (h : (∀ seat ∈ WORKFORCE_ROSTER, seat.id ≠ jsTrim input.seatId) ∨
      jsTrim input.action = "") :
    (∃ e, executeWorkforceAction store input ts fuel
      { oracle := oracle, calls := 0 } = .error e) ∧
    applyOp store (Op.exec input oracle fuel ts) = store := by
  have hnorm : normalizeSeatId input.seatId = none ∨ jsTrim input.action = "" := by
    rcases h with h | h
    · exact Or.inl (normalizeSeatId_none _ h)
    · exact Or.inr h
  have herr : ∀ net : Net, ∃ e, executeWorkforceAction store input ts fuel net = .error e := by
    intro net
    unfold executeWorkforceAction executeWorkforceActionPre sanitizeStore
    rcases hnorm with h1 | h1
    · exact ⟨"Unknown seat id: " ++ input.seatId, by simp [h1]⟩
    · cases h2 : normalizeSeatId input.seatId with
      | none => exact ⟨"Unknown seat id: " ++ input.seatId, by simp [h2]⟩
      | some s => exact ⟨"Action is required", by simp [h2, h1]⟩
  refine ⟨herr { oracle := oracle, calls := 0 }, ?_⟩
  obtain ⟨e, he⟩ := herr { oracle := oracle, calls := 0 }
  simp [applyOp, he]

/-- Witness for C10 at a concrete input: seat `ghost` is not on the roster;
    the call errors and the default store is untouched. -/
theorem claim10_witness :
    (∀ seat ∈ WORKFORCE_ROSTER, seat.id ≠ jsTrim "ghost") ∧
    ((∃ e, executeWorkforceAction (initialStore 0)
        { seatId := "ghost", action := "standup:start" } 5 0
        { oracle := fun _ => { ok := false }, calls := 0 } = .error e) ∧
      applyOp (initialStore 0)
        (Op.exec { seatId := "ghost", action := "standup:start" }
          (fun _ => { ok := false }) 0 5) = initialStore 0) :=
  ⟨by decide,
   claim10_structural_errors_fail_fast (initialStore 0)
     { seatId := "ghost", action := "standup:start" } 5 0 (fun _ => { ok := false })
     (Or.inl (by decide))⟩

/-! Claim C9: the bill_detail missing-date scenario. -/

/-- The scenario input: a `bill_detail` report run whose `reportFilters`
    override blanks out both required date fields in the merged payload. -/
def billDetailMissingDatesInput : ActionInput :=
  { seatId := "queue-manager", action := "appfolio.report.run:bill_detail",
    payload := some [("reportFilters",
      JVal.obj [("occurred_on_from", JVal.str ""), ("occurred_on_to", JVal.str "")])] }

/-- Claim C9: for a `bill_detail` report-preset run whose merged payload is
    missing `occurred_on_from` and `occurred_on_to`, the validation error
    list is exactly `["missing_required_filter:occurred_on_from",
    "missing_required_filter:occurred_on_to"]`, the run status is `error`,
    and zero ReportClient calls are made. -/
theorem claim9_bill_detail_missing_dates :
    (executeWorkforceAction (initialStore 0) billDetailMissingDatesInput 5 0
        { oracle := fun _ => { ok := false }, calls := 0 }).toOption.map
      (fun x => (x.2.1.run.status, x.2.1.appfolioReport.map JobResult.validationErrors,
        x.2.2.calls)) =
    some (RunStatus.error,
      some ["missing_required_filter:occurred_on_from",
            "missing_required_filter:occurred_on_to"],
      0) := by decide

/-! Claim C8: resolving the same decision a second time is a no-op. -/

theorem length_updateFirst {α : Type} (p : α → Bool) (f : α → α) (l : List α) :
    (updateFirst p f l).length = l.length := by
  induction l with
  | nil => rfl
  | cons a rest ih =>
    by_cases ha : p a = true
    · simp [updateFirst, ha]
    · simp [updateFirst, ha, ih]

theorem find?_sat {α : Type} (p : α → Bool) (l : List α) (a : α)
    (h : l.find? p = some a) : p a = true := by
  induction l with
  | nil => simp at h
  | cons b rest ih =>
    by_cases hb : p b = true
    · rw [List.find?_cons_of_pos _ hb] at h
      cases h; assumption
    · rw [List.find?_cons_of_neg _ (by simp [hb])] at h
      exact ih h

theorem find?_updateFirst_eq {α : Type} (p : α → Bool) (x : α) (l : List α) (d : α)
    (hx : p x = true) (h : l.find? p = some d) :
    (updateFirst p (fun _ => x) l).find? p = some x := by
  induction l with
  | nil => simp at h
  | cons a rest ih =>
    by_cases ha : p a = true
    · simp [updateFirst, ha, List.find?_cons_of_pos, hx]
    · have ha' : p a = false := by simpa using ha
      rw [List.find?_cons_of_neg _ (by simp [ha'])] at h
      simp [updateFirst, ha', List.find?_cons_of_neg, ih h]

theorem trimStore_decisions_of_le (s : Store)
    (h : s.decisions.length ≤ MAX_STORED_DECISIONS) :
    (trimStore s).decisions = s.decisions := by
  unfold trimStore
  simp [Nat.not_lt.mpr h]

/-- Any successful resolve call leaves, at the resolved id, exactly the
    returned card, already in resolved state. -/
theorem resolve_ok_find (s0 s1 : Store) (id : Nat) (r : Resolution) (a : Option String)
    (ts : Nat) (card : DecisionCard)
    (hlen : s0.decisions.length ≤ MAX_STORED_DECISIONS)
    (h : resolveWorkforceDecision s0 id r a ts = .ok (s1, card)) :
    s1.decisions.find? (fun e => e.decisionId == id) = some card ∧
      (card.status != "pending") = true := by
  unfold resolveWorkforceDecision resolveWorkforceDecisionPre sanitizeStore at h
  dsimp only at h
  cases hfind : s0.decisions.find? (fun e => e.decisionId == id) with
  | none => rw [hfind] at h; simp at h
  | some decision =>
    rw [hfind] at h
    have hid : (decision.decisionId == id) = true := by
      have := find?_sat (fun e => e.decisionId == id) s0.decisions decision hfind
      simpa using this
    by_cases hst : (decision.status != "pending") = true
    · simp only [hst, if_pos] at h
      obtain ⟨hs, hc⟩ := by simpa using h
      subst hs; subst hc
      exact ⟨hfind, hst⟩
    · have hst' : (decision.status != "pending") = false := by simpa using hst
      simp only [hst', Bool.false_eq_true, if_neg, if_false] at h
      obtain ⟨hs, hc⟩ := by simpa using h
      have hres :
          s1.decisions =
            updateFirst (fun e => e.decisionId == id)
              (fun _ =>
                { decision with
                  status := "resolved", resolution := some r,
                  resolvedBy := some (a.getD "operator"), resolvedAtMs := some ts })
              s0.decisions := by
        rw [← hs]
        rw [trimStore_decisions_of_le]
        · split <;> simp [appendReplay, appendReceipt, decrementQueuePending, Store.fresh]
        · -- decisions length unchanged on the mutating path
          split <;>
            simp [appendReplay, appendReceipt, decrementQueuePending, Store.fresh,
              length_updateFirst, hlen]
      constructor
      · rw [hres, ← hc]
        exact find?_updateFirst_eq _ _ _ decision (by simpa using hid) hfind
      · rw [← hc]
        simp

/-- Claim C8: resolving the same decision id a second time, with any
    resolution, actor and timestamp, returns the already-resolved card
    unchanged and leaves the store unchanged (no run status change, no new
    receipt, no new replay frame, no queue pending decrement).  The bound on
    the decision history is the cap that `trimStore` maintains after every
    operation. -/
theorem claim8_resolve_idempotent (s0 s1 : Store) (id : Nat) (r1 r2 : Resolution)
    (a1 a2 : Option String) (ts1 ts2 : Nat) (card : DecisionCard)
    (hlen : s0.decisions.length ≤ MAX_STORED_DECISIONS)
    (h : resolveWorkforceDecision s0 id r1 a1 ts1 = .ok (s1, card)) :
    resolveWorkforceDecision s1 id r2 a2 ts2 = .ok (s1, card) := by
  obtain ⟨hfind, hst⟩ := resolve_ok_find s0 s1 id r1 a1 ts1 card hlen h
  unfold resolveWorkforceDecision resolveWorkforceDecisionPre sanitizeStore
  dsimp only
  rw [hfind]
  simp [hst]

/-- Store after escalating `retro.start` on the supervised `ops-lead` seat:
    it contains the single pending decision card with id 2. -/
def escStore : Store :=
  match executeWorkforceAction (initialStore 0)
      { seatId := "ops-lead", action := "retro.start" } 5 0
      { oracle := fun _ => { ok := false }, calls := 0 } with
  | .ok (s, _, _) => s
  | .error _ => initialStore 0

/-- Witness for C8: resolve decision 2 of `escStore` once, then resolve it a
    second time with a different resolution and actor; the second call
    returns the same card and the same store. -/
theorem claim8_witness :
    ∃ s1 card,
      resolveWorkforceDecision escStore 2 Resolution.allow none 6 = .ok (s1, card) ∧
      resolveWorkforceDecision s1 2 Resolution.deny (some "second-operator") 7 =
        .ok (s1, card) := by
  have hok : (resolveWorkforceDecision escStore 2 Resolution.allow none 6).isOk = true := by
    decide
  cases hres : resolveWorkforceDecision escStore 2 Resolution.allow none 6 with
  | error e => rw [hres] at hok; simp [Except.isOk, Except.toBool] at hok
  | ok p =>
    obtain ⟨s1, card⟩ := p
    exact ⟨s1, card, rfl,
      claim8_resolve_idempotent escStore s1 2 Resolution.allow Resolution.deny none
        (some "second-operator") 6 7 card (by decide) hres⟩

/-! Claim C1: report-preset actions under a non-allow policy decision. -/

/-- Claim C1 as stated: a report-preset action whose policy decision is not
    `allow` marks the run `error` and makes no ReportClient call. -/
def claim1Statement : Prop :=
  ∀ (store : Store) (input : ActionInput) (ts fuel : Nat) (oracle : Nat → NetResult)
    (s : Store) (r : ActionResult) (n : Net),
    executeWorkforceAction store input ts fuel { oracle := oracle, calls := 0 } =
      .ok (s, r, n) →
    (parseWorkforceAppfolioReportPresetId input.action).isSome = true →
    r.policy ≠ PolicyDecision.allow →
    r.run.status = RunStatus.error ∧ n.calls = 0

def c1Input : ActionInput :=
  { seatId := "ops-lead", action := "appfolio.report.run:rent_roll" }

/-- Counterexample to C1 as stated: the supervised `ops-lead` seat escalates
    `appfolio.report.run:rent_roll`; no ReportClient call is made, but the
    run status stays `escalated` — the code never marks such a run
    `error`. -/
theorem claim1_counterexample : ¬ claim1Statement := by
  intro h
  have hfacts : (executeWorkforceAction (initialStore 0) c1Input 5 0
      { oracle := fun _ => { ok := false }, calls := 0 }).toOption.map
        (fun x => (x.2.1.policy, x.2.1.run.status, x.2.2.calls)) =
      some (PolicyDecision.escalate, RunStatus.escalated, 0) := by decide
  cases hres : executeWorkforceAction (initialStore 0) c1Input 5 0
      { oracle := fun _ => { ok := false }, calls := 0 } with
  | error e => rw [hres] at hfacts; simp [Except.toOption] at hfacts
  | ok t =>
    obtain ⟨s, r, n⟩ := t
    rw [hres] at hfacts
    simp [Except.toOption] at hfacts
    obtain ⟨hp, hs, hc⟩ := hfacts
    have h2 := h (initialStore 0) c1Input 5 0 (fun _ => { ok := false }) s r n hres
      (by decide) (by rw [hp]; decide)
    rw [hs] at h2
    exact absurd h2.1 (by decide)

theorem isPrefixOf_of_isPre {l1 l2 : List Char} (h : l1 <+: l2) :
    l1.isPrefixOf l2 = true :=
  List.isPrefixOf_iff_prefix.mpr h

/-- A report-preset action string cannot also be a workflow action. -/
theorem parseWorkflow_none_of_parseReport_some (action : String) (p : PresetId)
    (h : parseWorkforceAppfolioReportPresetId action = some p) :
    parseWorkforceAppfolioWorkflowId action = none := by
  unfold parseWorkforceAppfolioReportPresetId at h
  unfold parseWorkforceAppfolioWorkflowId
  dsimp only at h ⊢
  by_cases h1 : strStartsWith (jsToLower (jsTrim action)) "appfolio.report.run:" = true
  · by_cases h2 : strStartsWith (jsToLower (jsTrim action)) "appfolio.workflow.run:" = true
    · exfalso
      unfold strStartsWith at h1 h2
      have p1 : "appfolio.report.run:".toList <+: (jsToLower (jsTrim action)).toList :=
        List.isPrefixOf_iff_prefix.mp h1
      have p2 : "appfolio.workflow.run:".toList <+: (jsToLower (jsTrim action)).toList :=
        List.isPrefixOf_iff_prefix.mp h2
      rcases List.prefix_or_prefix_of_prefix p1 p2 with hp | hp
      · exact absurd (isPrefixOf_of_isPre hp) (by decide)
      · exact absurd (isPrefixOf_of_isPre hp) (by decide)
    · simp [h2]
  · rw [if_neg (by simpa using h1)] at h
    simp at h

/-- The policy decision of `executeActionInStore`'s result. -/
theorem executeActionInStore_policy (store : Store) (input : ActionInput) (ts : Nat) :
    (executeActionInStore store input ts).2.policy =
      (evaluatePolicy input.seatId (jsTrim input.action) input.requireWritebackReceipt
        input.payload store).decision := rfl

/-- The run status of `executeActionInStore`'s result is derived from the
    policy decision. -/
theorem executeActionInStore_run_status (store : Store) (input : ActionInput) (ts : Nat) :
    (executeActionInStore store input ts).2.run.status =
      (match (evaluatePolicy input.seatId (jsTrim input.action)
          input.requireWritebackReceipt input.payload store).decision with
       | PolicyDecision.allow => RunStatus.ok
       | PolicyDecision.block => RunStatus.blocked
       | PolicyDecision.escalate => RunStatus.escalated) := by
  unfold executeActionInStore
  dsimp only
  split <;> rfl

/-- Case split helper for an `if` under an arbitrary predicate. -/
theorem ite_pred {α : Type} {c : Prop} [Decidable c] (P : α → Prop) {a b : α}
    (ha : P a) (hb : P b) : P (if c then a else b) := by
  by_cases h : c
  · rwa [if_pos h]
  · rwa [if_neg h]

/-- The report job never changes the policy decision of the action
    result. -/
theorem reportJob_policy_eq (store : Store) (ar : ActionResult) (action : String)
    (payload : Option Payload) (actor : String) (source : RunSource) (ts : Nat)
    (net : Net) :
    (maybeRunAppfolioReportJob store ar action payload actor source ts net).2.1.policy =
      ar.policy := by
  unfold maybeRunAppfolioReportJob
  cases parseWorkforceAppfolioReportPresetId action with
  | none => rfl
  | some presetId =>
    dsimp only
    refine ite_pred
      (fun (x : Store × ActionResult × Option JobResult × Net) =>
        x.2.1.policy = ar.policy) rfl ?_
    refine ite_pred
      (fun (x : Store × ActionResult × Option JobResult × Net) =>
        x.2.1.policy = ar.policy) rfl ?_
    unfold reportJobFetch
    dsimp only
    split <;> split <;> rfl

/-- On a report-preset action whose enclosing policy decision is not
    `allow`, the report job keeps the policy and run status unchanged and
    performs no client call. -/
theorem reportJob_not_allow (store : Store) (ar : ActionResult) (action : String)
    (payload : Option Payload) (actor : String) (source : RunSource) (ts : Nat)
    (net : Net) (pid : PresetId)
    (hparse : parseWorkforceAppfolioReportPresetId action = some pid)
    (hpol : ar.policy ≠ PolicyDecision.allow) :
    (maybeRunAppfolioReportJob store ar action payload actor source ts net).2.1.policy =
        ar.policy ∧
    (maybeRunAppfolioReportJob store ar action payload actor source ts net).2.1.run.status =
        ar.run.status ∧
    (maybeRunAppfolioReportJob store ar action payload actor source ts net).2.2.2.calls =
        net.calls := by
  unfold maybeRunAppfolioReportJob
  rw [hparse]
  dsimp only
  rw [if_pos hpol]
  exact ⟨rfl, rfl, rfl⟩

/-- A non-workflow action leaves everything untouched in the workflow job. -/
theorem workflowJob_no_match (store : Store) (ar : ActionResult) (action : String)
    (payload : Option Payload) (actor : String) (source : RunSource) (ts fuel : Nat)
    (net : Net) (h : parseWorkforceAppfolioWorkflowId action = none) :
    maybeRunAppfolioWorkflowJob store ar action payload actor source ts fuel net =
      (store, ar, false, net) := by
  unfold maybeRunAppfolioWorkflowJob
  rw [h]

/-- Amended claim C1: for a report-preset action whose policy decision is
    not `allow`, no ReportClient call is made, and the run keeps the status
    derived from the policy decision (`blocked` for `block`, `escalated` for
    `escalate`) — it is not marked `error`. -/
theorem claim1_amended (store : Store) (input : ActionInput) (ts fuel : Nat)
    (oracle : Nat → NetResult) (s : Store) (r : ActionResult) (n : Net)
    (hexec : executeWorkforceAction store input ts fuel { oracle := oracle, calls := 0 } =
      .ok (s, r, n))
    (pid : PresetId)
    (hparse : parseWorkforceAppfolioReportPresetId input.action = some pid)
    (hpol : r.policy ≠ PolicyDecision.allow) :
    n.calls = 0 ∧
    r.run.status =
      (if r.policy = PolicyDecision.block then RunStatus.blocked else RunStatus.escalated) := by
  unfold executeWorkforceAction executeWorkforceActionPre sanitizeStore at hexec
  dsimp only at hexec
  cases hseat : normalizeSeatId input.seatId with
  | none => rw [hseat] at hexec; simp at hexec
  | some seatId =>
    rw [hseat] at hexec
    dsimp only at hexec
    by_cases hblank : (jsTrim input.action == "") = true
    · simp [hblank] at hexec
    · rw [if_neg (by simpa using hblank)] at hexec
      rcases hpair : executeActionInStore store { input with seatId := seatId } ts with ⟨s1, r1⟩
      rw [hpair] at hexec
      dsimp only at hexec
      rcases hrep : maybeRunAppfolioReportJob s1 r1 input.action input.payload
          (input.actor.getD "workforce") (input.source.getD RunSource.workforce) ts
          { oracle := oracle, calls := 0 } with ⟨s2, r2, j2, n2⟩
      rw [hrep] at hexec
      dsimp only at hexec
      rw [workflowJob_no_match s2 r2 input.action input.payload
          (input.actor.getD "workforce") (input.source.getD RunSource.workforce) ts fuel n2
          (parseWorkflow_none_of_parseReport_some input.action pid hparse)] at hexec
      dsimp only at hexec
      obtain ⟨hs, hr, hn⟩ := by simpa using hexec
      have hr1pol : r1.policy =
          (evaluatePolicy seatId (jsTrim input.action) input.requireWritebackReceipt
            input.payload store).decision := by
        have := executeActionInStore_policy store { input with seatId := seatId } ts
        rw [hpair] at this
        simpa using this
      have hr1st : r1.run.status =
          (match (evaluatePolicy seatId (jsTrim input.action)
              input.requireWritebackReceipt input.payload store).decision with
           | PolicyDecision.allow => RunStatus.ok
           | PolicyDecision.block => RunStatus.blocked
           | PolicyDecision.escalate => RunStatus.escalated) := by
        have := executeActionInStore_run_status store { input with seatId := seatId } ts
        rw [hpair] at this
        simpa using this
      have hpol2 : r2.policy = r1.policy := by
        have := reportJob_policy_eq s1 r1 input.action input.payload
            (input.actor.getD "workforce") (input.source.getD RunSource.workforce) ts
            { oracle := oracle, calls := 0 }
        rw [hrep] at this
        exact this
      have hr1pol' : r1.policy ≠ PolicyDecision.allow := by
        intro hcon
        exact hpol (by rw [← hr, hpol2, hcon])
      obtain ⟨_, hstat, hcalls⟩ := reportJob_not_allow s1 r1 input.action input.payload
          (input.actor.getD "workforce") (input.source.getD RunSource.workforce) ts
          { oracle := oracle, calls := 0 } pid hparse hr1pol'
      rw [hrep] at hstat hcalls
      dsimp only at hstat hcalls
      have hrstat : r.run.status = r1.run.status := by rw [← hr]; exact hstat
      have hrpol2 : r.policy = r1.policy := by rw [← hr]; exact hpol2
      refine ⟨by rw [← hn]; exact hcalls, ?_⟩
      rw [hrstat, hr1st, hrpol2, hr1pol]
      cases hdec : (evaluatePolicy seatId (jsTrim input.action)
          input.requireWritebackReceipt input.payload store).decision with
      | allow =>
        exact absurd (hrpol2.trans (hr1pol.trans hdec)) hpol
      | block => simp
      | escalate => simp

/-- Witness for the amended C1: the `ops-lead` escalation scenario has zero
    client calls and run status `escalated`. -/
theorem claim1_witness :
    ∃ s r n,
      executeWorkforceAction (initialStore 0) c1Input 5 0
        { oracle := fun _ => { ok := false }, calls := 0 } = .ok (s, r, n) ∧
      n.calls = 0 ∧
      r.run.status =
        (if r.policy = PolicyDecision.block then RunStatus.blocked
         else RunStatus.escalated) := by
  have hfacts : (executeWorkforceAction (initialStore 0) c1Input 5 0
      { oracle := fun _ => { ok := false }, calls := 0 }).toOption.map
        (fun x => x.2.1.policy) = some PolicyDecision.escalate := by decide
  cases hres : executeWorkforceAction (initialStore 0) c1Input 5 0
      { oracle := fun _ => { ok := false }, calls := 0 } with
  | error e => rw [hres] at hfacts; simp [Except.toOption] at hfacts
  | ok t =>
    obtain ⟨s, r, n⟩ := t
    rw [hres] at hfacts
    simp [Except.toOption] at hfacts
    exact ⟨s, r, n, rfl,
      claim1_amended (initialStore 0) c1Input 5 0 (fun _ => { ok := false }) s r n hres
        PresetId.rent_roll (by decide) (by rw [hfacts]; decide)⟩

/-! Claim C7: pagination and row-collection bounds. -/

/-- The pagination loop never fetches past `maxPages`. -/
theorem pagLoop_pages_le (netFetch : Nat → NetResult) (maxPages maxRows : Nat) :
    ∀ (fuel : Nat) (st : PagState) (calls : Nat),
    st.pagesFetched ≤ maxPages →
    (pagLoop netFetch maxPages maxRows fuel (st, calls)).1.pagesFetched ≤ maxPages := by
  intro fuel
  induction fuel with
  | zero => intro st calls h; exact h
  | succ fuel ih =>
    intro st calls h
    unfold pagLoop
    dsimp only
    split
    · exact h
    · by_cases h1 : st.pagesFetched ≥ maxPages
      · rw [if_pos h1]; exact h
      · rw [if_neg h1]
        split
        · exact h
        · split
          · exact h
          · have h2 : st.pagesFetched + 1 ≤ maxPages := Nat.lt_of_not_le (by simpa using h1)
            split <;> exact ih _ _ h2

/-- Rows returned by one client call are sliced to the normalized bound. -/
theorem clientRun_rows_le (resp : NetResult) (m : Option Int) :
    ∀ l ∈ (clientRun resp true m).rows, l.length ≤ normalizeMaxRows m := by
  unfold clientRun
  split
  · intro l hl
    cases hrows : extractReportRows resp.payload with
    | none => rw [hrows] at hl; simp at hl
    | some r0 =>
      rw [hrows] at hl
      simp only [Option.mem_def] at hl
      simp at hl
      subst hl
      simpa using List.length_take_le _ _
  · intro l hl; simp at hl

/-- The row-collection loop keeps the aggregate within `maxRows`. -/
theorem collectRowsLoop_length_le (netFetch : Nat → NetResult) (maxRows : Nat) :
    ∀ (fuel : Nat) (rows : List JVal) (next : Option String) (truncated : Bool)
      (calls : Nat),
    rows.length ≤ maxRows →
    (collectRowsLoop netFetch maxRows fuel (rows, next, truncated, calls)).1.length ≤
      maxRows := by
  intro fuel
  induction fuel with
  | zero => intro rows next truncated calls h; exact h
  | succ fuel ih =>
    intro rows next truncated calls h
    unfold collectRowsLoop
    dsimp only
    split
    · exact h
    · by_cases h1 : (truncated || decide (rows.length ≥ maxRows)) = true
      · rw [if_pos h1]; exact h
      · rw [if_neg h1]
        have hlt : rows.length < maxRows :=
          (by simpa using h1 : truncated = false ∧ rows.length < maxRows).2
        have hbound : rows.length +
            ((clientRun (netFetch calls) true
              (some ((maxRows : Int) - (rows.length : Int)))).rows.getD []).length ≤
            maxRows := by
          cases hr : (clientRun (netFetch calls) true
              (some ((maxRows : Int) - (rows.length : Int)))).rows with
          | none => simpa using Nat.le_of_lt hlt
          | some l =>
            have hlen := clientRun_rows_le (netFetch calls)
              (some ((maxRows : Int) - (rows.length : Int))) l (by rw [hr]; rfl)
            have hnm : normalizeMaxRows (some ((maxRows : Int) - (rows.length : Int))) ≤
                maxRows - rows.length := by
              have hpos : ¬ ((maxRows : Int) - (rows.length : Int) ≤ 0) := by omega
              rw [show normalizeMaxRows (some ((maxRows : Int) - (rows.length : Int))) =
                  if (maxRows : Int) - (rows.length : Int) ≤ 0 then 1
                  else min ((maxRows : Int) - (rows.length : Int)).toNat 5000 from rfl]
              rw [if_neg hpos]
              have heq : ((maxRows : Int) - (rows.length : Int)).toNat =
                  maxRows - rows.length := by omega
              rw [heq]
              exact Nat.min_le_left _ _
            simp only [Option.getD_some]
            omega
        split
        · simpa using Nat.le_of_lt hlt
        · split
          · simpa using hbound
          · exact ih _ _ _ _ (by simpa using hbound)

/-- The row collection never aggregates more rows than its bound. -/
theorem collectAppfolioReportRows_length_le (reportName : String) (body : Payload)
    (maxRowsRaw : Int) (fuel : Nat) (net : Net) :
    (collectAppfolioReportRows reportName body maxRowsRaw fuel net).1.rows.length ≤
      (max 1 maxRowsRaw).toNat := by
  unfold collectAppfolioReportRows
  dsimp only
  split
  · simp
  · have hfirst : ((clientRun (net.oracle net.calls) true
        (some (((max 1 maxRowsRaw).toNat : Nat) : Int))).rows.getD []).length ≤
        (max 1 maxRowsRaw).toNat := by
      cases hr : (clientRun (net.oracle net.calls) true
          (some (((max 1 maxRowsRaw).toNat : Nat) : Int))).rows with
      | none => simp
      | some l =>
        have hlen := clientRun_rows_le (net.oracle net.calls)
          (some (((max 1 maxRowsRaw).toNat : Nat) : Int)) l (by rw [hr]; rfl)
        have hnm : normalizeMaxRows (some (((max 1 maxRowsRaw).toNat : Nat) : Int)) ≤
            (max 1 maxRowsRaw).toNat := by
          have h1 : (1 : Int) ≤ max 1 maxRowsRaw := le_max_left _ _
          have hpos : ¬ ((((max 1 maxRowsRaw).toNat : Nat) : Int) ≤ 0) := by omega
          rw [show normalizeMaxRows (some (((max 1 maxRowsRaw).toNat : Nat) : Int)) =
              if (((max 1 maxRowsRaw).toNat : Nat) : Int) ≤ 0 then 1
              else min ((((max 1 maxRowsRaw).toNat : Nat) : Int)).toNat 5000 from rfl]
          rw [if_neg hpos]
          have heq : ((((max 1 maxRowsRaw).toNat : Nat) : Int)).toNat =
              (max 1 maxRowsRaw).toNat := by omega
          rw [heq]
          exact Nat.min_le_left _ _
        simp only [Option.getD_some]
        omega
    exact collectRowsLoop_length_le net.oracle _ fuel _ _ _ _ hfirst


/-- `clampNumber v 1 hi` is at least the lower bound, so its `toNat` is
    positive. -/
theorem clampNumber_toNat_pos (v hi : Int) : 1 ≤ (clampNumber v 1 hi).toNat := by
  unfold clampNumber
  have h : (1 : Int) ≤ max 1 (min hi v) := le_max_left _ _
  omega

/-- The normalized `maxPages` is always at least 1. -/
theorem normalize_maxPages_pos (input : Option JVal) :
    1 ≤ (normalizeWorkforceAppfolioPaginationOptions input).maxPages :=
  clampNumber_toNat_pos _ _

/-- The fetch branch reports `pagesFetched` within `maxPages` (the first page
    counts as one fetch, so the bound needs `1 ≤ maxPages`, which the
    normalization guarantees). -/
theorem reportJobFetch_pages_le (store : Store) (ar : ActionResult) (presetId : PresetId)
    (pagination : PaginationOptions) (validation : PayloadValidation) (actor : String)
    (source : RunSource) (ts : Nat) (net : Net)
    (hmp : 1 ≤ pagination.maxPages) :
    ∀ j ∈ (reportJobFetch store ar presetId pagination validation actor source ts
        net).2.2.1,
    ∀ pf ∈ j.pagesFetched, pf ≤ pagination.maxPages := by
  intro j hj pf hpf
  simp only [Option.mem_def] at hj
  unfold reportJobFetch at hj
  dsimp only at hj
  have hje := Option.some.inj hj
  subst hje
  simp only [Option.mem_def, Option.some.injEq] at hpf
  subst hpf
  have hst0 : (if (clientRun net.step.1 false none).ok = true then 1 else 0) ≤
      pagination.maxPages := by
    split
    · exact hmp
    · exact Nat.zero_le _
  split
  · exact pagLoop_pages_le _ _ _ _ _ _ hst0
  · split
    · exact hst0
    · exact hst0

def c7Payload : Payload := [("pagination", JVal.obj [("maxRows", JVal.num 1)])]

def c7Oracle : Nat → NetResult := fun _ =>
  { ok := true, payload := JVal.arr [JVal.null, JVal.null, JVal.null] }

def c7Run : Run :=
  { runId := 1, source := RunSource.workforce, seatId := "queue-manager",
    action := "appfolio.report.run:rent_roll", riskLevel := RiskLevel.low,
    policyProfile := ProfileId.balanced, policyDecision := PolicyDecision.allow,
    status := RunStatus.running, startedAtMs := 0, artifacts := [] }

def c7Ar : ActionResult :=
  { policy := PolicyDecision.allow, run := c7Run,
    receipt := { receiptId := 2, actor := "op", action := c7Run.action,
                 outcome := "policy_allow", ts := 0, artifacts := [], signature := "" },
    nextSteps := [] }

def c7Res : Store × ActionResult × Option JobResult × Net :=
  maybeRunAppfolioReportJob (initialStore 0) c7Ar "appfolio.report.run:rent_roll"
    (some c7Payload) "op" RunSource.workforce 0 { oracle := c7Oracle, calls := 0 }

/-- Claim C7 as stated: report jobs with pagination enabled keep the
    aggregated row count within the normalized `maxRows` and the page fetches
    within the normalized `maxPages`, and workflow row collections keep the
    aggregated rows within their bound. -/
def claim7Statement : Prop :=
  (∀ (store : Store) (ar : ActionResult) (action : String) (payload : Option Payload)
     (actor : String) (source : RunSource) (ts : Nat) (oracle : Nat → NetResult)
     (s : Store) (r : ActionResult) (job : JobResult) (n : Net),
     maybeRunAppfolioReportJob store ar action payload actor source ts
         { oracle := oracle, calls := 0 } = (s, r, some job, n) →
     (normalizeWorkforceAppfolioPaginationOptions
         (payload.bind (fun p => getKey p "pagination"))).autoPaginate = true →
     (∀ c ∈ job.count, c ≤ (normalizeWorkforceAppfolioPaginationOptions
         (payload.bind (fun p => getKey p "pagination"))).maxRows) ∧
     (∀ pf ∈ job.pagesFetched, pf ≤ (normalizeWorkforceAppfolioPaginationOptions
         (payload.bind (fun p => getKey p "pagination"))).maxPages)) ∧
  (∀ (reportName : String) (body : Payload) (maxRowsRaw : Int) (fuel : Nat) (net : Net),
     (collectAppfolioReportRows reportName body maxRowsRaw fuel net).1.rows.length ≤
       (max 1 maxRowsRaw).toNat)

/-- Counterexample to C7 as stated: with `pagination.maxRows = 1` an allowed
    `rent_roll` job whose first page holds 3 rows reports `count = some 3`,
    exceeding the normalized `maxRows` bound of 1 — the first page is never
    clamped against the workforce `maxRows`. -/
theorem claim7_counterexample : ¬ claim7Statement := by
  intro hcl
  have hfacts : (c7Res.2.2.1).map (fun j => j.count) = some (some 3) := by decide
  cases hres : c7Res.2.2.1 with
  | none => rw [hres] at hfacts; simp at hfacts
  | some job =>
    rw [hres] at hfacts
    simp at hfacts
    have heq : maybeRunAppfolioReportJob (initialStore 0) c7Ar
        "appfolio.report.run:rent_roll" (some c7Payload) "op" RunSource.workforce 0
        { oracle := c7Oracle, calls := 0 } =
        (c7Res.1, c7Res.2.1, some job, c7Res.2.2.2) := by
      show c7Res = _
      rw [← hres]
    have h2 := hcl.1 (initialStore 0) c7Ar "appfolio.report.run:rent_roll"
      (some c7Payload) "op" RunSource.workforce 0 c7Oracle c7Res.1 c7Res.2.1 job
      c7Res.2.2.2 heq (by decide)
    have h3 := h2.1 3 (by rw [hfacts]; rfl)
    exact absurd h3 (by decide)

/-- Claim C7 (amended): for every report job result, the reported
    `pagesFetched` stays within the normalized `maxPages`; and every workflow
    row collection aggregates at most `max 1 maxRows` rows.  (The aggregated
    `count` of a report job is not bounded by the workforce `maxRows`: the
    first page is counted in full.) -/
theorem claim7_amended (store : Store) (ar : ActionResult) (action : String)
    (payload : Option Payload) (actor : String) (source : RunSource) (ts : Nat)
    (net : Net) (s : Store) (r : ActionResult) (job : JobResult) (n : Net)
    (reportName : String) (body : Payload) (maxRowsRaw : Int) (fuel : Nat) (net2 : Net)
    (h : maybeRunAppfolioReportJob store ar action payload actor source ts net =
      (s, r, some job, n)) :
    (∀ pf ∈ job.pagesFetched,
      pf ≤ (normalizeWorkforceAppfolioPaginationOptions
        (payload.bind (fun p => getKey p "pagination"))).maxPages) ∧
    (collectAppfolioReportRows reportName body maxRowsRaw fuel net2).1.rows.length ≤
      (max 1 maxRowsRaw).toNat := by
  refine ⟨?_, collectAppfolioReportRows_length_le _ _ _ _ _⟩
  unfold maybeRunAppfolioReportJob at h
  cases hparse : parseWorkforceAppfolioReportPresetId action with
  | none =>
    rw [hparse] at h
    have h3 : (none : Option JobResult) = some job := congrArg (fun t => t.2.2.1) h
    cases h3
  | some presetId =>
    rw [hparse] at h
    dsimp only at h
    split at h
    · have hnone : job.pagesFetched = none :=
        (congrArg (fun t => t.2.2.1.bind (fun x => x.pagesFetched)) h).symm
      intro pf hpf
      rw [hnone] at hpf
      simp at hpf
    · split at h
      · have hnone : job.pagesFetched = none :=
          (congrArg (fun t => t.2.2.1.bind (fun x => x.pagesFetched)) h).symm
        intro pf hpf
        rw [hnone] at hpf
        simp at hpf
      · exact reportJobFetch_pages_le _ _ _ _ _ _ _ _ _
          (normalize_maxPages_pos _) job
          (Option.mem_def.mpr (congrArg (fun t => t.2.2.1) h))

theorem claim7_witness :
    ∃ (s : Store) (r : ActionResult) (job : JobResult) (n : Net),
      maybeRunAppfolioReportJob (initialStore 0) c7Ar "appfolio.report.run:rent_roll"
        (some c7Payload) "op" RunSource.workforce 0 { oracle := c7Oracle, calls := 0 } =
        (s, r, some job, n) ∧
      ((∀ pf ∈ job.pagesFetched,
        pf ≤ (normalizeWorkforceAppfolioPaginationOptions
          ((some c7Payload).bind (fun p => getKey p "pagination"))).maxPages) ∧
      (collectAppfolioReportRows "rent_roll" [] 1 0
          { oracle := c7Oracle, calls := 0 }).1.rows.length ≤ (max 1 (1 : Int)).toNat) := by
  have hsome : c7Res.2.2.1.isSome = true := by decide
  cases hres : c7Res.2.2.1 with
  | none => rw [hres] at hsome; simp at hsome
  | some job =>
    have heq : maybeRunAppfolioReportJob (initialStore 0) c7Ar
        "appfolio.report.run:rent_roll" (some c7Payload) "op" RunSource.workforce 0
        { oracle := c7Oracle, calls := 0 } =
        (c7Res.1, c7Res.2.1, some job, c7Res.2.2.2) := by
      show c7Res = _
      rw [← hres]
    exact ⟨c7Res.1, c7Res.2.1, job, c7Res.2.2.2, heq,
      claim7_amended _ _ _ _ _ _ _ _ _ _ job _ "rent_roll" [] 1 0
        { oracle := c7Oracle, calls := 0 } heq⟩


/-! Claims C5 and C6: scheduler re-arming.  Only the tick itself (and
    `addWorkforceSchedule`) touches `store.schedules`; the preservation
    lemmas below record that every other primitive leaves it unchanged. -/

theorem get?_set_ne {α : Type} (l : List α) :
    ∀ (i j : Nat) (a : α), i ≠ j → (l.set i a).get? j = l.get? j := by
  induction l with
  | nil => intro i j a h; rfl
  | cons x xs ih =>
    intro i j a h
    cases i with
    | zero =>
      cases j with
      | zero => exact absurd rfl h
      | succ j => rfl
    | succ i =>
      cases j with
      | zero => rfl
      | succ j => exact ih i j a (fun he => h (congrArg Nat.succ he))

theorem get?_set_self {α : Type} (l : List α) :
    ∀ (i : Nat) (a : α), i < l.length → (l.set i a).get? i = some a := by
  induction l with
  | nil => intro i a h; exact absurd h (by simp)
  | cons x xs ih =>
    intro i a h
    cases i with
    | zero => rfl
    | succ i => exact ih i a (Nat.lt_of_succ_lt_succ h)

theorem get?_some_lt {α : Type} (l : List α) :
    ∀ (i : Nat) (a : α), l.get? i = some a → i < l.length := by
  induction l with
  | nil => intro i a h; cases i <;> exact Option.noConfusion h
  | cons x xs ih =>
    intro i a h
    cases i with
    | zero => simp
    | succ i => exact Nat.succ_lt_succ (ih i a h)

theorem fresh_schedules (s : Store) : (Store.fresh s).2.schedules = s.schedules := rfl

theorem setRunBoth_schedules (s : Store) (ar : ActionResult) (f : Run → Run) :
    (setRunBoth s ar f).1.schedules = s.schedules := rfl

theorem appendReplay_schedules (s : Store) (runId : Nat) (source : RunSource)
    (eventType : String) (sd pr : Option String) (ts : Nat) :
    (appendReplay s runId source eventType sd pr ts).1.schedules = s.schedules := rfl

theorem appendReceipt_schedules (s : Store) (runId decisionId : Option Nat)
    (actor action outcome : String) (ts : Nat) (artifacts : List String) :
    (appendReceipt s runId decisionId actor action outcome ts artifacts).1.schedules =
      s.schedules := rfl

theorem createDecisionCard_schedules (s : Store) (runId : Nat)
    (seatId title summary : String) (rl : RiskLevel) (ts : Nat) :
    (createDecisionCard s runId seatId title summary rl ts).1.schedules = s.schedules := rfl

theorem decrementQueuePending_schedules (s : Store) (seatId : String) :
    (decrementQueuePending s seatId).schedules = s.schedules := rfl

theorem trimStore_schedules (s : Store) : (trimStore s).schedules = s.schedules := rfl

theorem executeActionInStore_schedules (store : Store) (input : ActionInput) (ts : Nat) :
    (executeActionInStore store input ts).1.schedules = store.schedules := by
  unfold executeActionInStore
  dsimp only
  cases (evaluatePolicy input.seatId (jsTrim input.action) input.requireWritebackReceipt
      input.payload store).decision <;>
    simp only [fresh_schedules, setRunBoth_schedules, appendReplay_schedules,
      appendReceipt_schedules, createDecisionCard_schedules, decrementQueuePending_schedules]

theorem reportJobNotAllow_schedules (store : Store) (ar : ActionResult)
    (presetId : PresetId) (validation : PayloadValidation) (net : Net) :
    (reportJobNotAllow store ar presetId validation net).1.schedules = store.schedules := rfl

theorem reportJobInvalid_schedules (store : Store) (ar : ActionResult) (presetId : PresetId)
    (validation : PayloadValidation) (actor : String) (source : RunSource) (ts : Nat)
    (net : Net) :
    (reportJobInvalid store ar presetId validation actor source ts net).1.schedules =
      store.schedules := rfl

theorem reportJobFetch_schedules (store : Store) (ar : ActionResult) (presetId : PresetId)
    (pagination : PaginationOptions) (validation : PayloadValidation) (actor : String)
    (source : RunSource) (ts : Nat) (net : Net) :
    (reportJobFetch store ar presetId pagination validation actor source ts
        net).1.schedules = store.schedules := by
  unfold reportJobFetch
  dsimp only
  simp only [setRunBoth_schedules, appendReplay_schedules, appendReceipt_schedules]
  split <;>
    simp only [setRunBoth_schedules, appendReplay_schedules, appendReceipt_schedules]

theorem maybeReportJob_schedules (store : Store) (ar : ActionResult) (action : String)
    (payload : Option Payload) (actor : String) (source : RunSource) (ts : Nat)
    (net : Net) :
    (maybeRunAppfolioReportJob store ar action payload actor source ts net).1.schedules =
      store.schedules := by
  unfold maybeRunAppfolioReportJob
  split
  · rfl
  · dsimp only
    split
    · exact reportJobNotAllow_schedules _ _ _ _ _
    · split
      · exact reportJobInvalid_schedules _ _ _ _ _ _ _ _
      · exact reportJobFetch_schedules _ _ _ _ _ _ _ _ _

theorem workflowStep_schedules (store : Store) (ar : ActionResult) (wid : WorkflowId)
    (gf : Option Payload) (fp : String → Option Payload) (ir : Bool) (mr : Nat)
    (actor : String) (source : RunSource) (ts fuel : Nat) (net : Net)
    (presetId : PresetId) (acc : List StepResult × Option SmartBillReviewSummary) :
    (workflowStep store ar wid gf fp ir mr actor source ts fuel net presetId
        acc).1.schedules = store.schedules := by
  unfold workflowStep
  dsimp only
  repeat' split
  all_goals
    simp only [setRunBoth_schedules, appendReplay_schedules, appendReceipt_schedules]

theorem workflowStepsLoop_schedules (wid : WorkflowId) (gf : Option Payload)
    (fp : String → Option Payload) (ir : Bool) (mr : Nat) (actor : String)
    (source : RunSource) (ts fuel : Nat) :
    ∀ (ps : List PresetId) (store : Store) (ar : ActionResult)
      (acc : List StepResult × Option SmartBillReviewSummary) (net : Net),
    (workflowStepsLoop wid gf fp ir mr actor source ts fuel ps
        (store, ar, acc, net)).1.schedules = store.schedules := by
  intro ps
  induction ps with
  | nil => intro store ar acc net; rfl
  | cons p rest ih =>
    intro store ar acc net
    unfold workflowStepsLoop
    dsimp only
    rw [ih]
    exact workflowStep_schedules _ _ _ _ _ _ _ _ _ _ _ _ _ _

theorem maybeWorkflowJob_schedules (store : Store) (ar : ActionResult) (action : String)
    (payload : Option Payload) (actor : String) (source : RunSource) (ts fuel : Nat)
    (net : Net) :
    (maybeRunAppfolioWorkflowJob store ar action payload actor source ts fuel
        net).1.schedules = store.schedules := by
  unfold maybeRunAppfolioWorkflowJob
  split
  · rfl
  · dsimp only
    split
    · rfl
    · dsimp only
      repeat' split
      all_goals
        simp only [setRunBoth_schedules, appendReplay_schedules, appendReceipt_schedules,
          createDecisionCard_schedules, workflowStepsLoop_schedules]


/-- A tick step at index `idx` leaves every other schedule entry unchanged. -/
theorem tickStep_get_ne (actor : Option String) (ts fuel : Nat) (store : Store)
    (idx : Nat) (net : Net) (j : Nat) (h : j ≠ idx) :
    ((tickStep actor ts fuel store idx net).1).schedules.get? j =
      store.schedules.get? j := by
  unfold tickStep
  cases hget : store.schedules.get? idx with
  | none => rfl
  | some sch =>
    dsimp only
    split
    · rfl
    · split
      · rfl
      · cases hns : normalizeSeatId sch.seatId with
        | none => rfl
        | some seatId =>
          dsimp only
          split
          · exact get?_set_ne _ _ _ _ (Ne.symm h)
          · dsimp only
            rw [get?_set_ne _ _ _ _ (Ne.symm h)]
            simp only [executeActionInStore_schedules, maybeReportJob_schedules,
              maybeWorkflowJob_schedules]

/-- A due, enabled schedule with a valid seat and non-zero interval and
    next-run time is re-armed to `ts + intervalMs` by the tick step at its own
    index, whether or not the action was executed. -/
theorem tickStep_rearm (actor : Option String) (ts fuel : Nat) (store : Store) (i : Nat)
    (net : Net) (sch : Schedule) (m t : Nat)
    (hget : store.schedules.get? i = some sch)
    (hen : sch.enabled = true) (hint : sch.intervalMs = some m) (hm : m ≠ 0)
    (hnext : sch.nextRunAtMs = some t) (ht : t ≠ 0) (hts : t ≤ ts)
    (hseat : (normalizeSeatId sch.seatId).isSome = true) :
    (((tickStep actor ts fuel store i net).1).schedules.get? i).map
      (fun s2 => s2.nextRunAtMs) = some (some (ts + m)) := by
  have hlen : i < store.schedules.length := get?_some_lt _ _ _ hget
  unfold tickStep
  rw [hget]
  dsimp only
  split
  · next hcond =>
    simp [hen, hint] at hcond
    exact absurd hcond hm
  · split
    · next hcond =>
      rw [hnext] at hcond
      simp only [Option.getD_some] at hcond
      simp at hcond
      rcases hcond with hc | hc
      · exact absurd hc ht
      · omega
    · cases hns : normalizeSeatId sch.seatId with
      | none => rw [hns] at hseat; simp at hseat
      | some seatId =>
        dsimp only
        split
        · dsimp only
          rw [get?_set_self _ _ _ hlen]
          simp [hint]
        · dsimp only
          simp only [executeActionInStore_schedules, maybeReportJob_schedules,
            maybeWorkflowJob_schedules]
          rw [get?_set_self _ _ _ hlen]
          simp [hint]

/-- The tick loop never changes schedule entries below its start index. -/
theorem tickLoop_get_lt (actor : Option String) (ts fuel : Nat) :
    ∀ (remaining idx : Nat) (st : Store × List ActionResult × List Bool × Net) (i : Nat),
    i < idx →
    ((tickLoop actor ts fuel remaining idx st).1).schedules.get? i =
      st.1.schedules.get? i := by
  intro remaining
  induction remaining with
  | zero => intro idx st i h; rfl
  | succ remaining ih =>
    intro idx st i h
    obtain ⟨store, triggered, flags, net⟩ := st
    unfold tickLoop
    dsimp only
    rw [ih (idx + 1) _ i (Nat.lt_succ_of_lt h)]
    dsimp only
    exact tickStep_get_ne _ _ _ _ _ _ _ (Nat.ne_of_lt h)

/-- Within its index window, the tick loop re-arms a due valid schedule. -/
theorem tickLoop_rearm (actor : Option String) (ts fuel : Nat) :
    ∀ (remaining idx : Nat) (st : Store × List ActionResult × List Bool × Net)
      (i : Nat) (sch : Schedule) (m t : Nat),
    idx ≤ i → i < idx + remaining →
    st.1.schedules.get? i = some sch →
    sch.enabled = true → sch.intervalMs = some m → m ≠ 0 →
    sch.nextRunAtMs = some t → t ≠ 0 → t ≤ ts →
    (normalizeSeatId sch.seatId).isSome = true →
    (((tickLoop actor ts fuel remaining idx st).1).schedules.get? i).map
      (fun s2 => s2.nextRunAtMs) = some (some (ts + m)) := by
  intro remaining
  induction remaining with
  | zero =>
    intro idx st i sch m t h1 h2 _ _ _ _ _ _ _ _
    exact absurd h2 (by omega)
  | succ remaining ih =>
    intro idx st i sch m t hle hlt hget hen hint hm hnext ht hts hseat
    obtain ⟨store, triggered, flags, net⟩ := st
    unfold tickLoop
    dsimp only
    by_cases hidx : idx = i
    · subst hidx
      rw [tickLoop_get_lt actor ts fuel remaining (idx + 1) _ idx (Nat.lt_succ_self idx)]
      dsimp only
      exact tickStep_rearm actor ts fuel store idx net sch m t hget hen hint hm hnext
        ht hts hseat
    · have hlt' : idx < i := Nat.lt_of_le_of_ne hle hidx
      refine ih (idx + 1) _ i sch m t hlt' (by omega) ?_ hen hint hm hnext ht hts hseat
      dsimp only
      rw [tickStep_get_ne _ _ _ _ _ _ _ (Ne.symm (Nat.ne_of_lt hlt'))]
      exact hget

/-- Claim C5 as stated: every enabled schedule with an interval that is due
    (`nextRunAtMs ≤ now`) is re-armed to `now + intervalMs` by a tick,
    whether or not its action was executed. -/
def claim5Statement : Prop :=
  ∀ (store : Store) (actor : Option String) (ts fuel : Nat) (oracle : Nat → NetResult)
    (i : Nat) (sch : Schedule) (m t : Nat),
    store.schedules.get? i = some sch →
    sch.enabled = true →
    sch.intervalMs = some m →
    sch.nextRunAtMs = some t →
    t ≤ ts →
    (((tickWorkforceSchedules store actor ts fuel
        { oracle := oracle, calls := 0 }).1).schedules.get? i).map
      (fun s2 => s2.nextRunAtMs) = some (some (ts + m))

def c5sched : Schedule :=
  { id := "sched-ghost", seatId := "ghost", name := "Ghost", triggerType := "interval",
    spec := "interval:60000", enabled := true, intervalMs := some 60000,
    maxConcurrentRuns := 1, nextRunAtMs := some 5, action := "noop" }

def c5store : Store := { initialStore 0 with schedules := [c5sched] }

/-- Counterexample to C5 as stated: a due, enabled schedule whose seat id is
    not in the roster is skipped by `continue` without being re-armed — its
    `nextRunAtMs` stays in the past. -/
theorem claim5_counterexample : ¬ claim5Statement := by
  intro h
  exact absurd
    (h c5store none 10 0 (fun _ => { ok := false }) 0 c5sched 60000 5 rfl rfl rfl rfl
      (by decide))
    (by decide)

/-- Claim C5 (amended): a due, enabled schedule is re-armed to
    `now + intervalMs` by a tick — whether or not its action executed (the
    backpressure skip also re-arms) — provided its seat id resolves against
    the roster and its interval and next-run time are non-zero; a schedule
    with an unknown seat, a zero interval, or `nextRunAtMs = 0` is skipped
    untouched. -/
theorem claim5_amended (store : Store) (actor : Option String) (ts fuel : Nat) (net : Net)
    (i : Nat) (sch : Schedule) (m t : Nat)
    (hget : store.schedules.get? i = some sch)
    (hen : sch.enabled = true) (hint : sch.intervalMs = some m) (hm : m ≠ 0)
    (hnext : sch.nextRunAtMs = some t) (ht : t ≠ 0) (hts : t ≤ ts)
    (hseat : (normalizeSeatId sch.seatId).isSome = true) :
    (((tickWorkforceSchedules store actor ts fuel net).1).schedules.get? i).map
      (fun s2 => s2.nextRunAtMs) = some (some (ts + m)) := by
  unfold tickWorkforceSchedules tickWorkforceSchedulesPre
  dsimp only
  rw [trimStore_schedules]
  dsimp only
  exact tickLoop_rearm actor ts fuel store.schedules.length 0 _ i sch m t (Nat.zero_le i)
    (show i < 0 + store.schedules.length from by
      have := get?_some_lt _ _ _ hget; omega)
    hget hen hint hm hnext ht hts hseat

def c5wsched : Schedule :=
  { id := "sched-qm", seatId := "queue-manager", name := "Queue sweep",
    triggerType := "interval", spec := "interval:60000", enabled := true,
    intervalMs := some 60000, maxConcurrentRuns := 1, nextRunAtMs := some 5,
    action := "queue.sweep" }

def c5wstore : Store := { initialStore 0 with schedules := [c5wsched] }

theorem claim5_witness :
    (((tickWorkforceSchedules c5wstore none 10 0
        { oracle := fun _ => { ok := false }, calls := 0 }).1).schedules.get? 0).map
      (fun s2 => s2.nextRunAtMs) = some (some 60010) :=
  claim5_amended c5wstore none 10 0 _ 0 c5wsched 60000 5 rfl rfl rfl (by decide) rfl
    (by decide) (by decide) (by decide)


/-- A skipped-due step (next run strictly in the future) is a no-op. -/
theorem tickStep_skip (actor : Option String) (ts fuel : Nat) (store : Store) (i : Nat)
    (net : Net) (sch : Schedule) (u : Nat)
    (hget : store.schedules.get? i = some sch)
    (hnext : sch.nextRunAtMs = some u) (hu : ts < u) :
    tickStep actor ts fuel store i net = (store, none, false, net) := by
  unfold tickStep
  rw [hget]
  dsimp only
  split
  · rfl
  · split
    · rfl
    · next hcond =>
      exact absurd (by
        rw [hnext]
        simp only [Option.getD_some]
        simp
        exact Or.inr hu) hcond

/-- If a step reports `ran = true`, it re-armed its own schedule entry. -/
theorem tickStep_ran_true (actor : Option String) (ts fuel : Nat) (store : Store)
    (i : Nat) (net : Net) (sch : Schedule)
    (hget : store.schedules.get? i = some sch)
    (hran : (tickStep actor ts fuel store i net).2.2.1 = true) :
    (((tickStep actor ts fuel store i net).1).schedules.get? i).map
      (fun s2 => s2.nextRunAtMs) = some (some (ts + sch.intervalMs.getD 0)) := by
  have hlen : i < store.schedules.length := get?_some_lt _ _ _ hget
  unfold tickStep at hran ⊢
  rw [hget] at hran ⊢
  dsimp only at hran ⊢
  split at hran
  next hc1 => exact Bool.noConfusion hran
  next hc1 =>
    split at hran
    next hc2 => exact Bool.noConfusion hran
    next hc2 =>
      rw [if_neg hc1, if_neg hc2]
      cases hns : normalizeSeatId sch.seatId with
      | none => rw [hns] at hran; exact Bool.noConfusion hran
      | some seatId =>
        rw [hns] at hran
        dsimp only at hran ⊢
        split at hran
        next hq => exact Bool.noConfusion hran
        next hq =>
          rw [if_neg hq]
          dsimp only
          simp only [executeActionInStore_schedules, maybeReportJob_schedules,
            maybeWorkflowJob_schedules]
          rw [get?_set_self _ _ _ hlen]
          simp

/-- The tick loop only appends to the executed-flags list. -/
theorem tickLoop_flags_prefix (actor : Option String) (ts fuel : Nat) :
    ∀ (remaining idx : Nat) (st : Store × List ActionResult × List Bool × Net),
    ∃ rest, (tickLoop actor ts fuel remaining idx st).2.2.1 = st.2.2.1 ++ rest := by
  intro remaining
  induction remaining with
  | zero => intro idx st; exact ⟨[], by simp [tickLoop]⟩
  | succ remaining ih =>
    intro idx st
    obtain ⟨store, triggered, flags, net⟩ := st
    unfold tickLoop
    dsimp only
    rcases hstep : tickStep actor ts fuel store idx net with ⟨s2, res, ran, net2⟩
    cases res with
    | none =>
      obtain ⟨rest, hrest⟩ := ih (idx + 1) (s2, triggered, flags ++ [ran], net2)
      exact ⟨ran :: rest, by rw [hrest]; simp⟩
    | some r =>
      obtain ⟨rest, hrest⟩ := ih (idx + 1) (s2, triggered ++ [r], flags ++ [ran], net2)
      exact ⟨ran :: rest, by rw [hrest]; simp⟩

/-- Flag entries already recorded are stable under the rest of the loop. -/
theorem tickLoop_flags_get_lt (actor : Option String) (ts fuel : Nat)
    (remaining idx : Nat) (st : Store × List ActionResult × List Bool × Net)
    (n : Nat) (h : n < st.2.2.1.length) :
    ((tickLoop actor ts fuel remaining idx st).2.2.1).get? n = st.2.2.1.get? n := by
  obtain ⟨rest, hrest⟩ := tickLoop_flags_prefix actor ts fuel remaining idx st
  rw [hrest, List.get?_append h]

/-- A schedule whose next-run time is in the strict future is not triggered
    by the loop: its flag is recorded as `false`. -/
theorem tickLoop_flag_skip (actor : Option String) (ts fuel : Nat) :
    ∀ (remaining idx : Nat) (store : Store) (triggered : List ActionResult)
      (flags : List Bool) (net : Net) (i : Nat) (sch : Schedule) (u : Nat),
    idx ≤ i → i < idx + remaining →
    store.schedules.get? i = some sch →
    sch.nextRunAtMs = some u → ts < u →
    ((tickLoop actor ts fuel remaining idx (store, triggered, flags, net)).2.2.1).get?
      (flags.length + (i - idx)) = some false := by
  intro remaining
  induction remaining with
  | zero =>
    intro idx store triggered flags net i sch u h1 h2 _ _ _
    exact absurd h2 (by omega)
  | succ remaining ih =>
    intro idx store triggered flags net i sch u hle hlt hget hnext hu
    unfold tickLoop
    dsimp only
    by_cases hidx : idx = i
    · subst hidx
      rw [tickStep_skip actor ts fuel store idx net sch u hget hnext hu]
      dsimp only
      rw [Nat.sub_self]
      rw [tickLoop_flags_get_lt actor ts fuel remaining (idx + 1)
        (store, triggered, flags ++ [false], net) (flags.length + 0) (by simp)]
      dsimp only
      exact List.get?_concat_length _ _
    · have hlt' : idx < i := Nat.lt_of_le_of_ne hle hidx
      rcases hstep : tickStep actor ts fuel store idx net with ⟨s2, res, ran, net2⟩
      have hget2 : s2.schedules.get? i = store.schedules.get? i := by
        have h3 := tickStep_get_ne actor ts fuel store idx net i
          (Ne.symm (Nat.ne_of_lt hlt'))
        rw [hstep] at h3
        exact h3
      have hpos : flags.length + (i - idx) =
          (flags ++ [ran]).length + (i - (idx + 1)) := by
        simp
        omega
      rw [hpos]
      cases res with
      | none =>
        exact ih (idx + 1) s2 triggered (flags ++ [ran]) net2 i sch u hlt' (by omega)
          (hget2.trans hget) hnext hu
      | some r =>
        exact ih (idx + 1) s2 (triggered ++ [r]) (flags ++ [ran]) net2 i sch u hlt'
          (by omega) (hget2.trans hget) hnext hu

/-- If the loop recorded `true` for a schedule, it re-armed that entry to
    `ts + intervalMs`. -/
theorem tickLoop_ran_rearm (actor : Option String) (ts fuel : Nat) :
    ∀ (remaining idx : Nat) (store : Store) (triggered : List ActionResult)
      (flags : List Bool) (net : Net) (i : Nat) (sch : Schedule),
    idx ≤ i →
    store.schedules.get? i = some sch →
    ((tickLoop actor ts fuel remaining idx (store, triggered, flags, net)).2.2.1).get?
      (flags.length + (i - idx)) = some true →
    ((tickLoop actor ts fuel remaining idx
        (store, triggered, flags, net)).1.schedules.get? i).map
      (fun s2 => s2.nextRunAtMs) = some (some (ts + sch.intervalMs.getD 0)) := by
  intro remaining
  induction remaining with
  | zero =>
    intro idx store triggered flags net i sch hle hget hflag
    rw [show (tickLoop actor ts fuel 0 idx (store, triggered, flags, net)).2.2.1 = flags
      from rfl] at hflag
    rw [List.get?_eq_none.mpr (by omega)] at hflag
    exact Option.noConfusion hflag
  | succ remaining ih =>
    intro idx store triggered flags net i sch hle hget hflag
    unfold tickLoop at hflag ⊢
    dsimp only at hflag ⊢
    rcases hstep : tickStep actor ts fuel store idx net with ⟨s2, res, ran, net2⟩
    rw [hstep] at hflag
    dsimp only at hflag ⊢
    by_cases hidx : idx = i
    · subst hidx
      rw [Nat.sub_self] at hflag
      have hran : ran = true := by
        cases res with
        | none =>
          rw [tickLoop_flags_get_lt actor ts fuel remaining (idx + 1)
            (s2, triggered, flags ++ [ran], net2) (flags.length + 0) (by simp)] at hflag
          dsimp only at hflag
          rw [Nat.add_zero] at hflag
          rw [List.get?_concat_length] at hflag
          exact Option.some.inj hflag
        | some r =>
          rw [tickLoop_flags_get_lt actor ts fuel remaining (idx + 1)
            (s2, triggered ++ [r], flags ++ [ran], net2) (flags.length + 0)
            (by simp)] at hflag
          dsimp only at hflag
          rw [Nat.add_zero] at hflag
          rw [List.get?_concat_length] at hflag
          exact Option.some.inj hflag
      have hr := tickStep_ran_true actor ts fuel store idx net sch hget
        (by rw [hstep]; exact hran)
      rw [hstep] at hr
      cases res with
      | none =>
        rw [tickLoop_get_lt actor ts fuel remaining (idx + 1)
          (s2, triggered, flags ++ [ran], net2) idx (Nat.lt_succ_self idx)]
        exact hr
      | some r =>
        rw [tickLoop_get_lt actor ts fuel remaining (idx + 1)
          (s2, triggered ++ [r], flags ++ [ran], net2) idx (Nat.lt_succ_self idx)]
        exact hr
    · have hlt' : idx < i := Nat.lt_of_le_of_ne hle hidx
      have hget2 : s2.schedules.get? i = some sch := by
        have h3 := tickStep_get_ne actor ts fuel store idx net i
          (Ne.symm (Nat.ne_of_lt hlt'))
        rw [hstep] at h3
        exact h3.trans hget
      have hpos : flags.length + (i - idx) =
          (flags ++ [ran]).length + (i - (idx + 1)) := by
        simp
        omega
      rw [hpos] at hflag
      cases res with
      | none => exact ih (idx + 1) s2 triggered (flags ++ [ran]) net2 i sch hlt' hget2 hflag
      | some r =>
        exact ih (idx + 1) s2 (triggered ++ [r]) (flags ++ [ran]) net2 i sch hlt' hget2 hflag

/-- Claim C6: if a tick triggered the schedule at index `i` and the interval
    exceeds the elapsed time to the next tick, that next tick does not
    trigger it again: the first tick re-armed it to `t1 + intervalMs > t2`,
    so the second tick records `false` for it. -/
theorem claim6_no_retrigger (store : Store) (actor actor2 : Option String)
    (t1 t2 fuel fuel2 : Nat) (net net2 : Net) (i : Nat) (sch : Schedule) (m : Nat)
    (hget : store.schedules.get? i = some sch)
    (hint : sch.intervalMs = some m)
    (helapsed : t2 < t1 + m)
    (hflag : ((tickWorkforceSchedules store actor t1 fuel net).2.2.1).get? i =
      some true) :
    ((tickWorkforceSchedules (tickWorkforceSchedules store actor t1 fuel net).1
        actor2 t2 fuel2 net2).2.2.1).get? i = some false := by
  have hflag1 : ((tickLoop actor t1 fuel store.schedules.length 0
      (store, ([] : List ActionResult), ([] : List Bool), net)).2.2.1).get?
        ((([] : List Bool)).length + (i - 0)) = some true := by
    rw [show (([] : List Bool)).length + (i - 0) = i from by simp]
    exact hflag
  have hrearm := tickLoop_ran_rearm actor t1 fuel store.schedules.length 0 store [] [] net
    i sch (Nat.zero_le i) hget hflag1
  rw [hint] at hrearm
  simp only [Option.getD_some] at hrearm
  have hs1 : (((tickWorkforceSchedules store actor t1 fuel net).1).schedules.get? i).map
      (fun s2 => s2.nextRunAtMs) = some (some (t1 + m)) := hrearm
  cases hget2 : ((tickWorkforceSchedules store actor t1 fuel net).1).schedules.get? i with
  | none => rw [hget2] at hs1; simp at hs1
  | some sch2 =>
    rw [hget2] at hs1
    simp at hs1
    have hskip := tickLoop_flag_skip actor2 t2 fuel2
      ((tickWorkforceSchedules store actor t1 fuel net).1).schedules.length 0
      ((tickWorkforceSchedules store actor t1 fuel net).1) [] [] net2 i sch2 (t1 + m)
      (Nat.zero_le i) (by have := get?_some_lt _ _ _ hget2; omega) hget2 hs1 (by omega)
    rw [show (([] : List Bool)).length + (i - 0) = i from by simp] at hskip
    exact hskip

def c6sched : Schedule :=
  { id := "sched-c6", seatId := "queue-manager", name := "Queue sweep",
    triggerType := "interval", spec := "interval:60000", enabled := true,
    intervalMs := some 60000, maxConcurrentRuns := 1, nextRunAtMs := some 5,
    action := "queue.sweep" }

def c6store : Store := { initialStore 0 with schedules := [c6sched] }

theorem claim6_witness :
    ((tickWorkforceSchedules
        (tickWorkforceSchedules c6store none 10 0
          { oracle := fun _ => { ok := false }, calls := 0 }).1
        none 11 0 { oracle := fun _ => { ok := false }, calls := 0 }).2.2.1).get? 0 =
      some false :=
  claim6_no_retrigger c6store none none 10 11 0 0
    { oracle := fun _ => { ok := false }, calls := 0 }
    { oracle := fun _ => { ok := false }, calls := 0 }
    0 c6sched 60000 rfl rfl (by decide) (by decide)


/-! Claim C4: queue `pending` counters stay non-negative.  The only queue
    mutations are the guarded decrement and the escalation increment. -/

def pendNonneg (l : List Queue) : Prop := ∀ q ∈ l, 0 ≤ q.pending

theorem mem_updateFirst {α : Type} (p : α → Bool) (f : α → α) :
    ∀ (l : List α) (x : α), x ∈ updateFirst p f l → x ∈ l ∨ ∃ y, y ∈ l ∧ x = f y := by
  intro l
  induction l with
  | nil => intro x h; exact absurd h (by simp [updateFirst])
  | cons a rest ih =>
    intro x h
    unfold updateFirst at h
    by_cases hp : p a = true
    · rw [if_pos hp] at h
      rcases List.mem_cons.mp h with he | hm
      · exact Or.inr ⟨a, List.mem_cons_self _ _, he⟩
      · exact Or.inl (List.mem_cons_of_mem _ hm)
    · rw [if_neg hp] at h
      rcases List.mem_cons.mp h with he | hm
      · exact Or.inl (he ▸ List.mem_cons_self _ _)
      · rcases ih x hm with h1 | ⟨y, hy, hxy⟩
        · exact Or.inl (List.mem_cons_of_mem _ h1)
        · exact Or.inr ⟨y, List.mem_cons_of_mem _ hy, hxy⟩

theorem pendNonneg_updateFirst (p : Queue → Bool) (f : Queue → Queue)
    (hf : ∀ q, 0 ≤ q.pending → 0 ≤ (f q).pending) (l : List Queue)
    (h : pendNonneg l) : pendNonneg (updateFirst p f l) := by
  intro x hx
  rcases mem_updateFirst p f l x hx with hm | ⟨y, hy, hxy⟩
  · exact h x hm
  · exact hxy ▸ hf y (h y hy)

theorem fresh_queues (s : Store) : (Store.fresh s).2.queues = s.queues := rfl

theorem setRunBoth_queues (s : Store) (ar : ActionResult) (f : Run → Run) :
    (setRunBoth s ar f).1.queues = s.queues := rfl

theorem appendReplay_queues (s : Store) (runId : Nat) (source : RunSource)
    (eventType : String) (sd pr : Option String) (ts : Nat) :
    (appendReplay s runId source eventType sd pr ts).1.queues = s.queues := rfl

theorem appendReceipt_queues (s : Store) (runId decisionId : Option Nat)
    (actor action outcome : String) (ts : Nat) (artifacts : List String) :
    (appendReceipt s runId decisionId actor action outcome ts artifacts).1.queues =
      s.queues := rfl

theorem createDecisionCard_queues (s : Store) (runId : Nat)
    (seatId title summary : String) (rl : RiskLevel) (ts : Nat) :
    (createDecisionCard s runId seatId title summary rl ts).1.queues = s.queues := rfl

theorem trimStore_queues (s : Store) : (trimStore s).queues = s.queues := rfl

theorem decrementQueuePending_nonneg (s : Store) (seatId : String)
    (h : pendNonneg s.queues) : pendNonneg (decrementQueuePending s seatId).queues := by
  unfold decrementQueuePending
  dsimp only
  refine pendNonneg_updateFirst _ _ ?_ _ h
  intro q hq
  split
  · dsimp only; omega
  · exact hq

theorem executeActionInStore_queues_nonneg (store : Store) (input : ActionInput) (ts : Nat)
    (h : pendNonneg store.queues) :
    pendNonneg (executeActionInStore store input ts).1.queues := by
  unfold executeActionInStore
  dsimp only
  cases (evaluatePolicy input.seatId (jsTrim input.action) input.requireWritebackReceipt
      input.payload store).decision with
  | allow =>
    refine decrementQueuePending_nonneg _ _ ?_
    simp only [fresh_queues, setRunBoth_queues, appendReplay_queues, appendReceipt_queues,
      createDecisionCard_queues]
    exact h
  | block =>
    refine decrementQueuePending_nonneg _ _ ?_
    simp only [fresh_queues, setRunBoth_queues, appendReplay_queues, appendReceipt_queues,
      createDecisionCard_queues]
    exact h
  | escalate =>
    simp only [fresh_queues, setRunBoth_queues, appendReplay_queues, appendReceipt_queues,
      createDecisionCard_queues]
    exact pendNonneg_updateFirst _ _ (fun q hq => by dsimp only; omega) _ h

theorem reportJobNotAllow_queues (store : Store) (ar : ActionResult)
    (presetId : PresetId) (validation : PayloadValidation) (net : Net) :
    (reportJobNotAllow store ar presetId validation net).1.queues = store.queues := rfl

theorem reportJobInvalid_queues (store : Store) (ar : ActionResult) (presetId : PresetId)
    (validation : PayloadValidation) (actor : String) (source : RunSource) (ts : Nat)
    (net : Net) :
    (reportJobInvalid store ar presetId validation actor source ts net).1.queues =
      store.queues := rfl

theorem reportJobFetch_queues (store : Store) (ar : ActionResult) (presetId : PresetId)
    (pagination : PaginationOptions) (validation : PayloadValidation) (actor : String)
    (source : RunSource) (ts : Nat) (net : Net) :
    (reportJobFetch store ar presetId pagination validation actor source ts
        net).1.queues = store.queues := by
  unfold reportJobFetch
  dsimp only
  simp only [setRunBoth_queues, appendReplay_queues, appendReceipt_queues]
  split <;>
    simp only [setRunBoth_queues, appendReplay_queues, appendReceipt_queues]

theorem maybeReportJob_queues (store : Store) (ar : ActionResult) (action : String)
    (payload : Option Payload) (actor : String) (source : RunSource) (ts : Nat)
    (net : Net) :
    (maybeRunAppfolioReportJob store ar action payload actor source ts net).1.queues =
      store.queues := by
  unfold maybeRunAppfolioReportJob
  split
  · rfl
  · dsimp only
    split
    · exact reportJobNotAllow_queues _ _ _ _ _
    · split
      · exact reportJobInvalid_queues _ _ _ _ _ _ _ _
      · exact reportJobFetch_queues _ _ _ _ _ _ _ _ _

theorem workflowStep_queues (store : Store) (ar : ActionResult) (wid : WorkflowId)
    (gf : Option Payload) (fp : String → Option Payload) (ir : Bool) (mr : Nat)
    (actor : String) (source : RunSource) (ts fuel : Nat) (net : Net)
    (presetId : PresetId) (acc : List StepResult × Option SmartBillReviewSummary) :
    (workflowStep store ar wid gf fp ir mr actor source ts fuel net presetId
        acc).1.queues = store.queues := by
  unfold workflowStep
  dsimp only
  repeat' split
  all_goals
    simp only [setRunBoth_queues, appendReplay_queues, appendReceipt_queues]

theorem workflowStepsLoop_queues (wid : WorkflowId) (gf : Option Payload)
    (fp : String → Option Payload) (ir : Bool) (mr : Nat) (actor : String)
    (source : RunSource) (ts fuel : Nat) :
    ∀ (ps : List PresetId) (store : Store) (ar : ActionResult)
      (acc : List StepResult × Option SmartBillReviewSummary) (net : Net),
    (workflowStepsLoop wid gf fp ir mr actor source ts fuel ps
        (store, ar, acc, net)).1.queues = store.queues := by
  intro ps
  induction ps with
  | nil => intro store ar acc net; rfl
  | cons p rest ih =>
    intro store ar acc net
    unfold workflowStepsLoop
    dsimp only
    rw [ih]
    exact workflowStep_queues _ _ _ _ _ _ _ _ _ _ _ _ _ _

theorem maybeWorkflowJob_queues (store : Store) (ar : ActionResult) (action : String)
    (payload : Option Payload) (actor : String) (source : RunSource) (ts fuel : Nat)
    (net : Net) :
    (maybeRunAppfolioWorkflowJob store ar action payload actor source ts fuel
        net).1.queues = store.queues := by
  unfold maybeRunAppfolioWorkflowJob
  split
  · rfl
  · dsimp only
    split
    · rfl
    · dsimp only
      repeat' split
      all_goals
        simp only [setRunBoth_queues, appendReplay_queues, appendReceipt_queues,
          createDecisionCard_queues, workflowStepsLoop_queues]

theorem executeWorkforceActionPre_queues (store : Store) (input : ActionInput)
    (ts fuel : Nat) (net : Net) (s : Store) (r : ActionResult) (n : Net)
    (hok : executeWorkforceActionPre store input ts fuel net = .ok (s, r, n))
    (h : pendNonneg store.queues) : pendNonneg s.queues := by
  unfold executeWorkforceActionPre sanitizeStore at hok
  dsimp only at hok
  cases hns : normalizeSeatId input.seatId with
  | none => rw [hns] at hok; exact Except.noConfusion hok
  | some seatId =>
    rw [hns] at hok
    dsimp only at hok
    split at hok
    · exact Except.noConfusion hok
    · simp only [Except.ok.injEq, Prod.mk.injEq] at hok
      obtain ⟨hs, -, -⟩ := hok
      subst hs
      dsimp only
      simp only [maybeWorkflowJob_queues, maybeReportJob_queues]
      exact executeActionInStore_queues_nonneg _ _ _ h

theorem resolveWorkforceDecisionPre_queues (store : Store) (id : Nat) (res : Resolution)
    (actor : Option String) (ts : Nat) (s : Store) (d : DecisionCard) (b : Bool)
    (hok : resolveWorkforceDecisionPre store id res actor ts = .ok (s, d, b))
    (h : pendNonneg store.queues) : pendNonneg s.queues := by
  unfold resolveWorkforceDecisionPre sanitizeStore at hok
  dsimp only at hok
  cases hf : store.decisions.find? (fun e => e.decisionId == id) with
  | none => rw [hf] at hok; exact Except.noConfusion hok
  | some decision =>
    rw [hf] at hok
    dsimp only at hok
    split at hok
    · simp only [Except.ok.injEq, Prod.mk.injEq] at hok
      obtain ⟨hs, -, -⟩ := hok
      subst hs
      exact h
    · simp only [Except.ok.injEq, Prod.mk.injEq] at hok
      obtain ⟨hs, -, -⟩ := hok
      subst hs
      dsimp only
      refine decrementQueuePending_nonneg _ _ ?_
      simp only [appendReceipt_queues]
      split
      · simp only [appendReplay_queues]
        exact h
      · exact h

theorem replayWorkforceRunPre_queues (store : Store) (rid : Nat)
    (actor : Option String) (ts : Nat) (s : Store) (r : ActionResult)
    (hok : replayWorkforceRunPre store rid actor ts = .ok (s, r))
    (h : pendNonneg store.queues) : pendNonneg s.queues := by
  unfold replayWorkforceRunPre sanitizeStore at hok
  dsimp only at hok
  cases hf : store.runs.find? (fun r2 => r2.runId == rid) with
  | none => rw [hf] at hok; exact Except.noConfusion hok
  | some sourceRun =>
    rw [hf] at hok
    dsimp only at hok
    simp only [Except.ok.injEq, Prod.mk.injEq] at hok
    obtain ⟨hs, -⟩ := hok
    subst hs
    dsimp only
    simp only [appendReplay_queues]
    exact executeActionInStore_queues_nonneg _ _ _ h

theorem recordWritebackPre_queues (store : Store) (actor note artifact : Option String)
    (ts : Nat) :
    (recordAppfolioWritebackReceiptPre store actor note artifact ts).1.queues =
      store.queues := rfl

theorem addSchedulePre_queues (store : Store) (seatIdRaw name : String)
    (intervalMsRaw : Int) (action : String) (ts : Nat) (s : Store) (sch : Schedule)
    (hok : addWorkforceSchedulePre store seatIdRaw name intervalMsRaw action ts =
      .ok (s, sch)) :
    s.queues = store.queues := by
  unfold addWorkforceSchedulePre sanitizeStore at hok
  dsimp only at hok
  cases hns : normalizeSeatId seatIdRaw with
  | none => rw [hns] at hok; exact Except.noConfusion hok
  | some seatId =>
    rw [hns] at hok
    dsimp only at hok
    simp only [Except.ok.injEq, Prod.mk.injEq] at hok
    obtain ⟨hs, -⟩ := hok
    subst hs
    rfl

theorem createDefaultStore_queues_nonneg (ts : Nat) :
    pendNonneg (createDefaultStore ts).queues := by
  intro q hq
  dsimp only [createDefaultStore] at hq
  rcases List.mem_map.mp hq with ⟨seat, -, rfl⟩
  exact le_refl 0

theorem ensureStore_some_queues_nonneg (store : Store) (force : Bool) (ts : Nat)
    (h : pendNonneg store.queues) :
    pendNonneg (ensureStore (some store) force ts).queues := by
  unfold ensureStore sanitizeStore
  dsimp only
  split
  · exact createDefaultStore_queues_nonneg ts
  · exact h

theorem tickStep_queues_nonneg (actor : Option String) (ts fuel : Nat) (store : Store)
    (idx : Nat) (net : Net) (h : pendNonneg store.queues) :
    pendNonneg (tickStep actor ts fuel store idx net).1.queues := by
  unfold tickStep
  cases hget : store.schedules.get? idx with
  | none => exact h
  | some sch =>
    dsimp only
    split
    · exact h
    · split
      · exact h
      · cases hns : normalizeSeatId sch.seatId with
        | none => exact h
        | some seatId =>
          dsimp only
          split
          · exact h
          · dsimp only
            simp only [maybeWorkflowJob_queues, maybeReportJob_queues]
            exact executeActionInStore_queues_nonneg _ _ _ h

theorem tickLoop_queues_nonneg (actor : Option String) (ts fuel : Nat) :
    ∀ (remaining idx : Nat) (store : Store) (triggered : List ActionResult)
      (flags : List Bool) (net : Net),
    pendNonneg store.queues →
    pendNonneg (tickLoop actor ts fuel remaining idx
      (store, triggered, flags, net)).1.queues := by
  intro remaining
  induction remaining with
  | zero => intro idx store triggered flags net h; exact h
  | succ remaining ih =>
    intro idx store triggered flags net h
    unfold tickLoop
    dsimp only
    rcases hstep : tickStep actor ts fuel store idx net with ⟨s2, res, ran, net2⟩
    have h2 : pendNonneg s2.queues := by
      have h3 := tickStep_queues_nonneg actor ts fuel store idx net h
      rw [hstep] at h3
      exact h3
    cases res with
    | none => exact ih (idx + 1) s2 triggered (flags ++ [ran]) net2 h2
    | some r2 => exact ih (idx + 1) s2 (triggered ++ [r2]) (flags ++ [ran]) net2 h2

/-- One operation preserves non-negative queue counters. -/
theorem applyOp_queues_nonneg (store : Store) (op : Op)
    (h : pendNonneg store.queues) : pendNonneg (applyOp store op).queues := by
  cases op with
  | exec input oracle fuel ts =>
    dsimp only [applyOp]
    unfold executeWorkforceAction
    cases hpre : executeWorkforceActionPre store input ts fuel
        { oracle := oracle, calls := 0 } with
    | error e => exact h
    | ok p =>
      obtain ⟨s1, r1, n1⟩ := p
      dsimp only
      rw [trimStore_queues]
      exact executeWorkforceActionPre_queues _ _ _ _ _ _ _ _ hpre h
  | resolve id res actor ts =>
    dsimp only [applyOp]
    unfold resolveWorkforceDecision
    cases hpre : resolveWorkforceDecisionPre store id res actor ts with
    | error e => exact h
    | ok p =>
      obtain ⟨s1, d1, b1⟩ := p
      cases b1 with
      | true =>
        dsimp only
        rw [trimStore_queues]
        exact resolveWorkforceDecisionPre_queues _ _ _ _ _ _ _ _ hpre h
      | false =>
        dsimp only
        exact resolveWorkforceDecisionPre_queues _ _ _ _ _ _ _ _ hpre h
  | replay rid actor ts =>
    dsimp only [applyOp]
    unfold replayWorkforceRun
    cases hpre : replayWorkforceRunPre store rid actor ts with
    | error e => exact h
    | ok p =>
      obtain ⟨s1, r1⟩ := p
      dsimp only
      rw [trimStore_queues]
      exact replayWorkforceRunPre_queues _ _ _ _ _ _ hpre h
  | tick actor oracle fuel ts =>
    dsimp only [applyOp]
    unfold tickWorkforceSchedules tickWorkforceSchedulesPre sanitizeStore
    dsimp only
    rw [trimStore_queues]
    dsimp only
    exact tickLoop_queues_nonneg actor ts fuel store.schedules.length 0 store [] []
      { oracle := oracle, calls := 0 } h
  | scheduleAdd seatId name intervalMs action ts =>
    dsimp only [applyOp]
    unfold addWorkforceSchedule
    cases hpre : addWorkforceSchedulePre store seatId name intervalMs action ts with
    | error e => exact h
    | ok p =>
      obtain ⟨s1, sch1⟩ := p
      dsimp only
      rw [trimStore_queues]
      rw [addSchedulePre_queues _ _ _ _ _ _ _ _ hpre]
      exact h
  | writeback actor note artifact ts =>
    dsimp only [applyOp]
    unfold recordAppfolioWritebackReceipt
    dsimp only
    rw [trimStore_queues, recordWritebackPre_queues]
    exact h
  | ensure force ts =>
    dsimp only [applyOp]
    exact ensureStore_some_queues_nonneg store force ts h

/-- Claim C4: after any sequence of operations starting from the initial
    store, every queue has a non-negative pending counter: the decrement is
    guarded by `pending > 0` and the only increment is the escalation. -/
theorem claim4_pending_nonneg (ts0 : Nat) (ops : List Op) :
    ∀ q ∈ (applyOps (initialStore ts0) ops).queues, 0 ≤ q.pending := by
  have hgen : ∀ (l : List Op) (s : Store), pendNonneg s.queues →
      pendNonneg (l.foldl applyOp s).queues := by
    intro l
    induction l with
    | nil => intro s h; exact h
    | cons op rest ih => intro s h; exact ih _ (applyOp_queues_nonneg s op h)
  exact hgen ops (initialStore ts0) (createDefaultStore_queues_nonneg ts0)

def c4q : Queue :=
  { id := "queue:ops-lead", seatId := "ops-lead", name := "Ops Lead Queue",
    priority := QueuePriority.normal, concurrency := 1,
    backpressurePolicy := BackpressurePolicy.block, slaMinutes := 60, pending := 0 }

theorem claim4_witness : 0 ≤ c4q.pending :=
  claim4_pending_nonneg 0 [Op.writeback none none none 1] c4q (by decide)


/-! Claim C2: receipts for runs.  Every run-creating path appends a receipt
    with the run id; jobs and resolves only update runs in place (keeping
    `runId`) and append further receipts. -/

/-- Every run in `s` has at least one receipt with its id. -/
def runsHaveReceipts (s : Store) : Prop :=
  ∀ r ∈ s.runs, ∃ rc ∈ s.receipts, rc.runId = some r.runId

/-- Run ids of `l2` all occur among run ids of `l1`. -/
def RIP (l1 l2 : List Run) : Prop := ∀ r ∈ l2, ∃ r0 ∈ l1, r.runId = r0.runId

/-- `l1` is contained in `l2`. -/
def RM {α : Type} (l1 l2 : List α) : Prop := ∀ x ∈ l1, x ∈ l2

theorem RIP_refl (l : List Run) : RIP l l := fun r hr => ⟨r, hr, rfl⟩

theorem RIP_updateFirst (p : Run → Bool) (f : Run → Run)
    (hf : ∀ r, (f r).runId = r.runId) {l l2 : List Run} (h : RIP l l2) :
    RIP l (updateFirst p f l2) := by
  intro r hr
  rcases mem_updateFirst p f l2 r hr with hm | ⟨y, hy, rfl⟩
  · exact h r hm
  · rcases h y hy with ⟨r0, hr0, he⟩
    exact ⟨r0, hr0, (hf y).trans he⟩

theorem RM_refl {α : Type} (l : List α) : RM l l := fun x hx => hx

theorem RM_append_right {α : Type} {l1 l2 : List α} (l3 : List α) (h : RM l1 l2) :
    RM l1 (l2 ++ l3) := fun x hx => List.mem_append_left _ (h x hx)

theorem RIP_trans {l1 l2 l3 : List Run} (h1 : RIP l1 l2) (h2 : RIP l2 l3) :
    RIP l1 l3 := by
  intro r hr
  rcases h2 r hr with ⟨r0, hr0, he⟩
  rcases h1 r0 hr0 with ⟨r1, hr1, he1⟩
  exact ⟨r1, hr1, he.trans he1⟩

theorem RM_trans {α : Type} {l1 l2 l3 : List α} (h1 : RM l1 l2) (h2 : RM l2 l3) :
    RM l1 l3 := fun x hx => h2 x (h1 x hx)

theorem runsHaveReceipts_of (s s2 : Store) (h : runsHaveReceipts s)
    (h1 : RIP s.runs s2.runs) (h2 : RM s.receipts s2.receipts) :
    runsHaveReceipts s2 := by
  intro r hr
  rcases h1 r hr with ⟨r0, hr0, he⟩
  rcases h r0 hr0 with ⟨rc, hrc, he2⟩
  exact ⟨rc, h2 rc hrc, by rw [he2, he]⟩

theorem fresh_runs (s : Store) : (Store.fresh s).2.runs = s.runs := rfl

theorem fresh_receipts (s : Store) : (Store.fresh s).2.receipts = s.receipts := rfl

theorem setRunBoth_runs_eq (s : Store) (ar : ActionResult) (f : Run → Run) :
    (setRunBoth s ar f).1.runs =
      updateFirst (fun r => r.runId == ar.run.runId) f s.runs := rfl

theorem setRunBoth_receipts (s : Store) (ar : ActionResult) (f : Run → Run) :
    (setRunBoth s ar f).1.receipts = s.receipts := rfl

theorem appendReplay_runs (s : Store) (runId : Nat) (source : RunSource)
    (eventType : String) (sd pr : Option String) (ts : Nat) :
    (appendReplay s runId source eventType sd pr ts).1.runs = s.runs := rfl

theorem appendReplay_receipts (s : Store) (runId : Nat) (source : RunSource)
    (eventType : String) (sd pr : Option String) (ts : Nat) :
    (appendReplay s runId source eventType sd pr ts).1.receipts = s.receipts := rfl

theorem appendReceipt_runs (s : Store) (runId decisionId : Option Nat)
    (actor action outcome : String) (ts : Nat) (artifacts : List String) :
    (appendReceipt s runId decisionId actor action outcome ts artifacts).1.runs =
      s.runs := rfl

theorem appendReceipt_receipts_eq (s : Store) (runId decisionId : Option Nat)
    (actor action outcome : String) (ts : Nat) (artifacts : List String) :
    (appendReceipt s runId decisionId actor action outcome ts artifacts).1.receipts =
      s.receipts ++
        [(appendReceipt s runId decisionId actor action outcome ts artifacts).2] := rfl

theorem appendReceipt_snd_runId (s : Store) (runId decisionId : Option Nat)
    (actor action outcome : String) (ts : Nat) (artifacts : List String) :
    (appendReceipt s runId decisionId actor action outcome ts artifacts).2.runId =
      runId := rfl

theorem createDecisionCard_runs (s : Store) (runId : Nat)
    (seatId title summary : String) (rl : RiskLevel) (ts : Nat) :
    (createDecisionCard s runId seatId title summary rl ts).1.runs = s.runs := rfl

theorem createDecisionCard_receipts (s : Store) (runId : Nat)
    (seatId title summary : String) (rl : RiskLevel) (ts : Nat) :
    (createDecisionCard s runId seatId title summary rl ts).1.receipts = s.receipts := rfl

theorem decrementQueuePending_runs (s : Store) (seatId : String) :
    (decrementQueuePending s seatId).runs = s.runs := rfl

theorem decrementQueuePending_receipts (s : Store) (seatId : String) :
    (decrementQueuePending s seatId).receipts = s.receipts := rfl

theorem reportJobNotAllow_RIP (store : Store) (ar : ActionResult) (presetId : PresetId)
    (validation : PayloadValidation) (net : Net) :
    RIP store.runs (reportJobNotAllow store ar presetId validation net).1.runs := by
  unfold reportJobNotAllow
  dsimp only
  simp only [setRunBoth_runs_eq]
  apply RIP_updateFirst
  · intro r; rfl
  · exact RIP_refl _

theorem reportJobNotAllow_RM (store : Store) (ar : ActionResult) (presetId : PresetId)
    (validation : PayloadValidation) (net : Net) :
    RM store.receipts (reportJobNotAllow store ar presetId validation net).1.receipts := by
  unfold reportJobNotAllow
  dsimp only
  simp only [setRunBoth_receipts]
  exact RM_refl _

theorem reportJobInvalid_RIP (store : Store) (ar : ActionResult) (presetId : PresetId)
    (validation : PayloadValidation) (actor : String) (source : RunSource) (ts : Nat)
    (net : Net) :
    RIP store.runs (reportJobInvalid store ar presetId validation actor source ts
      net).1.runs := by
  unfold reportJobInvalid
  dsimp only
  simp only [setRunBoth_runs_eq, appendReplay_runs, appendReceipt_runs]
  repeat' (first
    | exact RIP_refl _
    | apply RIP_updateFirst)
  all_goals (intro r; rfl)

theorem reportJobInvalid_RM (store : Store) (ar : ActionResult) (presetId : PresetId)
    (validation : PayloadValidation) (actor : String) (source : RunSource) (ts : Nat)
    (net : Net) :
    RM store.receipts (reportJobInvalid store ar presetId validation actor source ts
      net).1.receipts := by
  unfold reportJobInvalid
  dsimp only
  simp only [setRunBoth_receipts, appendReplay_receipts, appendReceipt_receipts_eq]
  repeat' (first
    | exact RM_refl _
    | refine RM_append_right _ ?_)

theorem reportJobFetch_RIP (store : Store) (ar : ActionResult) (presetId : PresetId)
    (pagination : PaginationOptions) (validation : PayloadValidation) (actor : String)
    (source : RunSource) (ts : Nat) (net : Net) :
    RIP store.runs (reportJobFetch store ar presetId pagination validation actor source
      ts net).1.runs := by
  unfold reportJobFetch
  dsimp only
  simp only [setRunBoth_runs_eq, appendReplay_runs, appendReceipt_runs]
  repeat' split
  all_goals
    simp only [setRunBoth_runs_eq, appendReplay_runs, appendReceipt_runs]
  all_goals
    repeat' (first
      | exact RIP_refl _
      | apply RIP_updateFirst)
  all_goals (intro r; rfl)

theorem reportJobFetch_RM (store : Store) (ar : ActionResult) (presetId : PresetId)
    (pagination : PaginationOptions) (validation : PayloadValidation) (actor : String)
    (source : RunSource) (ts : Nat) (net : Net) :
    RM store.receipts (reportJobFetch store ar presetId pagination validation actor
      source ts net).1.receipts := by
  unfold reportJobFetch
  dsimp only
  simp only [setRunBoth_receipts, appendReplay_receipts, appendReceipt_receipts_eq]
  repeat' split
  all_goals
    simp only [setRunBoth_receipts, appendReplay_receipts, appendReceipt_receipts_eq]
  all_goals
    repeat' (first
      | exact RM_refl _
      | refine RM_append_right _ ?_)

theorem maybeReportJob_RIP (store : Store) (ar : ActionResult) (action : String)
    (payload : Option Payload) (actor : String) (source : RunSource) (ts : Nat)
    (net : Net) :
    RIP store.runs (maybeRunAppfolioReportJob store ar action payload actor source ts
      net).1.runs := by
  unfold maybeRunAppfolioReportJob
  split
  · exact RIP_refl _
  · dsimp only
    split
    · exact reportJobNotAllow_RIP _ _ _ _ _
    · split
      · exact reportJobInvalid_RIP _ _ _ _ _ _ _ _
      · exact reportJobFetch_RIP _ _ _ _ _ _ _ _ _

theorem maybeReportJob_RM (store : Store) (ar : ActionResult) (action : String)
    (payload : Option Payload) (actor : String) (source : RunSource) (ts : Nat)
    (net : Net) :
    RM store.receipts (maybeRunAppfolioReportJob store ar action payload actor source ts
      net).1.receipts := by
  unfold maybeRunAppfolioReportJob
  split
  · exact RM_refl _
  · dsimp only
    split
    · exact reportJobNotAllow_RM _ _ _ _ _
    · split
      · exact reportJobInvalid_RM _ _ _ _ _ _ _ _
      · exact reportJobFetch_RM _ _ _ _ _ _ _ _ _

theorem workflowStep_RIP (store : Store) (ar : ActionResult) (wid : WorkflowId)
    (gf : Option Payload) (fp : String → Option Payload) (ir : Bool) (mr : Nat)
    (actor : String) (source : RunSource) (ts fuel : Nat) (net : Net)
    (presetId : PresetId) (acc : List StepResult × Option SmartBillReviewSummary) :
    RIP store.runs (workflowStep store ar wid gf fp ir mr actor source ts fuel net
      presetId acc).1.runs := by
  unfold workflowStep
  dsimp only
  repeat' split
  all_goals
    simp only [setRunBoth_runs_eq, appendReplay_runs, appendReceipt_runs]
  all_goals
    repeat' (first
      | exact RIP_refl _
      | apply RIP_updateFirst)
  all_goals (intro r; rfl)

theorem workflowStep_RM (store : Store) (ar : ActionResult) (wid : WorkflowId)
    (gf : Option Payload) (fp : String → Option Payload) (ir : Bool) (mr : Nat)
    (actor : String) (source : RunSource) (ts fuel : Nat) (net : Net)
    (presetId : PresetId) (acc : List StepResult × Option SmartBillReviewSummary) :
    RM store.receipts (workflowStep store ar wid gf fp ir mr actor source ts fuel net
      presetId acc).1.receipts := by
  unfold workflowStep
  dsimp only
  repeat' split
  all_goals
    simp only [setRunBoth_receipts, appendReplay_receipts, appendReceipt_receipts_eq]
  all_goals
    repeat' (first
      | exact RM_refl _
      | refine RM_append_right _ ?_)

theorem workflowStepsLoop_RIP (wid : WorkflowId) (gf : Option Payload)
    (fp : String → Option Payload) (ir : Bool) (mr : Nat) (actor : String)
    (source : RunSource) (ts fuel : Nat) :
    ∀ (ps : List PresetId) (store : Store) (ar : ActionResult)
      (acc : List StepResult × Option SmartBillReviewSummary) (net : Net),
    RIP store.runs (workflowStepsLoop wid gf fp ir mr actor source ts fuel ps
      (store, ar, acc, net)).1.runs := by
  intro ps
  induction ps with
  | nil => intro store ar acc net; exact RIP_refl _
  | cons p rest ih =>
    intro store ar acc net
    unfold workflowStepsLoop
    dsimp only
    exact RIP_trans (workflowStep_RIP _ _ _ _ _ _ _ _ _ _ _ _ _ _) (ih _ _ _ _)

theorem workflowStepsLoop_RM (wid : WorkflowId) (gf : Option Payload)
    (fp : String → Option Payload) (ir : Bool) (mr : Nat) (actor : String)
    (source : RunSource) (ts fuel : Nat) :
    ∀ (ps : List PresetId) (store : Store) (ar : ActionResult)
      (acc : List StepResult × Option SmartBillReviewSummary) (net : Net),
    RM store.receipts (workflowStepsLoop wid gf fp ir mr actor source ts fuel ps
      (store, ar, acc, net)).1.receipts := by
  intro ps
  induction ps with
  | nil => intro store ar acc net; exact RM_refl _
  | cons p rest ih =>
    intro store ar acc net
    unfold workflowStepsLoop
    dsimp only
    exact RM_trans (workflowStep_RM _ _ _ _ _ _ _ _ _ _ _ _ _ _) (ih _ _ _ _)

theorem maybeWorkflowJob_RIP (store : Store) (ar : ActionResult) (action : String)
    (payload : Option Payload) (actor : String) (source : RunSource) (ts fuel : Nat)
    (net : Net) :
    RIP store.runs (maybeRunAppfolioWorkflowJob store ar action payload actor source ts
      fuel net).1.runs := by
  unfold maybeRunAppfolioWorkflowJob
  split
  · exact RIP_refl _
  · dsimp only
    split
    · simp only [setRunBoth_runs_eq]
      repeat' (first
        | exact RIP_refl _
        | apply RIP_updateFirst)
      all_goals (intro r; rfl)
    · dsimp only
      repeat' split
      all_goals
        simp only [setRunBoth_runs_eq, appendReplay_runs, createDecisionCard_runs]
      all_goals
        repeat' apply RIP_updateFirst
      all_goals try (intro r; rfl)
      all_goals
        refine RIP_trans ?_ (workflowStepsLoop_RIP _ _ _ _ _ _ _ _ _ _ _ _ _ _)
      all_goals
        simp only [setRunBoth_runs_eq]
      all_goals
        repeat' (first
          | exact RIP_refl _
          | apply RIP_updateFirst)
      all_goals (intro r; rfl)

theorem maybeWorkflowJob_RM (store : Store) (ar : ActionResult) (action : String)
    (payload : Option Payload) (actor : String) (source : RunSource) (ts fuel : Nat)
    (net : Net) :
    RM store.receipts (maybeRunAppfolioWorkflowJob store ar action payload actor source
      ts fuel net).1.receipts := by
  unfold maybeRunAppfolioWorkflowJob
  split
  · exact RM_refl _
  · dsimp only
    split
    · simp only [setRunBoth_receipts]
      exact RM_refl _
    · dsimp only
      repeat' split
      all_goals
        simp only [setRunBoth_receipts, appendReplay_receipts, createDecisionCard_receipts]
      all_goals
        refine RM_trans ?_ (workflowStepsLoop_RM _ _ _ _ _ _ _ _ _ _ _ _ _ _)
      all_goals
        simp only [setRunBoth_receipts]
      all_goals
        exact RM_refl _


theorem executeActionInStore_RH (store : Store) (input : ActionInput) (ts : Nat)
    (h : runsHaveReceipts store) :
    runsHaveReceipts (executeActionInStore store input ts).1 := by
  unfold executeActionInStore
  dsimp only
  cases (evaluatePolicy input.seatId (jsTrim input.action) input.requireWritebackReceipt
      input.payload store).decision with
  | allow =>
    intro r hr
    simp only [fresh_runs, appendReplay_runs, appendReceipt_runs,
      decrementQueuePending_runs] at hr
    simp only [fresh_receipts, appendReplay_receipts, appendReceipt_receipts_eq,
      decrementQueuePending_receipts]
    rcases List.mem_append.mp hr with h0 | h1
    · rcases h r h0 with ⟨rc, hrc, he⟩
      exact ⟨rc, List.mem_append_left _ hrc, he⟩
    · obtain rfl := List.mem_singleton.mp h1
      exact ⟨_, List.mem_append_right _ (List.mem_singleton_self _), rfl⟩
  | block =>
    intro r hr
    simp only [fresh_runs, appendReplay_runs, appendReceipt_runs,
      decrementQueuePending_runs] at hr
    simp only [fresh_receipts, appendReplay_receipts, appendReceipt_receipts_eq,
      decrementQueuePending_receipts]
    rcases List.mem_append.mp hr with h0 | h1
    · rcases h r h0 with ⟨rc, hrc, he⟩
      exact ⟨rc, List.mem_append_left _ hrc, he⟩
    · obtain rfl := List.mem_singleton.mp h1
      exact ⟨_, List.mem_append_right _ (List.mem_singleton_self _), rfl⟩
  | escalate =>
    intro r hr
    simp only [fresh_runs, appendReplay_runs, appendReceipt_runs,
      createDecisionCard_runs] at hr
    simp only [fresh_receipts, appendReplay_receipts, appendReceipt_receipts_eq,
      createDecisionCard_receipts]
    rcases mem_updateFirst _ _ _ _ hr with hm | ⟨y, hy, rfl⟩
    · rcases List.mem_append.mp hm with h0 | h1
      · rcases h r h0 with ⟨rc, hrc, he⟩
        exact ⟨rc, List.mem_append_left _ hrc, he⟩
      · obtain rfl := List.mem_singleton.mp h1
        exact ⟨_, List.mem_append_right _ (List.mem_singleton_self _), rfl⟩
    · exact ⟨_, List.mem_append_right _ (List.mem_singleton_self _), rfl⟩

theorem executeWorkforceActionPre_RH (store : Store) (input : ActionInput)
    (ts fuel : Nat) (net : Net) (s : Store) (r : ActionResult) (n : Net)
    (hok : executeWorkforceActionPre store input ts fuel net = .ok (s, r, n))
    (h : runsHaveReceipts store) : runsHaveReceipts s := by
  unfold executeWorkforceActionPre sanitizeStore at hok
  dsimp only at hok
  cases hns : normalizeSeatId input.seatId with
  | none => rw [hns] at hok; exact Except.noConfusion hok
  | some seatId =>
    rw [hns] at hok
    dsimp only at hok
    split at hok
    · exact Except.noConfusion hok
    · simp only [Except.ok.injEq, Prod.mk.injEq] at hok
      obtain ⟨hs, -, -⟩ := hok
      subst hs
      refine runsHaveReceipts_of
        ((executeActionInStore store { input with seatId := seatId } ts).1) _
        (executeActionInStore_RH _ _ _ h) ?_ ?_
      · exact RIP_trans (maybeReportJob_RIP _ _ _ _ _ _ _ _)
          (maybeWorkflowJob_RIP _ _ _ _ _ _ _ _ _)
      · exact RM_trans (maybeReportJob_RM _ _ _ _ _ _ _ _)
          (maybeWorkflowJob_RM _ _ _ _ _ _ _ _ _)

theorem resolveWorkforceDecisionPre_RH (store : Store) (id : Nat) (res : Resolution)
    (actor : Option String) (ts : Nat) (s : Store) (d : DecisionCard) (b : Bool)
    (hok : resolveWorkforceDecisionPre store id res actor ts = .ok (s, d, b))
    (h : runsHaveReceipts store) : runsHaveReceipts s := by
  unfold resolveWorkforceDecisionPre sanitizeStore at hok
  dsimp only at hok
  cases hf : store.decisions.find? (fun e => e.decisionId == id) with
  | none => rw [hf] at hok; exact Except.noConfusion hok
  | some decision =>
    rw [hf] at hok
    dsimp only at hok
    split at hok
    · simp only [Except.ok.injEq, Prod.mk.injEq] at hok
      obtain ⟨hs, -, -⟩ := hok
      subst hs
      exact h
    · simp only [Except.ok.injEq, Prod.mk.injEq] at hok
      obtain ⟨hs, -, -⟩ := hok
      subst hs
      intro r hr
      simp only [decrementQueuePending_runs, appendReceipt_runs] at hr
      simp only [decrementQueuePending_receipts, appendReceipt_receipts_eq]
      split at hr
      next blockedRun heq =>
        simp only [appendReplay_receipts, appendReplay_runs] at hr ⊢
        rcases mem_updateFirst _ _ _ _ hr with hm | ⟨y, hy, rfl⟩
        · rcases h r hm with ⟨rc, hrc, he⟩
          exact ⟨rc, List.mem_append_left _ hrc, he⟩
        · have hmem : blockedRun ∈ store.runs := by
            rcases Option.bind_eq_some.mp heq with ⟨rid, -, hfind⟩
            exact List.mem_of_find?_eq_some hfind
          rcases h blockedRun hmem with ⟨rc, hrc, he⟩
          exact ⟨rc, List.mem_append_left _ hrc, he⟩
      next heq =>
        rcases h r hr with ⟨rc, hrc, he⟩
        exact ⟨rc, List.mem_append_left _ hrc, he⟩


theorem replayWorkforceRunPre_RH (store : Store) (rid : Nat) (actor : Option String)
    (ts : Nat) (s : Store) (r : ActionResult)
    (hok : replayWorkforceRunPre store rid actor ts = .ok (s, r))
    (h : runsHaveReceipts store) : runsHaveReceipts s := by
  unfold replayWorkforceRunPre sanitizeStore at hok
  dsimp only at hok
  cases hf : store.runs.find? (fun r2 => r2.runId == rid) with
  | none => rw [hf] at hok; exact Except.noConfusion hok
  | some sourceRun =>
    rw [hf] at hok
    dsimp only at hok
    simp only [Except.ok.injEq, Prod.mk.injEq] at hok
    obtain ⟨hs, -⟩ := hok
    subst hs
    refine runsHaveReceipts_of
      ((executeActionInStore store
        { seatId := sourceRun.seatId, action := sourceRun.action,
          source := some RunSource.workforce,
          actor := some (actor.getD "replay") } ts).1) _
      (executeActionInStore_RH _ _ _ h) ?_ ?_
    · exact RIP_refl _
    · exact RM_refl _

theorem recordWritebackPre_RH (store : Store) (actor note artifact : Option String)
    (ts : Nat) (h : runsHaveReceipts store) :
    runsHaveReceipts (recordAppfolioWritebackReceiptPre store actor note artifact
      ts).1 := by
  refine runsHaveReceipts_of store _ h ?_ ?_
  · exact RIP_refl _
  · intro rc hrc
    exact List.mem_append_left _ hrc

theorem addSchedulePre_RH (store : Store) (seatIdRaw name : String) (intervalMsRaw : Int)
    (action : String) (ts : Nat) (s : Store) (sch : Schedule)
    (hok : addWorkforceSchedulePre store seatIdRaw name intervalMsRaw action ts =
      .ok (s, sch))
    (h : runsHaveReceipts store) : runsHaveReceipts s := by
  unfold addWorkforceSchedulePre sanitizeStore at hok
  dsimp only at hok
  cases hns : normalizeSeatId seatIdRaw with
  | none => rw [hns] at hok; exact Except.noConfusion hok
  | some seatId =>
    rw [hns] at hok
    dsimp only at hok
    simp only [Except.ok.injEq, Prod.mk.injEq] at hok
    obtain ⟨hs, -⟩ := hok
    subst hs
    exact h

theorem createDefaultStore_RH (ts : Nat) : runsHaveReceipts (createDefaultStore ts) := by
  intro r hr
  exact absurd hr (List.not_mem_nil r)

theorem ensureStore_some_RH (store : Store) (force : Bool) (ts : Nat)
    (h : runsHaveReceipts store) :
    runsHaveReceipts (ensureStore (some store) force ts) := by
  unfold ensureStore sanitizeStore
  dsimp only
  split
  · intro r hr
    exact absurd hr (List.not_mem_nil r)
  · exact h

theorem tickStep_RH (actor : Option String) (ts fuel : Nat) (store : Store)
    (idx : Nat) (net : Net) (h : runsHaveReceipts store) :
    runsHaveReceipts (tickStep actor ts fuel store idx net).1 := by
  unfold tickStep
  cases hget : store.schedules.get? idx with
  | none => exact h
  | some sch =>
    dsimp only
    split
    · exact h
    · split
      · exact h
      · cases hns : normalizeSeatId sch.seatId with
        | none => exact h
        | some seatId =>
          dsimp only
          split
          · exact h
          · dsimp only
            refine runsHaveReceipts_of
              ((executeActionInStore store
                { seatId := seatId, action := sch.action,
                  source := some RunSource.cron,
                  actor := some (actor.getD "scheduler") } ts).1) _
              (executeActionInStore_RH _ _ _ h) ?_ ?_
            · exact RIP_trans (maybeReportJob_RIP _ _ _ _ _ _ _ _)
                (maybeWorkflowJob_RIP _ _ _ _ _ _ _ _ _)
            · exact RM_trans (maybeReportJob_RM _ _ _ _ _ _ _ _)
                (maybeWorkflowJob_RM _ _ _ _ _ _ _ _ _)

theorem tickLoop_RH (actor : Option String) (ts fuel : Nat) :
    ∀ (remaining idx : Nat) (store : Store) (triggered : List ActionResult)
      (flags : List Bool) (net : Net),
    runsHaveReceipts store →
    runsHaveReceipts (tickLoop actor ts fuel remaining idx
      (store, triggered, flags, net)).1 := by
  intro remaining
  induction remaining with
  | zero => intro idx store triggered flags net h; exact h
  | succ remaining ih =>
    intro idx store triggered flags net h
    unfold tickLoop
    dsimp only
    rcases hstep : tickStep actor ts fuel store idx net with ⟨s2, res, ran, net2⟩
    have h2 : runsHaveReceipts s2 := by
      have h3 := tickStep_RH actor ts fuel store idx net h
      rw [hstep] at h3
      exact h3
    cases res with
    | none => exact ih (idx + 1) s2 triggered (flags ++ [ran]) net2 h2
    | some r2 => exact ih (idx + 1) s2 (triggered ++ [r2]) (flags ++ [ran]) net2 h2

theorem trimStore_eq (s : Store) (h : withinCaps s = true) : trimStore s = s := by
  unfold withinCaps at h
  simp only [Bool.and_eq_true, decide_eq_true_eq] at h
  obtain ⟨⟨⟨h1, h2⟩, h3⟩, h4⟩ := h
  unfold trimStore
  rw [if_neg (by omega), if_neg (by omega), if_neg (by omega), if_neg (by omega)]

/-- One non-trimming operation preserves the run-receipt invariant. -/
theorem applyOp_RH (s : Store) (op : Op) (hnt : opNoTrim s op = true)
    (h : runsHaveReceipts s) : runsHaveReceipts (applyOp s op) := by
  cases op with
  | exec input oracle fuel ts =>
    dsimp only [applyOp]
    unfold executeWorkforceAction
    cases hpre : executeWorkforceActionPre s input ts fuel
        { oracle := oracle, calls := 0 } with
    | error e => exact h
    | ok p =>
      obtain ⟨s1, r1, n1⟩ := p
      dsimp only
      have h1 : applyOpPre s (Op.exec input oracle fuel ts) = some s1 := by
        show (match executeWorkforceActionPre s input ts fuel
              { oracle := oracle, calls := 0 } with
          | Except.ok (so, _, _) => some so
          | Except.error _ => none) = some s1
        rw [hpre]
      have hcaps : withinCaps s1 = true := by
        unfold opNoTrim at hnt
        rw [h1] at hnt
        exact hnt
      rw [trimStore_eq s1 hcaps]
      exact executeWorkforceActionPre_RH _ _ _ _ _ _ _ _ hpre h
  | resolve id res actor ts =>
    dsimp only [applyOp]
    unfold resolveWorkforceDecision
    cases hpre : resolveWorkforceDecisionPre s id res actor ts with
    | error e => exact h
    | ok p =>
      obtain ⟨s1, d1, b1⟩ := p
      cases b1 with
      | true =>
        dsimp only
        have h1 : applyOpPre s (Op.resolve id res actor ts) = some s1 := by
          show (match resolveWorkforceDecisionPre s id res actor ts with
            | Except.ok (so, _, true) => some so
            | _ => none) = some s1
          rw [hpre]
        have hcaps : withinCaps s1 = true := by
          unfold opNoTrim at hnt
          rw [h1] at hnt
          exact hnt
        rw [trimStore_eq s1 hcaps]
        exact resolveWorkforceDecisionPre_RH _ _ _ _ _ _ _ _ hpre h
      | false =>
        dsimp only
        exact resolveWorkforceDecisionPre_RH _ _ _ _ _ _ _ _ hpre h
  | replay rid actor ts =>
    dsimp only [applyOp]
    unfold replayWorkforceRun
    cases hpre : replayWorkforceRunPre s rid actor ts with
    | error e => exact h
    | ok p =>
      obtain ⟨s1, r1⟩ := p
      dsimp only
      have h1 : applyOpPre s (Op.replay rid actor ts) = some s1 := by
        show (match replayWorkforceRunPre s rid actor ts with
          | Except.ok (so, _) => some so
          | Except.error _ => none) = some s1
        rw [hpre]
      have hcaps : withinCaps s1 = true := by
        unfold opNoTrim at hnt
        rw [h1] at hnt
        exact hnt
      rw [trimStore_eq s1 hcaps]
      exact replayWorkforceRunPre_RH _ _ _ _ _ _ hpre h
  | tick actor oracle fuel ts =>
    dsimp only [applyOp]
    unfold tickWorkforceSchedules
    dsimp only
    have hcaps : withinCaps (tickWorkforceSchedulesPre s actor ts fuel
        { oracle := oracle, calls := 0 }).1 = true := by
      have h1 : applyOpPre s (Op.tick actor oracle fuel ts) =
          some (tickWorkforceSchedulesPre s actor ts fuel
            { oracle := oracle, calls := 0 }).1 := rfl
      unfold opNoTrim at hnt
      rw [h1] at hnt
      exact hnt
    rw [trimStore_eq _ hcaps]
    unfold tickWorkforceSchedulesPre sanitizeStore
    dsimp only
    exact tickLoop_RH actor ts fuel s.schedules.length 0 s [] []
      { oracle := oracle, calls := 0 } h
  | scheduleAdd seatId name intervalMs action ts =>
    dsimp only [applyOp]
    unfold addWorkforceSchedule
    cases hpre : addWorkforceSchedulePre s seatId name intervalMs action ts with
    | error e => exact h
    | ok p =>
      obtain ⟨s1, sch1⟩ := p
      dsimp only
      have h1 : applyOpPre s (Op.scheduleAdd seatId name intervalMs action ts) =
          some s1 := by
        show (match addWorkforceSchedulePre s seatId name intervalMs action ts with
          | Except.ok (so, _) => some so
          | Except.error _ => none) = some s1
        rw [hpre]
      have hcaps : withinCaps s1 = true := by
        unfold opNoTrim at hnt
        rw [h1] at hnt
        exact hnt
      rw [trimStore_eq s1 hcaps]
      exact addSchedulePre_RH _ _ _ _ _ _ _ _ hpre h
  | writeback actor note artifact ts =>
    dsimp only [applyOp]
    unfold recordAppfolioWritebackReceipt
    dsimp only
    have hcaps : withinCaps (recordAppfolioWritebackReceiptPre s actor note artifact
        ts).1 = true := by
      have h1 : applyOpPre s (Op.writeback actor note artifact ts) =
          some (recordAppfolioWritebackReceiptPre s actor note artifact ts).1 := rfl
      unfold opNoTrim at hnt
      rw [h1] at hnt
      exact hnt
    rw [trimStore_eq _ hcaps]
    exact recordWritebackPre_RH _ _ _ _ _ h
  | ensure force ts =>
    dsimp only [applyOp]
    exact ensureStore_some_RH s force ts h

/-- Claim C2 as stated: after any operation sequence from the initial store,
    every run has exactly one receipt with its run id. -/
def claim2Statement : Prop :=
  ∀ (ts0 : Nat) (ops : List Op) (r : Run),
    r ∈ (applyOps (initialStore ts0) ops).runs →
    ((applyOps (initialStore ts0) ops).receipts.filter
      (fun rc => rc.runId == some r.runId)).length = 1

def c2op : Op := Op.exec billDetailMissingDatesInput (fun _ => { ok := false }) 0 5

def c2res : Store := applyOps (initialStore 0) [c2op]

/-- Counterexample to C2 as stated: an allowed `bill_detail` report action
    whose validation fails records the policy receipt and then a second,
    error receipt for the same run — two receipts with the run's id. -/
theorem claim2_counterexample : ¬ claim2Statement := by
  intro hcl
  have hrid : (c2res.runs.get? 0).map (fun r => r.runId) = some 0 := by decide
  cases hget : c2res.runs.get? 0 with
  | none => rw [hget] at hrid; simp at hrid
  | some r =>
    rw [hget] at hrid
    simp at hrid
    have hmem : r ∈ c2res.runs := List.get?_mem hget
    have h2 := hcl 0 [c2op] r hmem
    rw [hrid] at h2
    have h3 : (c2res.receipts.filter (fun rc => rc.runId == some 0)).length = 2 := by
      decide
    exact absurd (h2.symm.trans h3) (by decide)

/-- Claim C2 (amended): as long as no history trimming has occurred, every
    run in the store has at least one receipt with its run id.  (Exactly one
    does not hold: report/workflow failure paths add further receipts for the
    same run; and receipt trimming can remove a run's receipts entirely.) -/
theorem claim2_amended (ts0 : Nat) (ops : List Op)
    (hnt : noTrimSeq (initialStore ts0) ops = true) :
    ∀ r ∈ (applyOps (initialStore ts0) ops).runs,
      ∃ rc ∈ (applyOps (initialStore ts0) ops).receipts, rc.runId = some r.runId := by
  have hgen : ∀ (l : List Op) (s : Store), noTrimSeq s l = true → runsHaveReceipts s →
      runsHaveReceipts (l.foldl applyOp s) := by
    intro l
    induction l with
    | nil => intro s _ h; exact h
    | cons op rest ih =>
      intro s hnt2 h
      simp only [noTrimSeq, Bool.and_eq_true] at hnt2
      obtain ⟨h1, h2⟩ := hnt2
      exact ih _ h2 (applyOp_RH s op h1 h)
  exact hgen ops (initialStore ts0) hnt (createDefaultStore_RH ts0)

def c2wop : Op := Op.exec { seatId := "queue-manager", action := "inventory.sync" }
  (fun _ => { ok := false }) 0 0

def c2wrun : Run :=
  { runId := 0, source := RunSource.workforce, seatId := "queue-manager",
    action := "inventory.sync", riskLevel := RiskLevel.low,
    policyProfile := ProfileId.balanced, policyDecision := PolicyDecision.allow,
    status := RunStatus.ok, startedAtMs := 0, endedAtMs := some 0,
    summary := some "autonomy_allow", artifacts := ["seat:queue-manager", "risk:low"] }

theorem claim2_witness :
    ∃ rc ∈ (applyOps (initialStore 0) [c2wop]).receipts,
      rc.runId = some c2wrun.runId :=
  claim2_amended 0 [c2wop] (by decide) c2wrun (by decide)


/-! Claim C3: replay-frame `seq` contiguity.  `appendReplay` is the only
    frame writer; it allocates `seq = counter + 1` and bumps the per-run
    counter, so contiguity from 1 is an invariant of every non-trimming
    operation. -/

theorem alistGet_set_self {κ α : Type} [BEq κ] [LawfulBEq κ] (m : List (κ × α))
    (k : κ) (v : α) : alistGet (alistSet m k v) k = some v := by
  induction m with
  | nil => simp [alistGet, alistSet]
  | cons e rest ih =>
    unfold alistSet
    by_cases he : (e.1 == k) = true
    · rw [if_pos he]
      simp [alistGet]
    · rw [if_neg he]
      show alistGet (e :: alistSet rest k v) k = some v
      unfold alistGet
      rw [List.find?_cons_of_neg _ (by simpa using he)]
      exact ih

theorem alistGet_set_ne {κ α : Type} [BEq κ] [LawfulBEq κ] (m : List (κ × α))
    (k k2 : κ) (v : α) (h : k ≠ k2) :
    alistGet (alistSet m k v) k2 = alistGet m k2 := by
  induction m with
  | nil =>
    unfold alistSet alistGet
    simp only [List.find?]
    rw [show ((k, v).1 == k2) = false from by simpa using h]
  | cons e rest ih =>
    unfold alistSet
    by_cases he : (e.1 == k) = true
    · rw [if_pos he]
      have hek : e.1 = k := by simpa using he
      unfold alistGet
      simp only [List.find?]
      rw [show ((k, v).1 == k2) = false from by simpa using h,
        show (e.1 == k2) = false from by rw [hek]; simpa using h]
    · rw [if_neg he]
      by_cases he2 : (e.1 == k2) = true
      · unfold alistGet
        simp only [List.find?]
        rw [show (e.1 == k2) = true from he2]
      · unfold alistGet
        simp only [List.find?]
        rw [show (e.1 == k2) = false from by simpa using he2]
        exact ih

theorem range'_concat_own : ∀ (s n : Nat), List.range' s (n + 1) = List.range' s n ++ [s + n] := by
  intro s n
  induction n generalizing s with
  | zero => simp [List.range']
  | succ n ih =>
    have harith : s + 1 + n = s + (n + 1) := by omega
    rw [List.range'_succ, ih (s + 1), harith, List.range'_succ, List.cons_append]

theorem fresh_replayframes (s : Store) : (Store.fresh s).2.replayframes = s.replayframes :=
  rfl

theorem fresh_seqByRunId (s : Store) : (Store.fresh s).2.seqByRunId = s.seqByRunId := rfl

/-- For every run id, the stored `seq` values are exactly `1..counter`. -/
def framesContig (s : Store) : Prop :=
  ∀ rid : Nat,
    ((s.replayframes.filter (fun f => f.runId == rid)).map (fun f => f.seq)) =
    List.range' 1 ((alistGet s.seqByRunId rid).getD 0)

theorem appendReplay_FC (s : Store) (rid : Nat) (source : RunSource) (eventType : String)
    (sd pr : Option String) (ts : Nat) (h : framesContig s) :
    framesContig (appendReplay s rid source eventType sd pr ts).1 := by
  intro rid2
  unfold appendReplay
  dsimp only
  rw [List.filter_append, List.map_append]
  simp only [fresh_replayframes, fresh_seqByRunId]
  by_cases he : rid2 = rid
  · subst he
    rw [alistGet_set_self]
    simp only [List.filter_cons, List.filter_nil]
    rw [if_pos (by simp)]
    try dsimp only
    rw [h rid2]
    simp only [Option.getD_some]
    rw [range'_concat_own]
    have : 1 + (alistGet s.seqByRunId rid2).getD 0 = (alistGet s.seqByRunId rid2).getD 0 + 1 := by
      omega
    rw [this]
    simp only [List.map_cons, List.map_nil]
  · rw [alistGet_set_ne _ _ _ _ (fun hh => he hh.symm)]
    simp only [List.filter_cons, List.filter_nil]
    rw [if_neg (by simp only [beq_iff_eq]; exact fun hh => he hh.symm)]
    try dsimp only
    rw [List.map_nil, List.append_nil]
    exact h rid2

theorem createDefaultStore_FC (ts : Nat) : framesContig (createDefaultStore ts) :=
  fun _ => rfl

theorem executeActionInStore_FC (store : Store) (input : ActionInput) (ts : Nat)
    (h : framesContig store) :
    framesContig (executeActionInStore store input ts).1 := by
  unfold executeActionInStore
  try dsimp only
  cases (evaluatePolicy input.seatId (jsTrim input.action) input.requireWritebackReceipt
      input.payload store).decision with
  | allow =>
    exact appendReplay_FC _ _ _ _ _ _ _ (appendReplay_FC _ _ _ _ _ _ _
      (appendReplay_FC _ _ _ _ _ _ _ h))
  | block =>
    exact appendReplay_FC _ _ _ _ _ _ _ (appendReplay_FC _ _ _ _ _ _ _ h)
  | escalate =>
    exact appendReplay_FC _ _ _ _ _ _ _ (appendReplay_FC _ _ _ _ _ _ _ h)

theorem reportJobFetch_FC (store : Store) (ar : ActionResult) (presetId : PresetId)
    (pagination : PaginationOptions) (validation : PayloadValidation) (actor : String)
    (source : RunSource) (ts : Nat) (net : Net) (h : framesContig store) :
    framesContig (reportJobFetch store ar presetId pagination validation actor source
      ts net).1 := by
  unfold reportJobFetch
  try dsimp only
  split <;> exact appendReplay_FC _ _ _ _ _ _ _ h

theorem maybeReportJob_FC (store : Store) (ar : ActionResult) (action : String)
    (payload : Option Payload) (actor : String) (source : RunSource) (ts : Nat)
    (net : Net) (h : framesContig store) :
    framesContig (maybeRunAppfolioReportJob store ar action payload actor source ts
      net).1 := by
  unfold maybeRunAppfolioReportJob
  split
  · exact h
  · dsimp only
    split
    · exact h
    · split
      · exact appendReplay_FC _ _ _ _ _ _ _ h
      · exact reportJobFetch_FC _ _ _ _ _ _ _ _ _ h

set_option maxHeartbeats 1600000 in
theorem workflowStep_FC (store : Store) (ar : ActionResult) (wid : WorkflowId)
    (gf : Option Payload) (fp : String → Option Payload) (ir : Bool) (mr : Nat)
    (actor : String) (source : RunSource) (ts fuel : Nat) (net : Net)
    (presetId : PresetId) (acc : List StepResult × Option SmartBillReviewSummary)
    (h : framesContig store) :
    framesContig (workflowStep store ar wid gf fp ir mr actor source ts fuel net
      presetId acc).1 := by
  unfold workflowStep
  dsimp only
  repeat' split
  all_goals
    first
    | exact h
    | exact appendReplay_FC _ _ _ _ _ _ _ h

theorem workflowStepsLoop_FC (wid : WorkflowId) (gf : Option Payload)
    (fp : String → Option Payload) (ir : Bool) (mr : Nat) (actor : String)
    (source : RunSource) (ts fuel : Nat) :
    ∀ (ps : List PresetId) (store : Store) (ar : ActionResult)
      (acc : List StepResult × Option SmartBillReviewSummary) (net : Net),
    framesContig store →
    framesContig (workflowStepsLoop wid gf fp ir mr actor source ts fuel ps
      (store, ar, acc, net)).1 := by
  intro ps
  induction ps with
  | nil => intro store ar acc net h; exact h
  | cons p rest ih =>
    intro store ar acc net h
    unfold workflowStepsLoop
    dsimp only
    exact ih _ _ _ _ (workflowStep_FC _ _ _ _ _ _ _ _ _ _ _ _ _ _ h)

set_option maxHeartbeats 8000000 in
theorem maybeWorkflowJob_FC (store : Store) (ar : ActionResult) (action : String)
    (payload : Option Payload) (actor : String) (source : RunSource) (ts fuel : Nat)
    (net : Net) (h : framesContig store) :
    framesContig (maybeRunAppfolioWorkflowJob store ar action payload actor source ts
      fuel net).1 := by
  unfold maybeRunAppfolioWorkflowJob
  split
  · exact h
  · dsimp only
    split
    · exact h
    · dsimp only
      repeat' split
      all_goals
        first
        | exact workflowStepsLoop_FC _ _ _ _ _ _ _ _ _ _ _ _ _ _ h
        | exact appendReplay_FC _ _ _ _ _ _ _
            (workflowStepsLoop_FC _ _ _ _ _ _ _ _ _ _ _ _ _ _ h)


theorem executeWorkforceActionPre_FC (store : Store) (input : ActionInput)
    (ts fuel : Nat) (net : Net) (s : Store) (r : ActionResult) (n : Net)
    (hok : executeWorkforceActionPre store input ts fuel net = .ok (s, r, n))
    (h : framesContig store) : framesContig s := by
  unfold executeWorkforceActionPre sanitizeStore at hok
  dsimp only at hok
  cases hns : normalizeSeatId input.seatId with
  | none => rw [hns] at hok; exact Except.noConfusion hok
  | some seatId =>
    rw [hns] at hok
    dsimp only at hok
    split at hok
    · exact Except.noConfusion hok
    · simp only [Except.ok.injEq, Prod.mk.injEq] at hok
      obtain ⟨hs, -, -⟩ := hok
      subst hs
      exact maybeWorkflowJob_FC _ _ _ _ _ _ _ _ _
        (maybeReportJob_FC _ _ _ _ _ _ _ _ (executeActionInStore_FC _ _ _ h))

theorem resolveWorkforceDecisionPre_FC (store : Store) (id : Nat) (res : Resolution)
    (actor : Option String) (ts : Nat) (s : Store) (d : DecisionCard) (b : Bool)
    (hok : resolveWorkforceDecisionPre store id res actor ts = .ok (s, d, b))
    (h : framesContig store) : framesContig s := by
  unfold resolveWorkforceDecisionPre sanitizeStore at hok
  dsimp only at hok
  cases hf : store.decisions.find? (fun e => e.decisionId == id) with
  | none => rw [hf] at hok; exact Except.noConfusion hok
  | some decision =>
    rw [hf] at hok
    dsimp only at hok
    split at hok
    · simp only [Except.ok.injEq, Prod.mk.injEq] at hok
      obtain ⟨hs, -, -⟩ := hok
      subst hs
      exact h
    · simp only [Except.ok.injEq, Prod.mk.injEq] at hok
      obtain ⟨hs, -, -⟩ := hok
      subst hs
      split
      · exact appendReplay_FC _ _ _ _ _ _ _ h
      · exact h

theorem replayWorkforceRunPre_FC (store : Store) (rid : Nat) (actor : Option String)
    (ts : Nat) (s : Store) (r : ActionResult)
    (hok : replayWorkforceRunPre store rid actor ts = .ok (s, r))
    (h : framesContig store) : framesContig s := by
  unfold replayWorkforceRunPre sanitizeStore at hok
  dsimp only at hok
  cases hf : store.runs.find? (fun r2 => r2.runId == rid) with
  | none => rw [hf] at hok; exact Except.noConfusion hok
  | some sourceRun =>
    rw [hf] at hok
    dsimp only at hok
    simp only [Except.ok.injEq, Prod.mk.injEq] at hok
    obtain ⟨hs, -⟩ := hok
    subst hs
    exact appendReplay_FC _ _ _ _ _ _ _ (executeActionInStore_FC _ _ _ h)

theorem addSchedulePre_FC (store : Store) (seatIdRaw name : String) (intervalMsRaw : Int)
    (action : String) (ts : Nat) (s : Store) (sch : Schedule)
    (hok : addWorkforceSchedulePre store seatIdRaw name intervalMsRaw action ts =
      .ok (s, sch))
    (h : framesContig store) : framesContig s := by
  unfold addWorkforceSchedulePre sanitizeStore at hok
  dsimp only at hok
  cases hns : normalizeSeatId seatIdRaw with
  | none => rw [hns] at hok; exact Except.noConfusion hok
  | some seatId =>
    rw [hns] at hok
    dsimp only at hok
    simp only [Except.ok.injEq, Prod.mk.injEq] at hok
    obtain ⟨hs, -⟩ := hok
    subst hs
    exact h

theorem tickStep_FC (actor : Option String) (ts fuel : Nat) (store : Store)
    (idx : Nat) (net : Net) (h : framesContig store) :
    framesContig (tickStep actor ts fuel store idx net).1 := by
  unfold tickStep
  cases hget : store.schedules.get? idx with
  | none => exact h
  | some sch =>
    dsimp only
    split
    · exact h
    · split
      · exact h
      · cases hns : normalizeSeatId sch.seatId with
        | none => exact h
        | some seatId =>
          dsimp only
          split
          · exact h
          · dsimp only
            exact maybeWorkflowJob_FC _ _ _ _ _ _ _ _ _
              (maybeReportJob_FC _ _ _ _ _ _ _ _ (executeActionInStore_FC _ _ _ h))

theorem tickLoop_FC (actor : Option String) (ts fuel : Nat) :
    ∀ (remaining idx : Nat) (store : Store) (triggered : List ActionResult)
      (flags : List Bool) (net : Net),
    framesContig store →
    framesContig (tickLoop actor ts fuel remaining idx
      (store, triggered, flags, net)).1 := by
  intro remaining
  induction remaining with
  | zero => intro idx store triggered flags net h; exact h
  | succ remaining ih =>
    intro idx store triggered flags net h
    unfold tickLoop
    dsimp only
    rcases hstep : tickStep actor ts fuel store idx net with ⟨s2, res, ran, net2⟩
    have h2 : framesContig s2 := by
      have h3 := tickStep_FC actor ts fuel store idx net h
      rw [hstep] at h3
      exact h3
    cases res with
    | none => exact ih (idx + 1) s2 triggered (flags ++ [ran]) net2 h2
    | some r2 => exact ih (idx + 1) s2 (triggered ++ [r2]) (flags ++ [ran]) net2 h2

/-- One non-trimming operation preserves frame contiguity. -/
theorem applyOp_FC (s : Store) (op : Op) (hnt : opNoTrim s op = true)
    (h : framesContig s) : framesContig (applyOp s op) := by
  cases op with
  | exec input oracle fuel ts =>
    dsimp only [applyOp]
    unfold executeWorkforceAction
    cases hpre : executeWorkforceActionPre s input ts fuel
        { oracle := oracle, calls := 0 } with
    | error e => exact h
    | ok p =>
      obtain ⟨s1, r1, n1⟩ := p
      dsimp only
      have h1 : applyOpPre s (Op.exec input oracle fuel ts) = some s1 := by
        show (match executeWorkforceActionPre s input ts fuel
              { oracle := oracle, calls := 0 } with
          | Except.ok (so, _, _) => some so
          | Except.error _ => none) = some s1
        rw [hpre]
      have hcaps : withinCaps s1 = true := by
        unfold opNoTrim at hnt
        rw [h1] at hnt
        exact hnt
      rw [trimStore_eq s1 hcaps]
      exact executeWorkforceActionPre_FC _ _ _ _ _ _ _ _ hpre h
  | resolve id res actor ts =>
    dsimp only [applyOp]
    unfold resolveWorkforceDecision
    cases hpre : resolveWorkforceDecisionPre s id res actor ts with
    | error e => exact h
    | ok p =>
      obtain ⟨s1, d1, b1⟩ := p
      cases b1 with
      | true =>
        dsimp only
        have h1 : applyOpPre s (Op.resolve id res actor ts) = some s1 := by
          show (match resolveWorkforceDecisionPre s id res actor ts with
            | Except.ok (so, _, true) => some so
            | _ => none) = some s1
          rw [hpre]
        have hcaps : withinCaps s1 = true := by
          unfold opNoTrim at hnt
          rw [h1] at hnt
          exact hnt
        rw [trimStore_eq s1 hcaps]
        exact resolveWorkforceDecisionPre_FC _ _ _ _ _ _ _ _ hpre h
      | false =>
        dsimp only
        exact resolveWorkforceDecisionPre_FC _ _ _ _ _ _ _ _ hpre h
  | replay rid actor ts =>
    dsimp only [applyOp]
    unfold replayWorkforceRun
    cases hpre : replayWorkforceRunPre s rid actor ts with
    | error e => exact h
    | ok p =>
      obtain ⟨s1, r1⟩ := p
      dsimp only
      have h1 : applyOpPre s (Op.replay rid actor ts) = some s1 := by
        show (match replayWorkforceRunPre s rid actor ts with
          | Except.ok (so, _) => some so
          | Except.error _ => none) = some s1
        rw [hpre]
      have hcaps : withinCaps s1 = true := by
        unfold opNoTrim at hnt
        rw [h1] at hnt
        exact hnt
      rw [trimStore_eq s1 hcaps]
      exact replayWorkforceRunPre_FC _ _ _ _ _ _ hpre h
  | tick actor oracle fuel ts =>
    dsimp only [applyOp]
    unfold tickWorkforceSchedules
    dsimp only
    have hcaps : withinCaps (tickWorkforceSchedulesPre s actor ts fuel
        { oracle := oracle, calls := 0 }).1 = true := by
      have h1 : applyOpPre s (Op.tick actor oracle fuel ts) =
          some (tickWorkforceSchedulesPre s actor ts fuel
            { oracle := oracle, calls := 0 }).1 := rfl
      unfold opNoTrim at hnt
      rw [h1] at hnt
      exact hnt
    rw [trimStore_eq _ hcaps]
    unfold tickWorkforceSchedulesPre sanitizeStore
    dsimp only
    exact tickLoop_FC actor ts fuel s.schedules.length 0 s [] []
      { oracle := oracle, calls := 0 } h
  | scheduleAdd seatId name intervalMs action ts =>
    dsimp only [applyOp]
    unfold addWorkforceSchedule
    cases hpre : addWorkforceSchedulePre s seatId name intervalMs action ts with
    | error e => exact h
    | ok p =>
      obtain ⟨s1, sch1⟩ := p
      dsimp only
      have h1 : applyOpPre s (Op.scheduleAdd seatId name intervalMs action ts) =
          some s1 := by
        show (match addWorkforceSchedulePre s seatId name intervalMs action ts with
          | Except.ok (so, _) => some so
          | Except.error _ => none) = some s1
        rw [hpre]
      have hcaps : withinCaps s1 = true := by
        unfold opNoTrim at hnt
        rw [h1] at hnt
        exact hnt
      rw [trimStore_eq s1 hcaps]
      exact addSchedulePre_FC _ _ _ _ _ _ _ _ hpre h
  | writeback actor note artifact ts =>
    dsimp only [applyOp]
    unfold recordAppfolioWritebackReceipt
    dsimp only
    have hcaps : withinCaps (recordAppfolioWritebackReceiptPre s actor note artifact
        ts).1 = true := by
      have h1 : applyOpPre s (Op.writeback actor note artifact ts) =
          some (recordAppfolioWritebackReceiptPre s actor note artifact ts).1 := rfl
      unfold opNoTrim at hnt
      rw [h1] at hnt
      exact hnt
    rw [trimStore_eq _ hcaps]
    exact h
  | ensure force ts =>
    dsimp only [applyOp]
    unfold ensureStore sanitizeStore
    dsimp only
    split
    · exact fun _ => rfl
    · exact h

/-- Claim C3 (amended): as long as no history trimming has occurred, the
    `seq` values stored for each run id are exactly the contiguous range
    `1..counter` in insertion order.  (With trimming, the oldest frames are
    dropped and the remaining `seq` values for a run no longer start at 1.) -/
theorem claim3_amended (ts0 : Nat) (ops : List Op)
    (hnt : noTrimSeq (initialStore ts0) ops = true) :
    ∀ rid : Nat,
      (((applyOps (initialStore ts0) ops).replayframes.filter
        (fun f => f.runId == rid)).map (fun f => f.seq)) =
      List.range' 1
        ((alistGet (applyOps (initialStore ts0) ops).seqByRunId rid).getD 0) := by
  have hgen : ∀ (l : List Op) (s : Store), noTrimSeq s l = true → framesContig s →
      framesContig (l.foldl applyOp s) := by
    intro l
    induction l with
    | nil => intro s _ h; exact h
    | cons op rest ih =>
      intro s hnt2 h
      simp only [noTrimSeq, Bool.and_eq_true] at hnt2
      obtain ⟨h1, h2⟩ := hnt2
      exact ih _ h2 (applyOp_FC s op h1 h)
  exact hgen ops (initialStore ts0) hnt (createDefaultStore_FC ts0)

def c3wop : Op := Op.exec { seatId := "scheduler", action := "calendar.sync" }
  (fun _ => { ok := false }) 0 0

theorem claim3_witness :
    (((applyOps (initialStore 0) [c3wop]).replayframes.filter
      (fun f => f.runId == 0)).map (fun f => f.seq)) =
    List.range' 1
      ((alistGet (applyOps (initialStore 0) [c3wop]).seqByRunId 0).getD 0) :=
  claim3_amended 0 [c3wop] (by decide) 0


/-! Counterexample machinery for C3: 6667 identical allowed actions overflow
    the 20000-frame cap, so the trim drops the first run's `seq = 1` frame
    while its `seq = 2,3` frames remain. -/

def c3op : Op := Op.exec { seatId := "queue-manager", action := "inventory.sync" }
  (fun _ => { ok := false }) 0 0

def c3base : Store := applyOps (initialStore 0) [c3op]

def mkFrames (k : Nat) : List ReplayFrame :=
  [ { frameId := 5 * k + 1, runId := 5 * k, seq := 1, eventType := "run.created",
      payloadRef := some "inventory.sync", stateDelta := some "status=ok", ts := 0,
      source := RunSource.workforce },
    { frameId := 5 * k + 3, runId := 5 * k, seq := 2, eventType := "run.running",
      payloadRef := none, stateDelta := some "status=running", ts := 0,
      source := RunSource.workforce },
    { frameId := 5 * k + 4, runId := 5 * k, seq := 3, eventType := "run.completed",
      payloadRef := none, stateDelta := some "status=ok", ts := 0,
      source := RunSource.workforce } ]

def c3seq (n : Nat) : List (Nat × Nat) := (List.range' 0 n).map (fun k => (5 * k, 3))

def c3frames (n : Nat) : List ReplayFrame := (List.range' 0 n).flatMap mkFrames

/-- The store shape after `n ≥ 1` of the counterexample operations (before
    the frame cap is reached). -/
def PInv (n : Nat) (s : Store) : Prop :=
  s.seats = c3base.seats ∧ s.queues = c3base.queues ∧ s.workspace = c3base.workspace ∧
  s.decisions = [] ∧ s.runs.length = min n 5000 ∧ s.receipts.length = n ∧
  s.replayframes = c3frames n ∧ s.seqByRunId = c3seq n ∧ s.nextId = 5 * n

theorem c3seq_find_none (n : Nat) :
    (c3seq n).find? (fun e => e.1 == 5 * n) = none := by
  rw [List.find?_eq_none]
  intro e he
  rcases List.mem_map.mp he with ⟨k, hk, rfl⟩
  rcases List.mem_range'_1.mp hk with ⟨-, hk2⟩
  simp only [beq_iff_eq]
  omega

theorem c3seq_get_none (n : Nat) : alistGet (c3seq n) (5 * n) = none := by
  unfold alistGet
  rw [c3seq_find_none]
  rfl

theorem alistSet_append_new {κ α : Type} [BEq κ] (m : List (κ × α)) (k : κ) (v : α)
    (h : m.find? (fun e => e.1 == k) = none) :
    alistSet m k v = m ++ [(k, v)] := by
  induction m with
  | nil => rfl
  | cons e rest ih =>
    rw [List.find?_cons] at h
    unfold alistSet
    cases hek : (e.1 == k) with
    | true => rw [hek] at h; exact absurd h (by simp)
    | false =>
      rw [hek] at h
      rw [if_neg (by simp [hek])]
      rw [ih h]
      rfl

theorem alistSet_end {κ α : Type} [BEq κ] [LawfulBEq κ] (m : List (κ × α)) (k : κ)
    (v v2 : α) (h : m.find? (fun e => e.1 == k) = none) :
    alistSet (m ++ [(k, v)]) k v2 = m ++ [(k, v2)] := by
  induction m with
  | nil =>
    show alistSet [(k, v)] k v2 = [(k, v2)]
    unfold alistSet
    rw [if_pos (by simp)]
  | cons e rest ih =>
    rw [List.find?_cons] at h
    cases hek : (e.1 == k) with
    | true => rw [hek] at h; exact absurd h (by simp)
    | false =>
      rw [hek] at h
      show alistSet (e :: (rest ++ [(k, v)])) k v2 = e :: (rest ++ [(k, v2)])
      unfold alistSet
      rw [if_neg (by simp [hek])]
      rw [ih h]

theorem alistGet_end {κ α : Type} [BEq κ] [LawfulBEq κ] (m : List (κ × α)) (k : κ)
    (v : α) (h : m.find? (fun e => e.1 == k) = none) :
    alistGet (m ++ [(k, v)]) k = some v := by
  induction m with
  | nil => simp [alistGet]
  | cons e rest ih =>
    rw [List.find?_cons] at h
    cases hek : (e.1 == k) with
    | true => rw [hek] at h; exact absurd h (by simp)
    | false =>
      rw [hek] at h
      show alistGet (e :: (rest ++ [(k, v)])) k = some v
      unfold alistGet
      simp only [List.find?]
      rw [hek]
      exact ih h

theorem c3seq_succ (n : Nat) : c3seq n ++ [(5 * n, 3)] = c3seq (n + 1) := by
  unfold c3seq
  rw [range'_concat_own, List.map_append]
  simp

theorem c3frames_succ (n : Nat) : c3frames n ++ mkFrames n = c3frames (n + 1) := by
  unfold c3frames
  rw [range'_concat_own, List.flatMap_append]
  simp


def c3run (n : Nat) : Run :=
  { runId := 5 * n, source := RunSource.workforce, seatId := "queue-manager",
    action := "inventory.sync", riskLevel := RiskLevel.low,
    policyProfile := ProfileId.balanced, policyDecision := PolicyDecision.allow,
    status := RunStatus.ok, startedAtMs := 0, endedAtMs := some 0,
    summary := some "autonomy_allow",
    artifacts := ["seat:queue-manager", "risk:low"] }

def c3rc (n : Nat) : Receipt :=
  { receiptId := 5 * n + 2, runId := some (5 * n), decisionId := none,
    actor := "workforce", action := "inventory.sync", outcome := "allow", ts := 0,
    artifacts := ["profile:balanced", "risk:low"],
    signature := createReceiptSignature (5 * n + 2) (some (5 * n)) none "workforce"
      "inventory.sync" "allow" 0 ["profile:balanced", "risk:low"] }

theorem c3_policy (s : Store) (hq : s.queues = c3base.queues)
    (hw : s.workspace = c3base.workspace) :
    evaluatePolicy "queue-manager" (jsTrim "inventory.sync") false none s =
      { decision := PolicyDecision.allow, reason := "autonomy_allow",
        profile := ProfileId.balanced } := by
  have hc : evaluatePolicy "queue-manager" (jsTrim "inventory.sync") false none s =
      evaluatePolicy "queue-manager" (jsTrim "inventory.sync") false none c3base := by
    simp only [evaluatePolicy, findQueue, Bool.false_and]
    simp only [hq, hw]
  rw [hc]
  decide

theorem c3_seats_id :
    updateFirst (fun st => st.id == "queue-manager")
      (fun st => { st with
        status := if True then SeatStatus.idle else SeatStatus.blocked,
        lastRunAtMs := some 0 }) c3base.seats = c3base.seats := by
  decide

theorem c3_queues_id :
    updateFirst (fun q => q.id == "queue:" ++ "queue-manager")
      (fun q => if q.pending > 0 then { q with pending := q.pending - 1 } else q)
      c3base.queues = c3base.queues := by
  decide

theorem c3_exec_eq (n : Nat) (s : Store)
    (hse : s.seats = c3base.seats) (hq : s.queues = c3base.queues)
    (hw : s.workspace = c3base.workspace)
    (hsq : s.seqByRunId = c3seq n) (hn : s.nextId = 5 * n) :
    (executeActionInStore s { seatId := "queue-manager", action := "inventory.sync" } 0).1 =
    { s with
      seats := c3base.seats,
      queues := c3base.queues,
      runs := s.runs ++ [c3run n],
      receipts := s.receipts ++ [c3rc n],
      replayframes := s.replayframes ++ mkFrames n,
      seqByRunId := c3seq (n + 1),
      nextId := 5 * (n + 1) } := by
  have hpol : evaluatePolicy "queue-manager" (jsTrim "inventory.sync") false none s =
      { decision := PolicyDecision.allow, reason := "autonomy_allow",
        profile := ProfileId.balanced } := c3_policy s hq hw
  unfold executeActionInStore
  dsimp only
  rw [hpol]
  dsimp only
  simp only [Store.fresh]
  try dsimp only
  rw [hse]
  simp only [appendReplay, appendReceipt, decrementQueuePending, Store.fresh]
  try dsimp only
  rw [hsq, hn]
  rw [c3_seats_id]
  rw [hq, c3_queues_id]
  rw [c3seq_get_none]
  try dsimp only [Option.getD]
  rw [alistSet_append_new (c3seq n) (5 * n) _ (c3seq_find_none n)]
  rw [alistGet_end (c3seq n) (5 * n) _ (c3seq_find_none n)]
  try dsimp only [Option.getD]
  rw [alistSet_end (c3seq n) (5 * n) _ _ (c3seq_find_none n)]
  rw [alistGet_end (c3seq n) (5 * n) _ (c3seq_find_none n)]
  try dsimp only [Option.getD]
  rw [alistSet_end (c3seq n) (5 * n) _ _ (c3seq_find_none n)]
  rw [← c3seq_succ]
  simp only [List.append_assoc]
  rfl


theorem c3frames_length (n : Nat) : (c3frames n).length = 3 * n := by
  induction n with
  | zero => rfl
  | succ k ih =>
    rw [← c3frames_succ, List.length_append, ih]
    show 3 * k + 3 = 3 * (k + 1)
    omega

theorem c3base_PInv : PInv 1 c3base := by
  unfold PInv
  refine ⟨rfl, rfl, rfl, ?_, ?_, ?_, ?_, ?_, ?_⟩ <;> decide

theorem applyOp_c3op_eq (s : Store) : applyOp s c3op = trimStore
    { (executeActionInStore s { seatId := "queue-manager", action := "inventory.sync" } 0).1
      with updatedAtMs := 0 } := rfl

theorem c3_step (n : Nat) (s : Store) (h2 : n ≤ 6665) (hp : PInv n s) :
    PInv (n + 1) (applyOp s c3op) := by
  obtain ⟨hse, hq, hw, hd, hr, hc, hf, hsq, hn⟩ := hp
  rw [applyOp_c3op_eq, c3_exec_eq n s hse hq hw hsq hn]
  have hfr : s.replayframes ++ mkFrames n = c3frames (n + 1) := by rw [hf, c3frames_succ]
  have hrunsLen : (s.runs ++ [c3run n]).length = min n 5000 + 1 := by
    rw [List.length_append, hr]
    rfl
  have hrcLen : (s.receipts ++ [c3rc n]).length = n + 1 := by
    rw [List.length_append, hc]
    rfl
  unfold trimStore PInv
  try dsimp only
  rw [hd, hfr]
  refine ⟨rfl, rfl, hw, ?_, ?_, ?_, ?_, rfl, rfl⟩
  · rfl
  · simp only [List.length_drop, hrunsLen, MAX_STORED_RUNS]
    rcases Nat.lt_or_ge n 5000 with hlt | hge
    · rw [if_neg (by omega)]
      rw [hrunsLen]
      omega
    · rw [if_pos (by omega)]
      rw [List.length_drop, hrunsLen]
      omega
  · simp only [hrcLen, MAX_STORED_RECEIPTS]
    rw [if_neg (by omega)]
    rw [hrcLen]
  · simp only [c3frames_length, MAX_STORED_REPLAYFRAMES]
    rw [if_neg (by omega)]


theorem applyOps_concat (s : Store) (ops : List Op) (op : Op) :
    applyOps s (ops ++ [op]) = applyOp (applyOps s ops) op := by
  unfold applyOps
  rw [List.foldl_append]
  rfl

theorem c3_iter : ∀ m : Nat, m ≤ 6665 →
    PInv (m + 1) (applyOps (initialStore 0) (List.replicate (m + 1) c3op)) := by
  intro m
  induction m with
  | zero => intro h; exact c3base_PInv
  | succ k ih =>
    intro hk
    rw [List.replicate_succ', applyOps_concat]
    exact c3_step (k + 1) _ (by omega) (ih (by omega))

theorem c3_final_frames :
    (applyOps (initialStore 0) (List.replicate 6667 c3op)).replayframes =
    (c3frames 6667).drop 1 := by
  obtain ⟨hse, hq, hw, hd, hr, hc, hf, hsq, hn⟩ := c3_iter 6665 (Nat.le_refl 6665)
  have hsplit : List.replicate 6667 c3op = List.replicate 6666 c3op ++ [c3op] :=
    List.replicate_succ' 6666 c3op
  rw [hsplit, applyOps_concat]
  rw [applyOp_c3op_eq, c3_exec_eq 6666 _ hse hq hw hsq hn]
  have hfr : (applyOps (initialStore 0) (List.replicate 6666 c3op)).replayframes ++
      mkFrames 6666 = c3frames 6667 := by rw [hf, c3frames_succ]
  unfold trimStore
  try dsimp only
  rw [hfr]
  rw [c3frames_length 6667]
  rw [show MAX_STORED_REPLAYFRAMES = 20000 from rfl]
  rw [if_pos (by norm_num)]

theorem c3frames_cons : c3frames 6667 = mkFrames 0 ++ (List.range' 1 6666).flatMap mkFrames := by
  show (List.range' 0 6667).flatMap mkFrames = _
  rw [show List.range' 0 6667 = 0 :: List.range' 1 6666 from rfl, List.flatMap_cons]

theorem c3tail_filter :
    ((List.range' 1 6666).flatMap mkFrames).filter (fun f => f.runId == 0) = [] := by
  rw [List.filter_eq_nil]
  intro f hfm
  rcases List.mem_flatMap.mp hfm with ⟨k, hk, hfk⟩
  rcases List.mem_range'_1.mp hk with ⟨hk1, -⟩
  have hrid : f.runId = 5 * k := by
    simp only [mkFrames, List.mem_cons, List.not_mem_nil, or_false] at hfk
    rcases hfk with rfl | rfl | rfl <;> rfl
  simp only [beq_iff_eq, hrid]
  omega

/-- C3 as stated: after any operation sequence from the default store, the
    seq values of the frames stored for a runId, in insertion order, are
    exactly 1, 2, ..., n. -/
def claim3Statement : Prop :=
  ∀ (ts0 : Nat) (ops : List Op) (rid : Nat),
    ((applyOps (initialStore ts0) ops).replayframes.filter
        (fun f => f.runId == rid)).map (fun f => f.seq) =
      List.range' 1 ((applyOps (initialStore ts0) ops).replayframes.filter
        (fun f => f.runId == rid)).length

/-- C3 fails once the replay-frame cap trims history: 6667 allowed actions
    (3 frames each) overflow MAX_STORED_REPLAYFRAMES = 20000, dropping run 0's
    seq-1 frame; its remaining seqs are [2, 3], not [1, 2]. -/
theorem claim3_counterexample : ¬ claim3Statement := by
  intro h
  have h0 := h 0 (List.replicate 6667 c3op) 0
  rw [c3_final_frames] at h0
  have hdrop : (c3frames 6667).drop 1 =
      (mkFrames 0).drop 1 ++ (List.range' 1 6666).flatMap mkFrames := by
    rw [c3frames_cons]
    rfl
  rw [hdrop, List.filter_append, c3tail_filter, List.append_nil] at h0
  exact absurd h0 (by decide)

end OpenClaw
